import Mathlib

/-!
# Game-server matchmaking coordinator: shallow embedding

Embedding of the handlers of `src/coordinator` (an App Engine service written in Go)
as pure functions on an explicit world state.

* The datastore is an arena: a table is a list of slots, a key is a slot index, a deleted
  entity leaves an empty slot, and an incomplete key allocates the next index. Kind queries
  enumerate the live slots in key order.
* Memcache is two association lists keyed by region (the two key prefixes used by the
  program differ in their first character, so the two families never collide).
* The task queue is the list of tasks added so far.
* `time.Time` is a number of nanoseconds, `time.Duration` an integer number of nanoseconds.
  All clock reads of one handler invocation are identified with a single instant `now`.
* Every fallible I/O call takes a fault flag: the call fails exactly when the flag is set.
* `Fill` is kept as an exact rational (Go stores the `float32` quotient), and the filters
  and orders of the datastore queries on it are read numerically.
* `Seconds()` and `Minutes()` of a duration are exact rationals; the comparisons the program
  makes with them (against 1 and 60) have the same outcome on the `float64` values.
-/

namespace Coordinator

/-! ## Constants -/

-- model-user.go
def mmStatusInQueue : Int := 0
def mmStatusJoinedMatch : Int := 1
def mmStatusMatchmakingCancelled : Int := 2
def mmStatusMatchmakingFailed : Int := 3

-- model-gameserver.go
def serverStateInitializing : Int := 0
def serverStateActive : Int := 1
def serverStateEnding : Int := 2
def serverStateTerminating : Int := 3

-- handler-client-requests.go
def authenticateWithSteam : Bool := true
def nonSteamAuthenticationToken : String := "SecretAuthToken"
def joinDelaySeconds : Nat := 1
def mmUserResetMatchmakeTime : ℚ := 1

-- handler-matchmaker.go
def userNotFoundRetryAttempts : Int := 3
def noServersRetryAttempts : Int := 5

-- handler-server-manager.go
def serverFullThreshold : ℚ := 8 / 10
def allocateNewServerThreshold : ℚ := 75 / 100
def serverTimeoutExpirationDuration : ℚ := 60
def serverAgeExpirationDuration : ℚ := 60
def defaultMaxPlayers : Int := 64
def serverInitDelaySeconds : Nat := 10
def maxAllocateAttempts : Int := 4
def maxAllocationCheckAttempts : Int := 4
def maxServersPerRegion : Nat := 10

-- handler-stats.go
def userRecordExpiryTime : Int := 1
def joinRecordExpiryTime : Int := 1

-- api-storage.go
def maxDatastoreRecordsToDelete : Nat := 500

-- api-clanforge.go
def naRegionName : String := "na"
def euRegionName : String := "eu"

/-! ## Time -/

/-- A `time.Time`, in nanoseconds. -/
abbrev Time := Int

/-- A `time.Duration`, in nanoseconds. -/
abbrev Duration := Int

def Nanosecond : Duration := 1
def Second : Duration := 1000000000
def Minute : Duration := 60 * Second
def Hour : Duration := 60 * Minute

-- the bounds of an int64: -2^63 and 2^63 - 1
def minDuration : Duration := -9223372036854775808
def maxDuration : Duration := 9223372036854775807

/-- Go `Time.Sub`: the difference, saturated to the range of a `Duration`. -/
def Time.Sub (t u : Time) : Duration :=
  if t - u < minDuration then minDuration
  else if maxDuration < t - u then maxDuration
  else t - u

/-- Go `Duration.Seconds`, as an exact rational (Go returns the nearest `float64` of
`d / Second + (d % Second) / 1e9`). -/
def Duration.Seconds (d : Duration) : ℚ := (d : ℚ) / 1000000000

/-- Go `Duration.Minutes`, as an exact rational. -/
def Duration.Minutes (d : Duration) : ℚ := (d : ℚ) / 60000000000

/-! ## Entities -/

-- model-user.go
structure mmUser where
  UserID : String
  MMTok : String
  MMStatus : Int
  CreationTime : Time
  CheckTime : Time
  JoinTok : String
  ServerAddr : String
  ServerPort : Int
  deriving DecidableEq, Repr

-- model-gameserver.go
structure gameServer where
  UUID : String
  Address : String
  Port : Int
  Region : String
  State : Int
  CreationTime : Time
  CheckTime : Time
  PlayerCount : Int
  MaxPlayerCount : Int
  Fill : ℚ
  deriving DecidableEq, Repr

-- model-joinrecord.go
structure joinRecord where
  UserID : String
  ServerID : String
  Region : String
  JoinToken : String
  CreationTime : Time
  Checked : Bool
  deriving DecidableEq, Repr

-- handler-server-manager.go
structure serverStats where
  Region : String
  Timestamp : Time
  TotalServers : Int
  TotalCurrentPlayers : Int
  TotalMaxPlayers : Int
  deriving DecidableEq, Repr

-- handler-server-manager.go
structure gameServerReport where
  UUID : String
  State : Int
  Full : Bool
  Expired : Bool
  deriving DecidableEq, Repr

-- handler-server-requests.go
structure joinInfo where
  UserID : String
  JoinToken : String
  deriving DecidableEq, Repr

/-! ## Datastore tables -/

/-- A datastore key of one kind: the index of the entity's slot. -/
abbrev Key := Nat

/-- The entities of one kind, slot by slot; `none` is a deleted entity. -/
abbrev Table (α : Type) := List (Option α)

namespace Table

variable {α : Type}

/-- The call `datastore.Get`: the entity stored under the key, if any. -/
def get (t : Table α) (k : Key) : Option α :=
  match t[k]? with
  | some (some v) => some v
  | _ => none

/-- The call `datastore.Put` with a complete key: insert or overwrite. -/
def put (t : Table α) (k : Key) (v : α) : Table α :=
  if k < t.length then t.set k (some v)
  else t ++ List.replicate (k - t.length) none ++ [some v]

/-- The call `datastore.Put` with an incomplete key: a new key is allocated. -/
def insert (t : Table α) (v : α) : Key × Table α := (t.length, t ++ [some v])

/-- Deletion of one key. -/
def delete (t : Table α) (k : Key) : Table α := t.set k none

/-- The call `datastore.DeleteMulti`. -/
def deleteMulti (t : Table α) (ks : List Key) : Table α := ks.foldl delete t

/-- The live entities from slot `i` on, with their keys, in key order. -/
def entriesFrom : Nat → Table α → List (Key × α)
  | _, [] => []
  | i, none :: r => entriesFrom (i + 1) r
  | i, some v :: r => (i, v) :: entriesFrom (i + 1) r

/-- The result sequence of an unfiltered, unordered kind query. -/
def entries (t : Table α) : List (Key × α) := entriesFrom 0 t

end Table

/-! ## Task queue, cache, world -/

/-- A task handed to `taskqueue.Add`. -/
structure Task where
  queue : String
  path : String
  form : List (String × String)
  delaySeconds : Nat
  deriving DecidableEq, Repr

/-- A call to the provisioning API. -/
inductive ProviderCall where
  | allocate (serverID region : String)
  | allocations (serverID : String)
  | deallocate (serverID : String)
  deriving DecidableEq, Repr

/-- The state the handlers act on. -/
structure World where
  users : Table mmUser
  servers : Table gameServer
  joins : Table joinRecord
  stats : Table serverStats
  /-- Memcache entries `mmLastServerKey + region`, holding an encoded server key. -/
  lastServer : List (String × Key)
  /-- Memcache entries `activeAllocationsKey + region`, holding a decimal counter. -/
  activeAllocations : List (String × Nat)
  tasks : List Task
  /-- The calls made to the provisioning API so far. -/
  provider : List ProviderCall
  deriving DecidableEq, Repr

def emptyWorld : World :=
  { users := [], servers := [], joins := [], stats := [],
    lastServer := [], activeAllocations := [], tasks := [], provider := [] }

/-- The call `memcache.Set` on an association list. -/
def cacheSet {β : Type} (c : List (String × β)) (k : String) (v : β) : List (String × β) :=
  (k, v) :: c.filter (fun e => e.1 != k)

/-- The call `memcache.Delete` on an association list. -/
def cacheDelete {β : Type} (c : List (String × β)) (k : String) : List (String × β) :=
  c.filter (fun e => e.1 != k)

/-- The call `memcache.Increment`: the counter (or `initialValue` when the key is missing)
plus `delta`, capped below at zero and wrapping at `2^64`. Returns the new cache. -/
def cacheIncrement (c : List (String × Nat)) (k : String) (delta : Int) (initialValue : Nat) :
    List (String × Nat) :=
  let cur : Nat := (c.lookup k).getD initialValue
  cacheSet c k (Int.toNat ((cur : Int) + delta) % 2 ^ 64)

/-! ## HTTP responses -/

/-- One write to the response body. -/
inductive Chunk where
  | text (s : String)
  | joinReport (l : List joinInfo)
  | mmPoll (Status : Int)
  | mmPollFull (Status : Int) (JoinToken : String) (ServerAddress : String) (ServerPort : Int)
  deriving DecidableEq, Repr

/-- The status code and the sequence of body writes of a handler. -/
structure Response where
  code : Nat
  body : List Chunk
  deriving DecidableEq, Repr

/-- A handler that returns without writing: status 200, empty body. -/
def Response.ok : Response := { code := 200, body := [] }

/-- A run-time panic of a handler that has written nothing to the response yet: the
runtime recovers the panic and the request ends with status 500 and no body. -/
def Response.aborted : Response := { code := 500, body := [] }

/-- The call `http.Error(w, msg, code)` on a fresh response. -/
def httpError (msg : String) (code : Nat) : Response := { code := code, body := [.text msg] }

/-- A successful `fmt.Fprintf(w, ...)` or `w.Write(...)` on a fresh response. -/
def httpWrite (c : Chunk) : Response := { code := 200, body := [c] }

/-! ## Queries -/

/-- From model-user.go, `queryUser(ctx, "UserID =", userID)`: first match or `none` (Done). -/
def queryUserByUserID (w : World) (userID : String) : Option (Key × mmUser) :=
  w.users.entries.find? (fun e => e.2.UserID == userID)

/-- From model-user.go, `queryUser(ctx, "MMTok =", mmtok)`: first match or `none` (Done). -/
def queryUserByMMTok (w : World) (mmtok : String) : Option (Key × mmUser) :=
  w.users.entries.find? (fun e => e.2.MMTok == mmtok)

/-! ## enqueueHandler (handler-client-requests.go) -/

/-- The outcome of `steamAuth`. -/
structure SteamAuth where
  authenticated : Bool
  steamID : String
  err : Bool

/-- Fault flags of `enqueueHandler`. -/
structure EnqueueFaults where
  /-- The call `queryUser` fails with an error other than `datastore.Done`. -/
  queryUser : Bool
  taskAdd : Bool
  put : Bool

def noEnqueueFaults : EnqueueFaults := { queryUser := false, taskAdd := false, put := false }

/-- The task `/joinmatch` scheduled by `enqueueHandler`. -/
def joinMatchTask (mmtok region : String) : Task :=
  { queue := "default", path := "/joinmatch",
    form := [("mmtok", mmtok), ("region", region)], delaySeconds := joinDelaySeconds }

/-- The authentication prefix of `enqueueHandler` (lines 50-70): the error response, if any. -/
def enqueueAuth (userID authToken : String) (steam : SteamAuth) : Option Response :=
  if authenticateWithSteam then
    if steam.err then some (httpError "Unexpected error." 500)
    else if !steam.authenticated then some (httpError "Invalid Auth Token." 401)
    else if userID != steam.steamID then some (httpError "Invalid UserID." 401)
    else none
  else if authToken != nonSteamAuthenticationToken then
    some (httpError "Invalid Auth Token." 401)
  else none

/-- The branch of `enqueueHandler` for a user found in the store (lines 84-128). -/
def enqueueFound (region : String) (now : Time) (f : EnqueueFaults) (w : World)
    (key : Key) (user : mmUser) : Response × World :=
  let timeSinceLastCheck := (Time.Sub now user.CheckTime).Minutes
  let enoughTimeSinceLastCheck : Bool := decide (timeSinceLastCheck ≥ mmUserResetMatchmakeTime)
  let canQueue : Bool := user.MMStatus == mmStatusInQueue
    || (user.MMStatus == mmStatusJoinedMatch && enoughTimeSinceLastCheck)
  let canQueue : Bool :=
    if !canQueue then
      (user.MMStatus == mmStatusMatchmakingFailed
        || user.MMStatus == mmStatusMatchmakingCancelled) && enoughTimeSinceLastCheck
    else canQueue
  if canQueue then
    let mmtok := user.MMTok
    if enoughTimeSinceLastCheck then
      let user := { user with MMStatus := mmStatusInQueue, CheckTime := now }
      if f.taskAdd then (httpError "[Enqueue] Unexpected error." 500, w)
      else
        let w := { w with tasks := w.tasks ++ [joinMatchTask mmtok region] }
        if f.put then (httpError "Unexpected error." 500, w)
        else (httpWrite (.text mmtok), { w with users := w.users.put key user })
    else
      if f.put then (httpError "Unexpected error." 500, w)
      else (httpWrite (.text mmtok), { w with users := w.users.put key user })
  else (httpError "Unexpected error." 406, w)

/-- The branch of `enqueueHandler` for a new user (lines 129-158); `uuid` is the fresh
`uuid.NewV4().String()`. -/
def enqueueNew (userID region : String) (now : Time) (uuid : String) (f : EnqueueFaults)
    (w : World) : Response × World :=
  let mmtok := uuid
  let user : mmUser :=
    { UserID := userID, MMTok := mmtok, MMStatus := mmStatusInQueue, CreationTime := now,
      CheckTime := now, JoinTok := "", ServerAddr := "", ServerPort := 0 }
  if f.put then (httpError "[Enqueue] Unexpected error." 500, w)
  else
    let w := { w with users := (w.users.insert user).2 }
    if f.taskAdd then (httpError "[Enqueue] Unexpected error." 500, w)
    else (httpWrite (.text mmtok), { w with tasks := w.tasks ++ [joinMatchTask mmtok region] })

/-- The handler `enqueueHandler`. -/
def enqueueHandler (method userID authToken region : String) (steam : SteamAuth) (now : Time)
    (uuid : String) (f : EnqueueFaults) (w : World) : Response × World :=
  if method != "GET" then (httpError "Invalid Request." 400, w)
  else
    match enqueueAuth userID authToken steam with
    | some r => (r, w)
    | none =>
      if f.queryUser then (httpError "Unexpected error." 500, w)
      else
        match queryUserByUserID w userID with
        | some (key, user) => enqueueFound region now f w key user
        | none => enqueueNew userID region now uuid f w

/-! ## queryServer (model-gameserver.go) -/

/-- The first entry of least `Fill`: the head of `Order("Fill")` (ties in key order). -/
def minFill : List (Key × gameServer) → Option (Key × gameServer)
  | [] => none
  | e :: r =>
    match minFill r with
    | none => some e
    | some m => if m.2.Fill < e.2.Fill then some m else some e

/-- The filter of `queryServer`: `Region = region`, `State = serverStateActive`, and
`Fill > 0` (when `queryNonEmpty`) or `PlayerCount = 0` (otherwise). -/
def serverFilter (region : String) (queryNonEmpty : Bool) (s : gameServer) : Bool :=
  s.Region == region && s.State == serverStateActive
    && (if queryNonEmpty then decide (s.Fill > 0) else s.PlayerCount == 0)

/-- The function `queryServer` when the query itself does not fail: `none` is
`datastore.Done`. -/
def queryServer (w : World) (region : String) (queryNonEmpty : Bool) :
    Option (Key × gameServer) :=
  minFill (w.servers.entries.filter (fun e => serverFilter region queryNonEmpty e.2))

/-! ## joinMatchHandler (handler-matchmaker.go) -/

/-- Fault flags of `joinMatchHandler`. -/
structure JoinFaults where
  /-- The call `queryUser` fails with an error other than `datastore.Done`. -/
  queryUser : Bool
  /-- A `datastore.Put` of the user fails. -/
  userPut : Bool
  /-- The call `memcache.Get` fails other than by a miss, or the value does not decode. -/
  cacheGet : Bool
  /-- A `memcache.Delete` fails (the program ignores its result). -/
  cacheDelete : Bool
  /-- The call `memcache.Set` fails. -/
  cacheSet : Bool
  /-- The call `datastore.Get` of the cached server key fails for another reason than absence. -/
  serverGet : Bool
  /-- The call `queryServer(ctx, region, true)` fails with an error other than Done. -/
  queryNonEmpty : Bool
  /-- The call `queryServer(ctx, region, false)` fails with an error other than Done. -/
  queryEmpty : Bool
  serverPut : Bool
  joinPut : Bool

def noJoinFaults : JoinFaults :=
  { queryUser := false, userPut := false, cacheGet := false, cacheDelete := false,
    cacheSet := false, serverGet := false, queryNonEmpty := false, queryEmpty := false,
    serverPut := false, joinPut := false }

/-- The statement `memcache.Delete(ctx, mmLastServerKey+region)`. -/
def deleteLastServer (region : String) (f : JoinFaults) (w : World) : World :=
  if f.cacheDelete then w else { w with lastServer := cacheDelete w.lastServer region }

/-- The outcome of the server selection of `joinMatchHandler`. -/
inductive Selection where
  /-- The handler answers with an error and returns. -/
  | fail (r : Response)
  /-- The handler goes on with `serverKey` and `server`. -/
  | pick (serverKey : Key) (server : gameServer)
  deriving DecidableEq, Repr

/-- Lines 101-118: the key found in memcache is looked up in the store. -/
def selectCached (region : String) (f : JoinFaults) (w : World) (serverKey : Key) :
    Selection × World :=
  match (if f.serverGet then none else w.servers.get serverKey) with
  | none => (.fail (httpError "Unexpected error." 500), deleteLastServer region f w)
  | some server =>
    if server.State != serverStateActive then
      (.fail (httpError "Server in Invalid State." 500), deleteLastServer region f w)
    else if server.PlayerCount ≥ server.MaxPlayerCount then
      (.fail (httpError "Cached Server Full." 500), deleteLastServer region f w)
    else (.pick serverKey server, w)

/-- Lines 147-166: the queried server becomes the new last server of the region. When
`memcache.Set` fails, line 164 logs `sErr.Error()`; `sErr` is nil there, the query having
succeeded, so the call panics and the handler stops. (Encoding the key of a stored server
does not fail.) -/
def storeLastServer (region : String) (f : JoinFaults) (w : World) (sk : Key)
    (server : gameServer) : Selection × World :=
  if f.cacheSet then (.fail Response.aborted, w)
  else (.pick sk server, { w with lastServer := cacheSet w.lastServer region sk })

/-- Lines 120-166: the store is queried, first for a non-empty server, then for an empty
one. -/
def selectQueried (region : String) (f : JoinFaults) (w : World) : Selection × World :=
  if f.queryNonEmpty then (.fail (httpError "Unexpected error." 500), w)
  else
    match queryServer w region true with
    | none =>
      if f.queryEmpty then (.fail (httpError "Unexpected error." 500), w)
      else
        match queryServer w region false with
        | none => (.fail (httpError "No Available Servers" 503), w)
        | some (sk, server) =>
          if server.PlayerCount ≥ server.MaxPlayerCount then
            (.fail (httpError "Retrieved Server Full." 500), w)
          else storeLastServer region f w sk server
    | some (sk, server) =>
      if server.PlayerCount ≥ server.MaxPlayerCount then
        (.fail (httpError "Retrieved Server Full." 500), w)
      else storeLastServer region f w sk server

/-- Lines 81-167 of `joinMatchHandler`: the server selection. -/
def selectServer (region : String) (f : JoinFaults) (w : World) : Selection × World :=
  match (if f.cacheGet then none else w.lastServer.lookup region) with
  | some serverKey => selectCached region f w serverKey
  | none => selectQueried region f w

/-- The body written by `joinMatchHandler` on success. -/
def joinedMessage (mmtok : String) (user : mmUser) (server : gameServer) : String :=
  mmtok ++ " (" ++ user.UserID ++ ") joined " ++ server.UUID ++ " (" ++ server.Address
    ++ ", " ++ toString server.Port ++ ")"

/-- Lines 169-218 of `joinMatchHandler`: the join on the selected server; `joinTok` is the
fresh `uuid.NewV4().String()`. -/
def joinServer (mmtok region : String) (now : Time) (joinTok : String) (f : JoinFaults)
    (w : World) (userKey : Key) (user : mmUser) (serverKey : Key) (server : gameServer) :
    Response × World :=
  let server := { server with PlayerCount := server.PlayerCount + 1 }
  let w := if server.PlayerCount ≥ server.MaxPlayerCount then deleteLastServer region f w else w
  if f.serverPut then (httpError "[JoinMatch] Unexpected error." 500, w)
  else
    let w := { w with servers := w.servers.put serverKey server }
    let join : joinRecord :=
      { UserID := user.UserID, ServerID := server.UUID, Region := region,
        JoinToken := joinTok, CreationTime := now, Checked := false }
    if f.joinPut then (httpError "[JoinMatch] Unexpected error." 500, w)
    else
      let w := { w with joins := (w.joins.insert join).2 }
      let user := { user with MMStatus := mmStatusJoinedMatch, JoinTok := joinTok,
                              ServerAddr := server.Address, ServerPort := server.Port }
      if f.userPut then (httpError "Unexpected error." 500, w)
      else
        (httpWrite (.text (joinedMessage mmtok user server)),
          { w with users := w.users.put userKey user })

/-- Lines 62-219 of `joinMatchHandler`: the user has been found. -/
def joinMatchFound (mmtok region : String) (attempts : Int) (now : Time) (joinTok : String)
    (f : JoinFaults) (w : World) (userKey : Key) (user : mmUser) : Response × World :=
  if user.MMStatus != mmStatusInQueue then (Response.ok, w)
  else if attempts > noServersRetryAttempts then
    let user := { user with MMStatus := mmStatusMatchmakingFailed }
    if f.userPut then (httpError "Unexpected error." 500, w)
    else (Response.ok, { w with users := w.users.put userKey user })
  else
    match selectServer region f w with
    | (.fail r, w) => (r, w)
    | (.pick serverKey server, w) =>
      joinServer mmtok region now joinTok f w userKey user serverKey server

/-- The handler `joinMatchHandler`; `attempts` is the result of `strconv.Atoi` on the retry
header (`none` when it does not parse). -/
def joinMatchHandler (mmtok region : String) (attempts : Option Int) (now : Time)
    (joinTok : String) (f : JoinFaults) (w : World) : Response × World :=
  match attempts with
  | none => (Response.ok, w)
  | some attempts =>
    if f.queryUser then (httpError "Unexpected error." 500, w)
    else
      match queryUserByMMTok w mmtok with
      | none =>
        if attempts ≥ userNotFoundRetryAttempts then (Response.ok, w)
        else (httpError "Token Not Found." 404, w)
      | some (userKey, user) => joinMatchFound mmtok region attempts now joinTok f w userKey user

/-! ## dequeueHandler and pollHandler (handler-client-requests.go) -/

/-- Fault flags of `dequeueHandler` and `pollHandler`. -/
structure ClientFaults where
  /-- The call `queryUser` fails with an error other than `datastore.Done`. -/
  queryUser : Bool
  put : Bool

def noClientFaults : ClientFaults := { queryUser := false, put := false }

/-- The handler `dequeueHandler`. In Go `queryUser` reports a missing user as the error
`datastore.Done`, and the handler answers 500 to every non-nil error. -/
def dequeueHandler (method mmtok : String) (now : Time) (f : ClientFaults) (w : World) :
    Response × World :=
  if method != "GET" then (httpError "Invalid Request." 400, w)
  else if f.queryUser then (httpError "Unexpected error." 500, w)
  else
    match queryUserByMMTok w mmtok with
    | none => (httpError "Unexpected error." 500, w)
    | some (key, user) =>
      let user := { user with MMStatus := mmStatusMatchmakingCancelled,
                              CheckTime := now + (-(userRecordExpiryTime + 1)) * Minute }
      if f.put then (httpError "Unexpected error." 500, w)
      else (httpWrite (.text mmtok), { w with users := w.users.put key user })

/-- The handler `pollHandler`. As in `dequeueHandler`, a missing user surfaces as the
non-nil error `datastore.Done` and is answered 500. -/
def pollHandler (method mmtok : String) (now : Time) (f : ClientFaults) (w : World) :
    Response × World :=
  if method != "GET" then (httpError "Invalid Request." 400, w)
  else if f.queryUser then (httpError "Unexpected error." 500, w)
  else
    match queryUserByMMTok w mmtok with
    | none => (httpError "Unexpected error." 500, w)
    | some (key, user) =>
      if user.MMStatus == mmStatusInQueue then
        let user := { user with CheckTime := now }
        if f.put then (httpError "Unexpected error." 500, w)
        else
          (httpWrite (.mmPoll user.MMStatus), { w with users := w.users.put key user })
      else if user.MMStatus == mmStatusJoinedMatch then
        (httpWrite (.mmPollFull user.MMStatus user.JoinTok user.ServerAddr user.ServerPort), w)
      else (httpWrite (.mmPoll user.MMStatus), w)

/-! ## heartbeatHandler (handler-server-requests.go) -/

/-- Fault flags of `heartbeatHandler`. -/
structure HeartbeatFaults where
  /-- The server query fails with an error other than `datastore.Done`. -/
  serverQuery : Bool
  serverPut : Bool
  /-- The position in the join query at which `t.Next` fails, if any. -/
  joinNext : Option Nat
  /-- The keys of the join records whose `datastore.Put` fails. -/
  joinPut : List Key

def noHeartbeatFaults : HeartbeatFaults :=
  { serverQuery := false, serverPut := false, joinNext := none, joinPut := [] }

/-- The state of the loop over the unprocessed joins (lines 100-126). -/
structure JoinLoop where
  joins : List joinInfo
  table : Table joinRecord
  /-- The number of failed `datastore.Put` calls: each one calls `http.Error` with 500. -/
  putErrors : Nat
  /-- The call `t.Next` failed: the handler returned from inside the loop. -/
  aborted : Bool
  deriving DecidableEq, Repr

/-- One iteration of the loop, for the `i`-th result `(key, join)` of the join query. -/
def joinLoopStep (f : HeartbeatFaults) (st : JoinLoop) (i : Nat) (e : Key × joinRecord) :
    JoinLoop :=
  if st.aborted then st
  else if f.joinNext = some i then { st with aborted := true }
  else
    let joins := st.joins ++ [{ UserID := e.2.UserID, JoinToken := e.2.JoinToken }]
    let join := { e.2 with Checked := true }
    if e.1 ∈ f.joinPut then { st with joins := joins, putErrors := st.putErrors + 1 }
    else { st with joins := joins, table := st.table.put e.1 join }

/-- The loop over the results of the join query, numbered from `i`; after the last result
`t.Next` reports `datastore.Done`, unless it fails there. -/
def joinLoop (f : HeartbeatFaults) : JoinLoop → Nat → List (Key × joinRecord) → JoinLoop
  | st, i, [] => if !st.aborted && f.joinNext = some i then { st with aborted := true } else st
  | st, i, e :: r => joinLoop f (joinLoopStep f st i e) (i + 1) r

/-- The response after `n` calls of `http.Error(w, "Unexpected error.", 500)` followed by
the writes `rest`: the first call fixes the status. -/
def afterErrors (n : Nat) (rest : List Chunk) : Response :=
  { code := if n = 0 then 200 else 500,
    body := List.replicate n (.text "Unexpected error.") ++ rest }

/-- The handler `heartbeatHandler`; the three numbers are the results of
`strconv.ParseInt(_, 10, 32)` (`none` when the parameter does not parse). The join query
is evaluated once, before the loop. `Fill` is the exact quotient; for `MaxPlayerCount = 0`
Go stores an infinity or NaN, the quotient here is 0. -/
def heartbeatHandler (method serverID : String) (serverState playerCount maxPlayerCount :
    Option Int) (now : Time) (f : HeartbeatFaults) (w : World) : Response × World :=
  if method != "GET" then (httpError "Invalid Request." 400, w)
  else
    match playerCount, serverState, maxPlayerCount with
    | some players, some state, some maxPlayers =>
      if f.serverQuery then (httpError "Unexpected error." 500, w)
      else
        match w.servers.entries.find? (fun e => e.2.UUID == serverID) with
        | none => (httpError "Server not Found" 404, w)
        | some (serverKey, server) =>
          let server := { server with
            State := state, CheckTime := now, PlayerCount := players,
            MaxPlayerCount := maxPlayers, Fill := (players : ℚ) / (maxPlayers : ℚ) }
          if f.serverPut then (httpError "Unexpected error." 500, w)
          else
            let w := { w with servers := w.servers.put serverKey server }
            let results := w.joins.entries.filter
              (fun e => e.2.ServerID == serverID && e.2.Checked == false)
            let st := joinLoop f
              { joins := [], table := w.joins, putErrors := 0, aborted := false } 0 results
            let w := { w with joins := st.table }
            if st.aborted then (afterErrors st.putErrors [], w)
            else (afterErrors st.putErrors [.joinReport st.joins], w)
    | _, _, _ => (httpError "Invalid Request." 400, w)

/-! ## manageRegionServers (handler-server-manager.go) -/

/-- The call `strconv.Atoi` on the decimal text of a memcache counter: the value and
whether an error is returned. The text always has decimal syntax, so the only error is the
range error, for which Go returns the largest `int`. -/
def atoiCounter (n : Nat) : Nat × Bool :=
  if n > 9223372036854775807 then (9223372036854775807, true) else (n, false)

/-- Lines 97-110: the report built for one server. -/
def serverReport (now : Time) (server : gameServer) : gameServerReport :=
  let timeDelta := Time.Sub now server.CheckTime
  let timedOut : Bool := decide (timeDelta.Seconds > serverTimeoutExpirationDuration)
  let timeDelta := Time.Sub now server.CheckTime
  let tooOld : Bool := decide (timeDelta.Minutes ≥ serverAgeExpirationDuration)
  let expired : Bool := server.State == serverStateTerminating || timedOut || tooOld
  { UUID := server.UUID, State := server.State,
    Full := decide (server.Fill ≥ serverFullThreshold), Expired := expired }

/-- Fault flags of `manageRegionServers`. -/
structure ManageFaults where
  count : Bool
  /-- The position in the server query at which `t.Next` fails, if any. -/
  next : Option Nat
  statsPut : Bool
  /-- The position in `reports` at which adding the `/dealloc` task fails, if any. -/
  deallocAdd : Option Nat
  deleteMulti : Bool
  /-- The call `memcache.Get` fails other than by a miss. -/
  cacheGet : Bool
  allocAdd : Bool
  increment : Bool

def noManageFaults : ManageFaults :=
  { count := false, next := none, statsPut := false, deallocAdd := none, deleteMulti := false,
    cacheGet := false, allocAdd := false, increment := false }

/-- The task `/dealloc` for a server. -/
def deallocTask (serverID : String) : Task :=
  { queue := "coordinator-deallocate", path := "/dealloc", form := [("serverID", serverID)],
    delaySeconds := 0 }

/-- The task `/alloc` for a region. -/
def allocTask (region : String) : Task :=
  { queue := "coordinator-allocate", path := "/alloc", form := [("region", region)],
    delaySeconds := 0 }

/-- The state of the loop over `reports` (lines 123-147). -/
structure ReportLoop where
  fullServerCount : Nat
  activeServerCount : Nat
  expiredServerKeys : List Key
  tasks : List Task
  /-- Adding a `/dealloc` task failed: the function returned from inside the loop. -/
  returned : Bool
  deriving DecidableEq, Repr

/-- The lookup `keys[uuid]`: `keys` is filled in query order, a later server overwrites an
earlier one with the same UUID. -/
def keysLookup (entries : List (Key × gameServer)) (uuid : String) : Option Key :=
  (entries.reverse.find? (fun e => e.2.UUID == uuid)).map (fun e => e.1)

/-- One iteration of the loop over `reports`, for the `i`-th report. -/
def reportLoopStep (f : ManageFaults) (entries : List (Key × gameServer)) (st : ReportLoop)
    (i : Nat) (report : gameServerReport) : ReportLoop :=
  if st.returned then st
  else if report.Expired then
    let st := { st with
      expiredServerKeys := st.expiredServerKeys ++ (keysLookup entries report.UUID).toList }
    if f.deallocAdd = some i then { st with returned := true }
    else { st with tasks := st.tasks ++ [deallocTask report.UUID] }
  else if report.State == serverStateInitializing || report.State == serverStateActive then
    if report.Full then
      { st with fullServerCount := st.fullServerCount + 1,
                activeServerCount := st.activeServerCount + 1 }
    else { st with activeServerCount := st.activeServerCount + 1 }
  else st

/-- The loop over `reports`, numbered from `i`. -/
def reportLoop (f : ManageFaults) (entries : List (Key × gameServer)) :
    ReportLoop → Nat → List gameServerReport → ReportLoop
  | st, _, [] => st
  | st, i, r :: rs => reportLoop f entries (reportLoopStep f entries st i r) (i + 1) rs

/-- Lines 76-93: the statistics row of the pass. -/
def regionStats (region : String) (now : Time) (entries : List (Key × gameServer)) :
    serverStats :=
  { Region := region, Timestamp := now, TotalServers := entries.length,
    TotalCurrentPlayers := (entries.map (fun e => e.2.PlayerCount)).sum,
    TotalMaxPlayers := (entries.map (fun e => e.2.MaxPlayerCount)).sum }

/-- Lines 181-185: `fullServersRatio`, a NaN (0/0) being replaced by 0. -/
def fullServersRatio (fullServerCount activeServerCount activeAllocs : Nat) : ℚ :=
  if activeServerCount + activeAllocs = 0 then 0
  else (fullServerCount : ℚ) / ((activeServerCount + activeAllocs : Nat) : ℚ)

/-- Lines 161-214: the allocation decision; the second component lists the values sent on
`completeChan`. -/
def manageAllocate (region : String) (f : ManageFaults) (w : World)
    (fullServerCount activeServerCount : Nat) : World × List Int :=
  if f.cacheGet then (w, [0])
  else
    let found := (w.activeAllocations.lookup region).map atoiCounter
    if (match found with | some parsed => parsed.2 | none => false) then (w, [0])
    else
      let activeAllocs : Nat := match found with | some parsed => parsed.1 | none => 0
      let ratio := fullServersRatio fullServerCount activeServerCount activeAllocs
      if activeServerCount = 0 ∨ ratio > allocateNewServerThreshold then
        if activeServerCount ≥ maxServersPerRegion then (w, [])
        else if f.allocAdd then (w, [0])
        else
          let w := { w with tasks := w.tasks ++ [allocTask region] }
          if f.increment then (w, [0])
          else
            ({ w with activeAllocations := cacheIncrement w.activeAllocations region 1 0 }, [1])
      else (w, [1])

/-- The function `manageRegionServers`; the second component lists the values sent on
`completeChan` before it returns. -/
def manageRegionServers (region : String) (now : Time) (f : ManageFaults) (w : World) :
    World × List Int :=
  if f.count then (w, [0])
  else
    let entries := w.servers.entries.filter (fun e => e.2.Region == region)
    if (match f.next with | some i => decide (i ≤ entries.length) | none => false) then (w, [0])
    else
      let stats := regionStats region now entries
      let reports := entries.map (fun e => serverReport now e.2)
      if f.statsPut then (w, [])
      else
        let w := { w with stats := (w.stats.insert stats).2 }
        let st := reportLoop f entries
          { fullServerCount := 0, activeServerCount := 0, expiredServerKeys := [],
            tasks := w.tasks, returned := false } 0 reports
        let w := { w with tasks := st.tasks }
        if st.returned then (w, [])
        else if f.deleteMulti then (w, [0])
        else
          let w := { w with servers := w.servers.deleteMulti st.expiredServerKeys }
          manageAllocate region f w st.fullServerCount st.activeServerCount

/-- The handler `manageServersHandler` with the two passes run one after the other: the
world after both, and the values sent on the channel. (The handler itself only returns
once it has received two values.) -/
def manageServersHandler (now : Time) (fNa fEu : ManageFaults) (w : World) :
    World × List Int :=
  let r1 := manageRegionServers naRegionName now fNa w
  let r2 := manageRegionServers euRegionName now fEu r1.1
  (r2.1, r1.2 ++ r2.2)

/-- Lines 55-56 of `manageServersHandler`: the two receives `<-c`. The channel is
unbuffered and nothing but the two passes sends on it, so a receive completes when a value
sent by a pass is left to take, and blocks for ever when there is none: the handler returns
exactly when both receives complete. -/
def manageServersHandlerReturns (now : Time) (fNa fEu : ManageFaults) (w : World) : Bool :=
  match (manageServersHandler now fNa fEu w).2 with
  | _ :: rest =>
    match rest with
    | _ :: _ => true
    | [] => false
  | [] => false

/-! ## allocateServerHandler, allocationsServerHandler, deallocateServerHandler -/

/-- What the program reads of an `allocateResponse`, with the error of the call. -/
structure AllocateResult where
  err : Bool
  Success : Bool

/-- The fields of an `allocationsResponseInfo` read by the program. -/
structure allocationsResponseInfo where
  IP : String
  GamePort : Int
  deriving DecidableEq, Repr

/-- What the program reads of an `allocationsResponse`, with the error of the call. -/
structure AllocationsResult where
  err : Bool
  Success : Bool
  Allocations : List allocationsResponseInfo

/-- Fault flags of the allocation handlers. -/
structure AllocFaults where
  increment : Bool
  taskAdd : Bool
  put : Bool

def noAllocFaults : AllocFaults := { increment := false, taskAdd := false, put := false }

/-- The task `/allocation` for a server being allocated. -/
def allocationTask (serverID region : String) : Task :=
  { queue := "coordinator-allocations", path := "/allocation",
    form := [("serverID", serverID), ("region", region)], delaySeconds := serverInitDelaySeconds }

/-- The handler `allocateServerHandler`; `uuid` is the fresh server id, `dev` the value of
`appengine.IsDevAppServer()`, `provider` the outcome of `queryClanForgeAlloc`. -/
def allocateServerHandler (region : String) (attempts : Option Int) (uuid : String)
    (dev : Bool) (provider : AllocateResult) (f : AllocFaults) (w : World) :
    Response × World :=
  match attempts with
  | none => (httpError "Internal error." 500, w)
  | some attempts =>
    if attempts > maxAllocateAttempts ∧ f.increment = true then
      (httpError "Internal error." 500, w)
    else
      let w := if attempts > maxAllocateAttempts then
          { w with activeAllocations := cacheIncrement w.activeAllocations region (-1) 1 }
        else w
      let serverID := uuid
      let w := if dev then w else { w with provider := w.provider ++ [.allocate serverID region] }
      let allocResponse : AllocateResult :=
        if dev then { err := false, Success := true } else provider
      if allocResponse.err then (Response.ok, w)
      else if !allocResponse.Success then (Response.ok, w)
      else if f.taskAdd then (Response.ok, w)
      else (Response.ok, { w with tasks := w.tasks ++ [allocationTask serverID region] })

/-- Lines 305-378 of `allocationsServerHandler`: what is done with the response of the
provider; `none` is the run-time panic of indexing an empty `Allocations` slice. -/
def allocationsCheck (serverID region : String) (attempts : Option Int) (now : Time)
    (f : AllocFaults) (w : World) (allocationResponse : AllocationsResult) :
    Option (Response × World) :=
  if allocationResponse.err then some (Response.ok, w)
  else if !allocationResponse.Success then some (Response.ok, w)
  else
    match allocationResponse.Allocations with
    | [] => none
    | info :: _ =>
      if info.IP == "" || info.GamePort == 0 then
        match attempts with
        | none => some (httpError "Internal error." 500, w)
        | some attempts =>
          if attempts ≥ maxAllocationCheckAttempts then
            if f.taskAdd then some (httpError "Internal error." 500, w)
            else
              let w := { w with tasks := w.tasks ++ [deallocTask serverID] }
              if f.increment then some (httpError "Internal error." 500, w)
              else
                some (httpError "Internal error." 500,
                  { w with activeAllocations :=
                      cacheIncrement w.activeAllocations region (-1) 1 })
          else some (httpError "Internal error." 500, w)
      else
        let server : gameServer :=
          { UUID := serverID, Address := info.IP, Port := info.GamePort, Region := region,
            State := serverStateInitializing, CreationTime := now, CheckTime := now,
            PlayerCount := 0, MaxPlayerCount := defaultMaxPlayers, Fill := 0 }
        if f.put then some (Response.ok, w)
        else
          let w := { w with servers := (w.servers.insert server).2 }
          if f.increment then some (httpError "Internal error." 500, w)
          else
            some (Response.ok,
              { w with activeAllocations := cacheIncrement w.activeAllocations region (-1) 1 })

/-- The handler `allocationsServerHandler`; `dev` is the value of
`appengine.IsDevAppServer()`, `provider` the outcome of `queryClanForgeAllocations`. -/
def allocationsServerHandler (serverID region : String) (attempts : Option Int) (now : Time)
    (dev : Bool) (provider : AllocationsResult) (f : AllocFaults) (w : World) :
    Option (Response × World) :=
  if dev then
    allocationsCheck serverID region attempts now f w
      { err := false, Success := true,
        Allocations := [{ IP := "127.0.0.1", GamePort := 7777 }] }
  else
    allocationsCheck serverID region attempts now f
      { w with provider := w.provider ++ [.allocations serverID] } provider

/-- The handler `deallocateServerHandler`: the provider is called (not on the development
server), its outcome is only logged. -/
def deallocateServerHandler (serverID : String) (dev : Bool) (w : World) : Response × World :=
  (Response.ok,
    if dev then w else { w with provider := w.provider ++ [.deallocate serverID] })

/-! ## freeAllocationsHandler (handler-free-allocations.go) -/

/-- Fault flags of `clearStuckAllocations`. -/
structure FreeFaults where
  /-- The call `memcache.Get` fails other than by a miss. -/
  cacheGet : Bool
  /-- The call `memcache.Delete` fails (the program ignores its result). -/
  cacheDelete : Bool

def noFreeFaults : FreeFaults := { cacheGet := false, cacheDelete := false }

/-- The function `clearStuckAllocations`. -/
def clearStuckAllocations (region : String) (f : FreeFaults) (w : World) : World :=
  let found := if f.cacheGet then none else w.activeAllocations.lookup region
  let activeAllocs : Nat :=
    match found with
    | some item => (atoiCounter item).1
    | none => 0
  if activeAllocs != 0 then
    if f.cacheDelete then w
    else { w with activeAllocations := cacheDelete w.activeAllocations region }
  else w

/-- The handler `freeAllocationsHandler`. -/
def freeAllocationsHandler (fNa fEu : FreeFaults) (w : World) : Response × World :=
  (Response.ok, clearStuckAllocations euRegionName fEu (clearStuckAllocations naRegionName fNa w))

/-! ## removeFromDatastore (api-storage.go) -/

/-- The slice expression `keys[lo:hi]`; `none` is the run-time panic of a slice out of
range. -/
def slice (keys : List Key) (lo hi : Nat) : Option (List Key) :=
  if lo ≤ hi ∧ hi ≤ keys.length then some ((keys.drop lo).take (hi - lo)) else none

/-- What a run of `removeFromDatastore` did. -/
structure RemoveResult (α : Type) where
  table : Table α
  /-- The arguments of the `datastore.DeleteMulti` calls, in order. -/
  batches : List (List Key)
  /-- The returned error is non-nil. -/
  err : Bool
  /-- A slice expression was out of range. -/
  panicked : Bool

/-- The loop of `removeFromDatastore`; `failAt` is the number of the `DeleteMulti` call
that fails, if any (a failed call deletes nothing). -/
def removeLoop {α : Type} (keys : List Key) (failAt : Option Nat)
    (remainingKeys keysToRemoveIndex : Nat) (r : RemoveResult α) : RemoveResult α :=
  if _h : remainingKeys > 0 then
    let keysToRemoveCount :=
      if remainingKeys > maxDatastoreRecordsToDelete then maxDatastoreRecordsToDelete
      else remainingKeys
    let remainingKeys' :=
      if remainingKeys > maxDatastoreRecordsToDelete then
        remainingKeys - maxDatastoreRecordsToDelete
      else 0
    match slice keys keysToRemoveIndex (keysToRemoveIndex + keysToRemoveCount) with
    | none => { r with panicked := true }
    | some keysToRemove =>
      if failAt = some r.batches.length then
        { r with batches := r.batches ++ [keysToRemove], err := true }
      else
        removeLoop keys failAt remainingKeys' (keysToRemoveIndex + keysToRemoveCount)
          { r with table := r.table.deleteMulti keysToRemove,
                   batches := r.batches ++ [keysToRemove] }
  else r
termination_by remainingKeys
decreasing_by
  simp only [maxDatastoreRecordsToDelete]
  split <;> omega

/-- The function `removeFromDatastore`. -/
def removeFromDatastore {α : Type} (t : Table α) (keys : List Key) (failAt : Option Nat) :
    RemoveResult α :=
  removeLoop keys failAt keys.length 0
    { table := t, batches := [], err := false, panicked := false }

/-! ## statsHandler (handler-stats.go) -/

/-- Fault flags of `statsHandler`: the number of the failing `DeleteMulti` call, if any, in
each of the three removals. Errors of the queries and of the CSV upload are not modelled. -/
structure StatsFaults where
  statsDelete : Option Nat
  usersDelete : Option Nat
  joinsDelete : Option Nat

def noStatsFaults : StatsFaults :=
  { statsDelete := none, usersDelete := none, joinsDelete := none }

/-- The function `collectServerStats`: every `ServerStats` row is exported and removed. -/
def collectServerStats (f : StatsFaults) (w : World) : World × Bool :=
  let keys := w.stats.entries.map (fun e => e.1)
  let r := removeFromDatastore w.stats keys f.statsDelete
  ({ w with stats := r.table }, r.panicked)

/-- The function `expireUsers`. -/
def expireUsers (now : Time) (f : StatsFaults) (w : World) : World × Bool :=
  let userCheckTime := now + (-userRecordExpiryTime) * Hour
  let userKeys := (w.users.entries.filter
    (fun e => decide (e.2.CheckTime < userCheckTime))).map (fun e => e.1)
  let r := removeFromDatastore w.users userKeys f.usersDelete
  ({ w with users := r.table }, r.panicked)

/-- The function `expireJoins`. -/
def expireJoins (now : Time) (f : StatsFaults) (w : World) : World × Bool :=
  let joinCheckTime := now + (-joinRecordExpiryTime) * Minute
  let joinKeys := (w.joins.entries.filter
    (fun e => decide (e.2.CreationTime < joinCheckTime))).map (fun e => e.1)
  let r := removeFromDatastore w.joins joinKeys f.joinsDelete
  ({ w with joins := r.table }, r.panicked)

/-- The handler `statsHandler` (`collectMatchmakerStats` only reads the store); `none` is
a run-time panic. -/
def statsHandler (now : Time) (f : StatsFaults) (w : World) : Option (Response × World) :=
  let r1 := collectServerStats f w
  if r1.2 then none
  else
    let r2 := expireUsers now f r1.1
    if r2.2 then none
    else
      let r3 := expireJoins now f r2.1
      if r3.2 then none else some (Response.ok, r3.1)

/-! ## The service as a transition system -/

/-- One handler invocation, run atomically, with any request, clock value, fresh
identifiers and faults. Fresh UUID strings are non-empty. -/
inductive Step : World → World → Prop where
  | enqueue (method userID authToken region : String) (steam : SteamAuth) (now : Time)
      (uuid : String) (f : EnqueueFaults) (w : World) :
      Step w (enqueueHandler method userID authToken region steam now uuid f w).2
  | dequeue (method mmtok : String) (now : Time) (f : ClientFaults) (w : World) :
      Step w (dequeueHandler method mmtok now f w).2
  | poll (method mmtok : String) (now : Time) (f : ClientFaults) (w : World) :
      Step w (pollHandler method mmtok now f w).2
  | joinMatch (mmtok region : String) (attempts : Option Int) (now : Time) (joinTok : String)
      (f : JoinFaults) (w : World) (hTok : joinTok ≠ "") :
      Step w (joinMatchHandler mmtok region attempts now joinTok f w).2
  | heartbeat (method serverID : String) (serverState playerCount maxPlayerCount : Option Int)
      (now : Time) (f : HeartbeatFaults) (w : World) :
      Step w (heartbeatHandler method serverID serverState playerCount maxPlayerCount now f w).2
  | manageRegion (region : String) (now : Time) (f : ManageFaults) (w : World) :
      Step w (manageRegionServers region now f w).1
  | manage (now : Time) (fNa fEu : ManageFaults) (w : World) :
      Step w (manageServersHandler now fNa fEu w).1
  | alloc (region : String) (attempts : Option Int) (uuid : String) (dev : Bool)
      (provider : AllocateResult) (f : AllocFaults) (w : World) :
      Step w (allocateServerHandler region attempts uuid dev provider f w).2
  | allocation (serverID region : String) (attempts : Option Int) (now : Time) (dev : Bool)
      (provider : AllocationsResult) (f : AllocFaults) (w : World) (r : Response × World)
      (h : allocationsServerHandler serverID region attempts now dev provider f w = some r) :
      Step w r.2
  | dealloc (serverID : String) (dev : Bool) (w : World) :
      Step w (deallocateServerHandler serverID dev w).2
  | freeallocs (fNa fEu : FreeFaults) (w : World) :
      Step w (freeAllocationsHandler fNa fEu w).2
  | stats (now : Time) (f : StatsFaults) (w : World) (r : Response × World)
      (h : statsHandler now f w = some r) :
      Step w r.2

/-- The worlds reachable from the empty store through the handlers. -/
def Reachable (w : World) : Prop := Relation.ReflTransGen Step emptyWorld w

/-- A joined player carries its join token and server address. -/
def UserOK (u : mmUser) : Prop :=
  u.MMStatus = mmStatusJoinedMatch → u.JoinTok ≠ "" ∧ u.ServerAddr ≠ "" ∧ u.ServerPort ≠ 0

/-- A registered server has an address and a port. -/
def ServerOK (s : gameServer) : Prop := s.Address ≠ "" ∧ s.Port ≠ 0

/-- The invariant carried along the transitions. -/
def Inv (w : World) : Prop :=
  (∀ u, some u ∈ w.users → UserOK u) ∧ (∀ s, some s ∈ w.servers → ServerOK s)

/-! ## Properties used in the statements -/

/-- The run with outcome `r` from world `w` went on with the queried server `(k, s)`: if
the server is full the handler answers 500 "Retrieved Server Full." and changes nothing,
otherwise it answers 200 and stores `s` under `k` with one more player. -/
def ActsOnCandidate (r : Response × World) (w : World) (k : Key) (s : gameServer) : Prop :=
  (s.MaxPlayerCount ≤ s.PlayerCount →
      r.1 = httpError "Retrieved Server Full." 500 ∧ r.2 = w)
    ∧ (s.PlayerCount < s.MaxPlayerCount →
      r.1.code = 200
        ∧ r.2.servers.get k = some { s with PlayerCount := s.PlayerCount + 1 })

/-- The join records a heartbeat of `serverID` delivers: the results of the query
`ServerID = serverID`, `Checked = false`. -/
def pendingJoins (w : World) (serverID : String) : List (Key × joinRecord) :=
  w.joins.entries.filter (fun e => e.2.ServerID == serverID && e.2.Checked == false)

/-! ## A concrete run: one server, one player -/

/-- The provider reports the machine of `S1` as ready. -/
def readyS1 : AllocationsResult :=
  { err := false, Success := true, Allocations := [{ IP := "10.0.0.1", GamePort := 7777 }] }

/-- The valid Steam ticket of user `U1`. -/
def steamU1 : SteamAuth := { authenticated := true, steamID := "U1", err := false }

/-- After `/allocation` has registered server `S1` in region `na`. -/
def wAllocated : World :=
  match allocationsServerHandler "S1" "na" (some 0) 0 false readyS1 noAllocFaults emptyWorld with
  | some r => r.2
  | none => emptyWorld

/-- After the first heartbeat of `S1`: Active, 0 of 4 players. -/
def wActive : World :=
  (heartbeatHandler "GET" "S1" (some 1) (some 0) (some 4) (1 * Second) noHeartbeatFaults
    wAllocated).2

/-- After user `U1` has been enqueued with token `T1`. -/
def wQueued : World :=
  (enqueueHandler "GET" "U1" "ticket" "na" steamU1 (2 * Second) "T1" noEnqueueFaults wActive).2

/-- After the join task of `T1` has run. -/
def wJoined : World :=
  (joinMatchHandler "T1" "na" (some 0) (3 * Second) "J1" noJoinFaults wQueued).2

/-- Player `U1` whose matchmaking failed at time 0. -/
def failedU1 : mmUser :=
  { UserID := "U1", MMTok := "T1", MMStatus := mmStatusMatchmakingFailed, CreationTime := 0,
    CheckTime := 0, JoinTok := "", ServerAddr := "", ServerPort := 0 }

/-- A store holding only `failedU1`. -/
def wFailedU1 : World := { emptyWorld with users := [some failedU1] }

/-- The record of `U1` in `wQueued`. -/
def queuedU1 : mmUser :=
  { UserID := "U1", MMTok := "T1", MMStatus := mmStatusInQueue, CreationTime := 2 * Second,
    CheckTime := 2 * Second, JoinTok := "", ServerAddr := "", ServerPort := 0 }

/-- The record of `S1` in `wQueued`. -/
def activeS1 : gameServer :=
  { UUID := "S1", Address := "10.0.0.1", Port := 7777, Region := "na",
    State := serverStateActive, CreationTime := 0, CheckTime := 1 * Second, PlayerCount := 0,
    MaxPlayerCount := 4, Fill := 0 }

/-- Server `S1` after a heartbeat reporting state Ending. -/
def endingS1 : gameServer :=
  { UUID := "S1", Address := "10.0.0.1", Port := 7777, Region := "na",
    State := serverStateEnding, CreationTime := 0, CheckTime := 2 * Second, PlayerCount := 1,
    MaxPlayerCount := 4, Fill := 1 / 4 }

/-- An Active server `S2` of region `na` with 2 of 4 players. -/
def activeS2 : gameServer :=
  { UUID := "S2", Address := "10.0.0.2", Port := 7777, Region := "na",
    State := serverStateActive, CreationTime := 0, CheckTime := 2 * Second, PlayerCount := 2,
    MaxPlayerCount := 4, Fill := 1 / 2 }

/-- Player `U1` is queued, the cached last server of `na` is `S1`, which is Ending, and
`S2` is Active with room. -/
def wCachedEnding : World :=
  { emptyWorld with
    users := [some queuedU1]
    servers := [some endingS1, some activeS2]
    lastServer := [("na", 0)] }

/-- Server `S1` of the scenario "server ready": Active with 2 of 4 players, `Fill = 0.5`. -/
def halfS1 : gameServer :=
  { UUID := "S1", Address := "10.0.0.1", Port := 7777, Region := "na",
    State := serverStateActive, CreationTime := 0, CheckTime := 2 * Second, PlayerCount := 2,
    MaxPlayerCount := 4, Fill := 1 / 2 }

/-- Player `U1` is queued and `S1` is half full; nothing is cached. -/
def wHalf : World := { emptyWorld with users := [some queuedU1], servers := [some halfS1] }

/-- A server last heard of at time 0, in state Active. -/
def silentS1 : gameServer :=
  { UUID := "S1", Address := "10.0.0.1", Port := 7777, Region := "na",
    State := serverStateActive, CreationTime := 0, CheckTime := 0, PlayerCount := 0,
    MaxPlayerCount := 4, Fill := 0 }

/-- The valid Steam ticket of user `U2`. -/
def steamU2 : SteamAuth := { authenticated := true, steamID := "U2", err := false }

/-- After a `/manage` pass of region `na` at 200 s: `S1`, silent since 1 s, is removed. -/
def wExpired : World := (manageRegionServers "na" (200 * Second) noManageFaults wJoined).1

/-- After user `U2` has been enqueued with token `T2`. -/
def wQueued2 : World :=
  (enqueueHandler "GET" "U2" "ticket" "na" steamU2 (201 * Second) "T2" noEnqueueFaults
    wExpired).2

/-- The record of `U2` in `wQueued2`. -/
def queuedU2 : mmUser :=
  { UserID := "U2", MMTok := "T2", MMStatus := mmStatusInQueue, CreationTime := 201 * Second,
    CheckTime := 201 * Second, JoinTok := "", ServerAddr := "", ServerPort := 0 }

/-! ## Concrete runs for the allocation and dequeue claims -/

/-- The provider accepts an allocation request. -/
def providerAccepts : AllocateResult := { err := false, Success := true }

/-- The provider reports a machine that is not ready yet: no IP. -/
def notReady : AllocationsResult :=
  { err := false, Success := true, Allocations := [{ IP := "", GamePort := 0 }] }

/-- Two allocations of region `na` are in flight. -/
def wTwoInFlight : World := { emptyWorld with activeAllocations := [("na", 2)] }

/-! ## A run that grows the fleet of region `na` -/

/-- The provider reports the machine of a server as ready. -/
def readyMachine : AllocationsResult :=
  { err := false, Success := true, Allocations := [{ IP := "10.0.0.1", GamePort := 7777 }] }

/-- The `/allocation` check of `serverID` in region `na` finds the machine ready. -/
def runAllocation (serverID : String) (now : Time) (w : World) : World :=
  match allocationsServerHandler serverID "na" (some 0) now false readyMachine noAllocFaults w
  with
  | some r => r.2
  | none => w

/-- The `/alloc` task of region `na` runs at its first delivery; the provider accepts. -/
def runAlloc (serverID : String) (w : World) : World :=
  (allocateServerHandler "na" (some 0) serverID false providerAccepts noAllocFaults w).2

/-- A `/manage` request at time `now`. -/
def runManage (now : Time) (w : World) : World :=
  (manageServersHandler now noManageFaults noManageFaults w).1

/-- Each of the servers `ids` sends a heartbeat at `now`: Active, 64 of 64 players. -/
def heartbeatAll (now : Time) (ids : List String) (w : World) : World :=
  ids.foldl (fun w id =>
    (heartbeatHandler "GET" id (some 1) (some 64) (some 64) now noHeartbeatFaults w).2) w

/-- The ids of the first nine servers, in the order of their allocation. -/
def fleetIDs : List String := ["S1", "S2", "S3", "S4", "S5", "S6", "S7", "S8", "S9"]

/-- Minute `i` (counted from 1) of the growth: `/manage` runs, the `/alloc` task it
scheduled runs, ten seconds later the `/allocation` check registers the `i`-th server, and
at second 50 every registered server sends its heartbeat, full. -/
def growMinute (w : World) (i : Nat) : World :=
  let t : Time := (60 * i : Nat) * Second
  let w := runManage t w
  let w := runAlloc (fleetIDs.getD (i - 1) "") w
  let w := runAllocation (fleetIDs.getD (i - 1) "") (t + 10 * Second) w
  heartbeatAll (t + 50 * Second) (fleetIDs.take i) w

/-- After nine minutes: nine Active servers in `na`, all full, no allocation in flight. -/
def wNineFull : World := [1, 2, 3, 4, 5, 6, 7, 8, 9].foldl growMinute emptyWorld

/-- Three more `/manage` passes one minute apart, each followed by its `/alloc` task and by
the heartbeats of the nine servers, while the three allocations are still in flight. -/
def wThreeInFlight : World :=
  heartbeatAll (770 * Second) fleetIDs
    (runAlloc "S12" (runManage (720 * Second)
      (heartbeatAll (710 * Second) fleetIDs
        (runAlloc "S11" (runManage (660 * Second)
          (heartbeatAll (650 * Second) fleetIDs
            (runAlloc "S10" (runManage (600 * Second) wNineFull))))))))

/-- The three `/allocation` checks find their machines ready. -/
def wOverCap : World :=
  runAllocation "S12" (775 * Second)
    (runAllocation "S11" (774 * Second) (runAllocation "S10" (773 * Second) wThreeInFlight))

/-- The servers of a region whose state is Initializing or Active. -/
def liveServers (w : World) (region : String) : List (Key × gameServer) :=
  w.servers.entries.filter (fun e => e.2.Region == region
    && (e.2.State == serverStateInitializing || e.2.State == serverStateActive))

/-! ## The counts of a `/manage` pass, in the words of the specification -/

/-- A server is expired at `now`: Terminating, or last heard of more than 60 seconds ago,
or at least 60 minutes ago. -/
def expiredAt (now : Time) (s : gameServer) : Bool :=
  s.State == serverStateTerminating || decide (60 * Second < now - s.CheckTime)
    || decide (60 * Minute ≤ now - s.CheckTime)

/-- The servers of a region, in key order. -/
def regionServers (w : World) (region : String) : List (Key × gameServer) :=
  w.servers.entries.filter (fun e => e.2.Region == region)

/-- A server counts as active at `now`: not expired, and Initializing or Active. -/
def countsActive (now : Time) (s : gameServer) : Bool :=
  !expiredAt now s && (s.State == serverStateInitializing || s.State == serverStateActive)

/-- The number of non-expired servers of the region in state Initializing or Active. -/
def activeServers (now : Time) (region : String) (w : World) : Nat :=
  ((regionServers w region).filter (fun e => countsActive now e.2)).length

/-- The number of those among them with `Fill ≥ 0.8`. -/
def fullServers (now : Time) (region : String) (w : World) : Nat :=
  ((regionServers w region).filter
    (fun e => countsActive now e.2 && decide (e.2.Fill ≥ 8 / 10))).length

/-- The ratio `full / (active + a)`, with 0/0 taken as 0. -/
def fullRatio (full active a : Nat) : ℚ :=
  if active + a = 0 then 0 else (full : ℚ) / ((active : ℚ) + (a : ℚ))

/-- The condition under which a pass asks for a new server: no active server or a full
ratio above 0.75, and fewer than 10 active servers. -/
def ShouldAllocate (now : Time) (region : String) (w : World) (a : Nat) : Prop :=
  (activeServers now region w = 0
      ∨ fullRatio (fullServers now region w) (activeServers now region w) a > 75 / 100)
    ∧ activeServers now region w < 10

/-- The keys collected for deletion by the loop over `reports`. -/
def expiredKeys (entries : List (Key × gameServer)) : List gameServerReport → List Key
  | [] => []
  | r :: rs =>
    if r.Expired then (keysLookup entries r.UUID).toList ++ expiredKeys entries rs
    else expiredKeys entries rs

/-- The world a pass without I/O fault hands to the allocation decision: the statistics
row is written, the `/dealloc` tasks of the expired servers are added and their records
deleted. -/
def afterExpiry (region : String) (now : Time) (w : World) : World :=
  { w with
    stats := (w.stats.insert (regionStats region now (regionServers w region))).2
    tasks := w.tasks ++ (((regionServers w region).map (fun e => serverReport now e.2)).filter
      (fun r => r.Expired)).map (fun r => deallocTask r.UUID)
    servers := w.servers.deleteMulti
      (expiredKeys (regionServers w region)
        ((regionServers w region).map (fun e => serverReport now e.2))) }

instance (now : Time) (region : String) (w : World) (a : Nat) :
    Decidable (ShouldAllocate now region w a) := by
  unfold ShouldAllocate
  exact inferInstance

/-- The scenario "fleet expansion" at `now`: region `na` has exactly four servers, each
Active, with `Fill = 0.9` and not expired. -/
def FourFullServers (now : Time) (w : World) : Prop :=
  (regionServers w "na").length = 4
    ∧ ∀ e ∈ regionServers w "na",
        e.2.State = serverStateActive ∧ e.2.Fill = 9 / 10 ∧ expiredAt now e.2 = false

/-- An Active server of region `na` with 9 of 10 players, last heard of at time 0. -/
def fullServer (uuid : String) : gameServer :=
  { UUID := uuid, Address := "10.0.0.1", Port := 7777, Region := "na",
    State := serverStateActive, CreationTime := 0, CheckTime := 0, PlayerCount := 9,
    MaxPlayerCount := 10, Fill := 9 / 10 }

/-- Four such servers, and the counter of `na` at 0. -/
def wFourFull : World :=
  { emptyWorld with
    servers := [some (fullServer "S1"), some (fullServer "S2"), some (fullServer "S3"),
      some (fullServer "S4")]
    activeAllocations := [("na", 0)] }

instance (now : Time) (w : World) : Decidable (FourFullServers now w) := by
  unfold FourFullServers
  exact inferInstance

/-- The world after a first pass over `wFourFull`, at 10 s. -/
def wPass1 : World := (manageRegionServers "na" (10 * Second) noManageFaults wFourFull).1

/-- The world after a second pass, at 20 s, no allocation having registered. -/
def wPass2 : World := (manageRegionServers "na" (20 * Second) noManageFaults wPass1).1

/-- The world after a third pass, at 30 s, no allocation having registered. -/
def wPass3 : World := (manageRegionServers "na" (30 * Second) noManageFaults wPass2).1

/-! ## A run that fills region `na` up to the cap -/

/-- A tenth minute after `wNineFull`: `/manage` runs at 600 s and schedules an `/alloc`
task, which runs; the `/allocation` check registers server `S10` at 610 s, and at 650 s
each of the ten servers sends its heartbeat, full. -/
def wTenFull : World :=
  heartbeatAll (650 * Second) (fleetIDs ++ ["S10"])
    (runAllocation "S10" (610 * Second) (runAlloc "S10" (runManage (600 * Second) wNineFull)))

/-! ## Theorems -/

/-! ### Time -/

theorem le_sub_iff_of_small (t u m : Int) (hm0 : 0 ≤ m) (hm : m ≤ 6000000000000000000) :
    m ≤ Time.Sub t u ↔ m ≤ t - u := by
  have h : ∀ d : Int, (m ≤ (if d < -9223372036854775808 then (-9223372036854775808 : Int)
      else if 9223372036854775807 < d then 9223372036854775807 else d)) ↔ m ≤ d := by
    intro d
    split_ifs <;> constructor <;> intro h <;> omega
  exact h (t - u)

theorem lt_sub_iff_of_small (t u m : Int) (hm0 : 0 ≤ m) (hm : m ≤ 6000000000000000000) :
    m < Time.Sub t u ↔ m < t - u := by
  have h : ∀ d : Int, (m < (if d < -9223372036854775808 then (-9223372036854775808 : Int)
      else if 9223372036854775807 < d then 9223372036854775807 else d)) ↔ m < d := by
    intro d
    split_ifs <;> constructor <;> intro h <;> omega
  exact h (t - u)

theorem minutes_ge_iff (t u : Time) (m : Int) (hm0 : 0 ≤ m) (hm : m ≤ 100000000) :
    ((m : ℚ) ≤ (Time.Sub t u).Minutes) ↔ m * 60000000000 ≤ t - u := by
  have key : ∀ d : Int, ((m : ℚ) ≤ Duration.Minutes d) ↔ m * 60000000000 ≤ d := by
    intro d
    unfold Duration.Minutes
    rw [le_div_iff₀ (by norm_num)]
    exact_mod_cast Iff.rfl
  rw [key]
  exact le_sub_iff_of_small t u _ (by omega) (by omega)

theorem enough_iff (now ct : Time) :
    decide ((Time.Sub now ct).Minutes ≥ mmUserResetMatchmakeTime) = true
      ↔ 60000000000 ≤ now - ct := by
  have h := minutes_ge_iff now ct 1 (by norm_num) (by norm_num)
  simp only [Int.cast_one, one_mul] at h
  simp only [decide_eq_true_eq, ge_iff_le, mmUserResetMatchmakeTime]
  exact h

theorem seconds_gt_iff (t u : Time) :
    ((Time.Sub t u).Seconds > serverTimeoutExpirationDuration) ↔ 60 * Second < t - u := by
  have key : ∀ d : Int, ((60 : ℚ) < Duration.Seconds d) ↔ 60000000000 < d := by
    intro d
    unfold Duration.Seconds
    rw [lt_div_iff₀ (by norm_num)]
    have : (60 : ℚ) * 1000000000 = ((60000000000 : Int) : ℚ) := by norm_num
    rw [this]
    exact_mod_cast Iff.rfl
  have hS : 60 * Second = 60000000000 := by norm_num [Second]
  rw [hS, gt_iff_lt, serverTimeoutExpirationDuration, key]
  exact lt_sub_iff_of_small t u _ (by norm_num) (by norm_num)

theorem minutes_age_iff (t u : Time) :
    ((Time.Sub t u).Minutes ≥ serverAgeExpirationDuration) ↔ 60 * Minute ≤ t - u := by
  have h := minutes_ge_iff t u 60 (by norm_num) (by norm_num)
  have hM : 60 * Minute = 60 * 60000000000 := by norm_num [Minute, Second]
  rw [hM, ge_iff_le, serverAgeExpirationDuration]
  exact_mod_cast h

/-! ### Tables -/

theorem Table.mem_of_get {α : Type} {t : Table α} {k : Key} {v : α}
    (h : t.get k = some v) : some v ∈ t := by
  unfold Table.get at h
  split at h
  · rename_i x hk
    cases h
    exact List.getElem?_mem hk
  · cases h

theorem Table.mem_put {α : Type} {t : Table α} {k : Key} {x v : α}
    (h : some v ∈ t.put k x) : v = x ∨ some v ∈ t := by
  unfold Table.put at h
  split at h
  · rcases List.mem_or_eq_of_mem_set h with h | h
    · exact Or.inr h
    · exact Or.inl (Option.some.inj h)
  · simp only [List.mem_append, List.mem_replicate, List.mem_singleton] at h
    rcases h with (h | h) | h
    · exact Or.inr h
    · exact absurd h.2 (by simp)
    · exact Or.inl (Option.some.inj h)

theorem Table.mem_insert {α : Type} {t : Table α} {x v : α}
    (h : some v ∈ (t.insert x).2) : v = x ∨ some v ∈ t := by
  unfold Table.insert at h
  simp only [List.mem_append, List.mem_singleton] at h
  rcases h with h | h
  · exact Or.inr h
  · exact Or.inl (Option.some.inj h)

theorem Table.mem_delete {α : Type} {t : Table α} {k : Key} {v : α}
    (h : some v ∈ t.delete k) : some v ∈ t := by
  unfold Table.delete at h
  rcases List.mem_or_eq_of_mem_set h with h | h
  · exact h
  · exact absurd h (by simp)

theorem Table.mem_deleteMulti {α : Type} (ks : List Key) {t : Table α} {v : α}
    (h : some v ∈ t.deleteMulti ks) : some v ∈ t := by
  induction ks generalizing t with
  | nil => exact h
  | cons k ks ih =>
    unfold Table.deleteMulti at h
    rw [List.foldl_cons] at h
    exact Table.mem_delete (ih h)

theorem Table.mem_entriesFrom {α : Type} (t : Table α) (i : Nat) (k : Nat) (v : α) :
    (k, v) ∈ Table.entriesFrom i t ↔ i ≤ k ∧ t.get (k - i) = some v := by
  induction t generalizing i with
  | nil => simp [Table.entriesFrom, Table.get]
  | cons o r ih =>
    have hstep : ∀ (h : i + 1 ≤ k), Table.get (o :: r) (k - i) = Table.get r (k - (i + 1)) := by
      intro h
      have : k - i = (k - (i + 1)) + 1 := by omega
      rw [this]
      simp [Table.get]
    cases o with
    | none =>
      simp only [Table.entriesFrom, ih]
      constructor
      · rintro ⟨h1, h2⟩
        exact ⟨by omega, by rw [hstep h1]; exact h2⟩
      · rintro ⟨h1, h2⟩
        rcases Nat.eq_or_lt_of_le h1 with h | h
        · subst h
          simp [Table.get] at h2
        · exact ⟨h, by rw [← hstep h]; exact h2⟩
    | some x =>
      simp only [Table.entriesFrom, List.mem_cons, ih, Prod.mk.injEq]
      constructor
      · rintro (⟨h1, h2⟩ | ⟨h1, h2⟩)
        · subst h1 h2
          simp [Table.get]
        · exact ⟨by omega, by rw [hstep h1]; exact h2⟩
      · rintro ⟨h1, h2⟩
        rcases Nat.eq_or_lt_of_le h1 with h | h
        · subst h
          simp [Table.get] at h2
          exact Or.inl ⟨rfl, h2.symm⟩
        · exact Or.inr ⟨h, by rw [← hstep h]; exact h2⟩

theorem Table.mem_entries {α : Type} (t : Table α) (k : Key) (v : α) :
    (k, v) ∈ t.entries ↔ t.get k = some v := by
  unfold Table.entries
  rw [Table.mem_entriesFrom]
  simp

theorem Table.mem_of_mem_entries {α : Type} {t : Table α} {e : Key × α}
    (h : e ∈ t.entries) : some e.2 ∈ t :=
  Table.mem_of_get ((Table.mem_entries t e.1 e.2).mp h)


theorem Table.get_eq_some {α : Type} {t : Table α} {k : Nat} {v : α} :
    t.get k = some v ↔ t[k]? = some (some v) := by
  unfold Table.get
  split
  · rename_i x hk
    rw [hk]; simp
  · rename_i hne
    constructor
    · intro h; cases h
    · intro h; exact absurd h (hne v)

theorem Table.get_put_self {α : Type} (t : Table α) (k : Nat) (v : α) :
    (t.put k v).get k = some v := by
  rw [Table.get_eq_some]
  by_cases hk : k < t.length
  · simp [Table.put, hk, List.getElem?_set]
  · have hlen : (t ++ List.replicate (k - t.length) none).length = k := by
      simp; omega
    simp only [Table.put, hk, if_false]
    rw [List.getElem?_append_right (by omega), hlen]
    simp

theorem Table.get_put_of_ne {α : Type} (t : Table α) (k k2 : Nat) (v : α) (h : k2 ≠ k) :
    (t.put k v).get k2 = t.get k2 := by
  have key : (t.put k v)[k2]? = t[k2]? ∨ ((t.put k v)[k2]? = some none ∧ t[k2]? = none) := by
    by_cases hk : k < t.length
    · left
      simp only [Table.put, hk, if_true]
      rw [List.getElem?_set_ne (Ne.symm h)]
    · have hlen : (t ++ List.replicate (k - t.length) none).length = k := by
        simp; omega
      simp only [Table.put, hk, if_false]
      by_cases h2 : k2 < t.length
      · left
        rw [List.append_assoc, List.getElem?_append_left h2]
      · by_cases h3 : k2 < k
        · right
          constructor
          · rw [List.getElem?_append_left (by omega), List.getElem?_append_right (by omega)]
            rw [List.getElem?_replicate]
            have : k2 - t.length < k - t.length := by omega
            simp [this]
          · exact List.getElem?_eq_none (by omega)
        · left
          rw [List.getElem?_eq_none (by simp; omega), List.getElem?_eq_none (by omega)]
  unfold Table.get
  rcases key with h1 | ⟨h1, h2⟩
  · rw [h1]
  · rw [h1, h2]

theorem Table.get_insert_self {α : Type} (t : Table α) (v : α) :
    (t.insert v).2.get (t.insert v).1 = some v := by
  rw [Table.get_eq_some]
  simp [Table.insert]

theorem Table.get_insert_of_ne {α : Type} (t : Table α) (k : Nat) (v : α) (h : k ≠ t.length) :
    (t.insert v).2.get k = t.get k := by
  unfold Table.get Table.insert
  simp only []
  by_cases h2 : k < t.length
  · rw [List.getElem?_append_left h2]
  · rw [List.getElem?_eq_none (by simp; omega), List.getElem?_eq_none (by omega)]

/-! ### Server selection -/

theorem minFill_eq_none {l : List (Key × gameServer)} : minFill l = none ↔ l = [] := by
  cases l with
  | nil => simp [minFill]
  | cons e r =>
    simp only [minFill, reduceCtorEq, iff_false]
    cases minFill r with
    | none => simp
    | some m =>
      simp only []
      split_ifs <;> simp

theorem minFill_spec {l : List (Key × gameServer)} {m : Key × gameServer}
    (h : minFill l = some m) : m ∈ l ∧ ∀ e ∈ l, m.2.Fill ≤ e.2.Fill := by
  induction l generalizing m with
  | nil => simp [minFill] at h
  | cons e r ih =>
    simp only [minFill] at h
    cases hr : minFill r with
    | none =>
      rw [hr] at h
      simp only [Option.some.injEq] at h
      subst h
      have : r = [] := minFill_eq_none.mp hr
      subst this
      simp
    | some m2 =>
      rw [hr] at h
      simp only [] at h
      obtain ⟨hm2, hmin⟩ := ih hr
      split_ifs at h with hlt
      · simp only [Option.some.injEq] at h
        subst h
        refine ⟨List.mem_cons_of_mem _ hm2, fun x hx => ?_⟩
        rcases List.mem_cons.mp hx with rfl | hx
        · exact le_of_lt hlt
        · exact hmin x hx
      · simp only [Option.some.injEq] at h
        subst h
        refine ⟨List.mem_cons_self _ _, fun x hx => ?_⟩
        rcases List.mem_cons.mp hx with rfl | hx
        · exact le_refl _
        · exact le_trans (not_lt.mp hlt) (hmin x hx)

theorem queryServer_spec {w : World} {region : String} {b : Bool} {k : Key} {s : gameServer}
    (h : queryServer w region b = some (k, s)) :
    w.servers.get k = some s ∧ serverFilter region b s = true
      ∧ ∀ k2 s2, w.servers.get k2 = some s2 → serverFilter region b s2 = true →
          s.Fill ≤ s2.Fill := by
  unfold queryServer at h
  obtain ⟨hm, hmin⟩ := minFill_spec h
  rw [List.mem_filter] at hm
  refine ⟨(Table.mem_entries _ _ _).mp hm.1, hm.2, fun k2 s2 hg hf => ?_⟩
  exact hmin (k2, s2) (List.mem_filter.mpr ⟨(Table.mem_entries _ _ _).mpr hg, hf⟩)

theorem queryServer_eq_none {w : World} {region : String} {b : Bool} :
    queryServer w region b = none ↔
      ∀ k s, w.servers.get k = some s → serverFilter region b s = false := by
  unfold queryServer
  rw [minFill_eq_none, List.filter_eq_nil_iff]
  constructor
  · intro h k s hg
    have := h (k, s) ((Table.mem_entries _ _ _).mpr hg)
    simpa using this
  · intro h e he
    have := h e.1 e.2 ((Table.mem_entries _ _ _).mp he)
    simp [this]

/-- What the selection may change: only the last-server cache. -/
def SameStore (w w2 : World) : Prop :=
  w2.users = w.users ∧ w2.servers = w.servers ∧ w2.joins = w.joins ∧ w2.stats = w.stats
    ∧ w2.activeAllocations = w.activeAllocations ∧ w2.tasks = w.tasks
    ∧ w2.provider = w.provider

theorem SameStore.refl (w : World) : SameStore w w := ⟨rfl, rfl, rfl, rfl, rfl, rfl, rfl⟩

theorem deleteLastServer_sameStore (region : String) (f : JoinFaults) (w : World) :
    SameStore w (deleteLastServer region f w) := by
  unfold deleteLastServer
  split
  · exact SameStore.refl w
  · exact ⟨rfl, rfl, rfl, rfl, rfl, rfl, rfl⟩

theorem selectCached_spec (region : String) (f : JoinFaults) (w : World) (serverKey : Key) :
    SameStore w (selectCached region f w serverKey).2
      ∧ ∀ k s, (selectCached region f w serverKey).1 = .pick k s → w.servers.get k = some s := by
  unfold selectCached
  split
  · exact ⟨deleteLastServer_sameStore region f w, fun k s h => by simp at h⟩
  · rename_i server hget
    split
    · exact ⟨deleteLastServer_sameStore region f w, fun k s h => by simp at h⟩
    · split
      · exact ⟨deleteLastServer_sameStore region f w, fun k s h => by simp at h⟩
      · refine ⟨SameStore.refl w, fun k s h => ?_⟩
        simp only [Selection.pick.injEq] at h
        obtain ⟨rfl, rfl⟩ := h
        by_cases hf : f.serverGet = true
        · simp [hf] at hget
        · simpa [hf] using hget

theorem storeLastServer_spec (region : String) (f : JoinFaults) (w : World) (sk : Key)
    (server : gameServer) :
    SameStore w (storeLastServer region f w sk server).2
      ∧ ∀ k s, (storeLastServer region f w sk server).1 = .pick k s → k = sk ∧ s = server := by
  unfold storeLastServer
  split
  · exact ⟨SameStore.refl w, fun k s h => by simp at h⟩
  · refine ⟨⟨rfl, rfl, rfl, rfl, rfl, rfl, rfl⟩, fun k s h => ?_⟩
    simp only [Selection.pick.injEq] at h
    exact ⟨h.1.symm, h.2.symm⟩

theorem storeLastServer_noFaults (region : String) (w : World) (sk : Key)
    (server : gameServer) :
    storeLastServer region noJoinFaults w sk server
      = (.pick sk server, { w with lastServer := cacheSet w.lastServer region sk }) := by
  simp [storeLastServer, noJoinFaults]

theorem selectQueried_spec (region : String) (f : JoinFaults) (w : World) :
    SameStore w (selectQueried region f w).2
      ∧ ∀ k s, (selectQueried region f w).1 = .pick k s → w.servers.get k = some s := by
  have hpick : ∀ (b : Bool) (sk : Key) (server : gameServer),
      queryServer w region b = some (sk, server) →
      SameStore w (storeLastServer region f w sk server).2
        ∧ ∀ k s, (storeLastServer region f w sk server).1 = .pick k s →
            w.servers.get k = some s := by
    intro b sk server hq
    refine ⟨(storeLastServer_spec region f w sk server).1, fun k s h => ?_⟩
    obtain ⟨rfl, rfl⟩ := (storeLastServer_spec region f w sk server).2 k s h
    exact (queryServer_spec hq).1
  unfold selectQueried
  split
  · exact ⟨SameStore.refl w, fun k s h => by simp at h⟩
  · split
    · split
      · exact ⟨SameStore.refl w, fun k s h => by simp at h⟩
      · split
        · exact ⟨SameStore.refl w, fun k s h => by simp at h⟩
        · rename_i sk server hq
          split
          · exact ⟨SameStore.refl w, fun k s h => by simp at h⟩
          · exact hpick false sk server hq
    · rename_i sk server hq
      split
      · exact ⟨SameStore.refl w, fun k s h => by simp at h⟩
      · exact hpick true sk server hq

theorem selectServer_spec (region : String) (f : JoinFaults) (w : World) :
    SameStore w (selectServer region f w).2
      ∧ ∀ k s, (selectServer region f w).1 = .pick k s → w.servers.get k = some s := by
  unfold selectServer
  split
  · exact selectCached_spec region f w _
  · exact selectQueried_spec region f w

/-! ### Requeue -/

/-- C1: for an existing Player (authenticated GET request, no I/O fault) `enqueueHandler`
answers with the Player's `MMTok` if and only if `Status = InQueue`, or `Status` is one of
`JoinedMatch`, `Failed`, `Cancelled` and `now - CheckTime` is at least one minute; in every
other case it answers 406 and leaves the world (store, cache, task queue) unchanged. -/
theorem enqueueHandler_accept_iff (userID authToken region : String) (steam : SteamAuth)
    (now : Time) (uuid : String) (w : World) (key : Key) (user : mmUser)
    (hErr : steam.err = false) (hAuth : steam.authenticated = true)
    (hID : steam.steamID = userID)
    (hFound : queryUserByUserID w userID = some (key, user)) :
    ((enqueueHandler "GET" userID authToken region steam now uuid noEnqueueFaults w).1
        = httpWrite (.text user.MMTok)
      ↔ (user.MMStatus = mmStatusInQueue
          ∨ ((user.MMStatus = mmStatusJoinedMatch ∨ user.MMStatus = mmStatusMatchmakingFailed
              ∨ user.MMStatus = mmStatusMatchmakingCancelled)
            ∧ Minute ≤ now - user.CheckTime)))
    ∧ (¬ (user.MMStatus = mmStatusInQueue
          ∨ ((user.MMStatus = mmStatusJoinedMatch ∨ user.MMStatus = mmStatusMatchmakingFailed
              ∨ user.MMStatus = mmStatusMatchmakingCancelled)
            ∧ Minute ≤ now - user.CheckTime))
        → (enqueueHandler "GET" userID authToken region steam now uuid noEnqueueFaults w).1.code
            = 406
          ∧ (enqueueHandler "GET" userID authToken region steam now uuid noEnqueueFaults w).2
            = w) := by
  have hM : Minute = 60000000000 := by norm_num [Minute, Second]
  have hE := enough_iff now user.CheckTime
  have hrun : enqueueHandler "GET" userID authToken region steam now uuid noEnqueueFaults w
      = enqueueFound region now noEnqueueFaults w key user := by
    simp [enqueueHandler, enqueueAuth, authenticateWithSteam, hErr, hAuth, hID, hFound,
      noEnqueueFaults]
  rw [hrun, hM]
  unfold enqueueFound
  simp only [noEnqueueFaults, mmStatusInQueue, mmStatusJoinedMatch, mmStatusMatchmakingFailed,
    mmStatusMatchmakingCancelled]
  by_cases hT : decide ((Time.Sub now user.CheckTime).Minutes ≥ mmUserResetMatchmakeTime) = true
  · have hT2 := hE.mp hT
    by_cases h0 : user.MMStatus = 0
    · simp [hT, h0, httpWrite, httpError]
    · by_cases h1 : user.MMStatus = 1
      · simp [hT, h1, hT2, httpWrite, httpError]
      · by_cases h3 : user.MMStatus = 3
        · simp [hT, h3, hT2, httpWrite, httpError]
        · by_cases h2 : user.MMStatus = 2
          · simp [hT, h2, hT2, httpWrite, httpError]
          · simp [hT, h0, h1, h3, h2, hT2, httpWrite, httpError]
  · have hT2 : ¬ (60000000000 ≤ now - user.CheckTime) := fun h => hT (hE.mpr h)
    have hT3 : decide ((Time.Sub now user.CheckTime).Minutes ≥ mmUserResetMatchmakeTime)
        = false := by simpa using hT
    by_cases h0 : user.MMStatus = 0
    · simp [hT3, h0, httpWrite, httpError]
    · simp [hT3, h0, hT2, httpWrite, httpError]

theorem enqueueHandler_accept_iff_witness :
    ((enqueueHandler "GET" "U1" "ticket" "na" steamU1 (30 * Second) "T2" noEnqueueFaults
          wFailedU1).1 = httpWrite (.text failedU1.MMTok)
      ↔ (failedU1.MMStatus = mmStatusInQueue
          ∨ ((failedU1.MMStatus = mmStatusJoinedMatch
              ∨ failedU1.MMStatus = mmStatusMatchmakingFailed
              ∨ failedU1.MMStatus = mmStatusMatchmakingCancelled)
            ∧ Minute ≤ 30 * Second - failedU1.CheckTime)))
    ∧ (¬ (failedU1.MMStatus = mmStatusInQueue
          ∨ ((failedU1.MMStatus = mmStatusJoinedMatch
              ∨ failedU1.MMStatus = mmStatusMatchmakingFailed
              ∨ failedU1.MMStatus = mmStatusMatchmakingCancelled)
            ∧ Minute ≤ 30 * Second - failedU1.CheckTime))
        → (enqueueHandler "GET" "U1" "ticket" "na" steamU1 (30 * Second) "T2" noEnqueueFaults
              wFailedU1).1.code = 406
          ∧ (enqueueHandler "GET" "U1" "ticket" "na" steamU1 (30 * Second) "T2" noEnqueueFaults
              wFailedU1).2 = wFailedU1) :=
  enqueueHandler_accept_iff "U1" "ticket" "na" steamU1 (30 * Second) "T2" wFailedU1 0 failedU1
    rfl rfl rfl (by decide!)

/-! ### The invariant is preserved by every handler -/

theorem Inv.of_subset {w w2 : World} (h : Inv w)
    (hu : ∀ u, some u ∈ w2.users → some u ∈ w.users ∨ UserOK u)
    (hs : ∀ s, some s ∈ w2.servers → some s ∈ w.servers ∨ ServerOK s) : Inv w2 := by
  refine ⟨fun u hu2 => ?_, fun s hs2 => ?_⟩
  · rcases hu u hu2 with h1 | h1
    · exact h.1 u h1
    · exact h1
  · rcases hs s hs2 with h1 | h1
    · exact h.2 s h1
    · exact h1

theorem UserOK.of_status {u : mmUser} (h : u.MMStatus ≠ mmStatusJoinedMatch) : UserOK u :=
  fun h2 => absurd h2 h

theorem mem_of_queryUserByUserID {w : World} {userID : String} {key : Key} {user : mmUser}
    (h : queryUserByUserID w userID = some (key, user)) : some user ∈ w.users :=
  Table.mem_of_mem_entries (List.mem_of_find?_eq_some h)

theorem mem_of_queryUserByMMTok {w : World} {mmtok : String} {key : Key} {user : mmUser}
    (h : queryUserByMMTok w mmtok = some (key, user)) : some user ∈ w.users :=
  Table.mem_of_mem_entries (List.mem_of_find?_eq_some h)

theorem enqueueFound_inv (region : String) (now : Time) (f : EnqueueFaults) (w : World)
    (key : Key) (user : mmUser) (hmem : some user ∈ w.users) (h : Inv w) :
    Inv (enqueueFound region now f w key user).2 := by
  have hq : UserOK { user with MMStatus := mmStatusInQueue, CheckTime := now } :=
    UserOK.of_status (by simp [mmStatusInQueue, mmStatusJoinedMatch])
  unfold enqueueFound
  simp only []
  split_ifs
  all_goals first
    | exact h
    | exact h.of_subset (fun u hu => Or.inl hu) (fun s hs => Or.inl hs)
    | refine h.of_subset (fun u hu => ?_) (fun s hs => Or.inl hs)
      rcases Table.mem_put hu with rfl | hu
      · first
          | exact Or.inr hq
          | exact Or.inl hmem
      · exact Or.inl hu

theorem enqueueNew_inv (userID region : String) (now : Time) (uuid : String)
    (f : EnqueueFaults) (w : World) (h : Inv w) :
    Inv (enqueueNew userID region now uuid f w).2 := by
  unfold enqueueNew
  simp only []
  split_ifs
  all_goals first
    | exact h
    | refine h.of_subset (fun u hu => ?_) (fun s hs => Or.inl hs)
      rcases Table.mem_insert hu with rfl | hu
      · exact Or.inr (UserOK.of_status (by simp [mmStatusInQueue, mmStatusJoinedMatch]))
      · exact Or.inl hu

theorem enqueueHandler_inv (method userID authToken region : String) (steam : SteamAuth)
    (now : Time) (uuid : String) (f : EnqueueFaults) (w : World) (h : Inv w) :
    Inv (enqueueHandler method userID authToken region steam now uuid f w).2 := by
  unfold enqueueHandler
  split_ifs
  · exact h
  · split
    · exact h
    · exact h
  · split
    · exact h
    · split
      · rename_i hq
        exact enqueueFound_inv region now f w _ _ (mem_of_queryUserByUserID hq) h
      · exact enqueueNew_inv userID region now uuid f w h

theorem dequeueHandler_inv (method mmtok : String) (now : Time) (f : ClientFaults) (w : World)
    (h : Inv w) : Inv (dequeueHandler method mmtok now f w).2 := by
  unfold dequeueHandler
  simp only []
  repeat' split
  all_goals first
    | exact h
    | refine h.of_subset (fun u hu => ?_) (fun s hs => Or.inl hs)
      rcases Table.mem_put hu with rfl | hu
      · exact Or.inr (UserOK.of_status
          (by simp [mmStatusMatchmakingCancelled, mmStatusJoinedMatch]))
      · exact Or.inl hu

theorem pollHandler_inv (method mmtok : String) (now : Time) (f : ClientFaults) (w : World)
    (h : Inv w) : Inv (pollHandler method mmtok now f w).2 := by
  unfold pollHandler
  simp only []
  repeat' split
  all_goals first
    | exact h
    | refine h.of_subset (fun u hu => ?_) (fun s hs => Or.inl hs)
      rename_i h1 _
      rcases Table.mem_put hu with rfl | hu
      · refine Or.inr (UserOK.of_status ?_)
        simp only [beq_iff_eq] at h1
        simp [h1, mmStatusInQueue, mmStatusJoinedMatch]
      · exact Or.inl hu

theorem Inv.of_sameStore {w w2 : World} (h : Inv w) (hs : SameStore w w2) : Inv w2 := by
  obtain ⟨hu, hsv, _⟩ := hs
  unfold Inv
  rw [hu, hsv]
  exact h

theorem deleteLastServer_inv {region : String} {f : JoinFaults} {w : World} (h : Inv w) :
    Inv (deleteLastServer region f w) :=
  h.of_sameStore (deleteLastServer_sameStore region f w)

theorem joinServer_inv (mmtok region : String) (now : Time) (joinTok : String)
    (f : JoinFaults) (w : World) (userKey : Key) (user : mmUser) (serverKey : Key)
    (server : gameServer) (hTok : joinTok ≠ "") (hs : ServerOK server) (h : Inv w) :
    Inv (joinServer mmtok region now joinTok f w userKey user serverKey server).2 := by
  have h1 : Inv (if server.PlayerCount + 1 ≥ server.MaxPlayerCount
      then deleteLastServer region f w else w) := by
    split
    · exact deleteLastServer_inv h
    · exact h
  have hs2 : ServerOK { server with PlayerCount := server.PlayerCount + 1 } := hs
  have hu2 : UserOK
      { user with
        MMStatus := mmStatusJoinedMatch
        JoinTok := joinTok
        ServerAddr := server.Address
        ServerPort := server.Port } :=
    fun _ => ⟨hTok, hs.1, hs.2⟩
  unfold joinServer
  simp only []
  split
  · exact h1
  · split
    · refine h1.of_subset (fun u hu => Or.inl hu) (fun s hs => ?_)
      rcases Table.mem_put hs with rfl | hs
      · exact Or.inr hs2
      · exact Or.inl hs
    · split
      · refine h1.of_subset (fun u hu => Or.inl hu) (fun s hs => ?_)
        rcases Table.mem_put hs with rfl | hs
        · exact Or.inr hs2
        · exact Or.inl hs
      · refine h1.of_subset (fun u hu => ?_) (fun s hs => ?_)
        · rcases Table.mem_put hu with rfl | hu
          · exact Or.inr hu2
          · exact Or.inl hu
        · rcases Table.mem_put hs with rfl | hs
          · exact Or.inr hs2
          · exact Or.inl hs

theorem joinMatchFound_inv (mmtok region : String) (attempts : Int) (now : Time)
    (joinTok : String) (f : JoinFaults) (w : World) (userKey : Key) (user : mmUser)
    (hTok : joinTok ≠ "") (h : Inv w) :
    Inv (joinMatchFound mmtok region attempts now joinTok f w userKey user).2 := by
  unfold joinMatchFound
  split
  · exact h
  · split
    · simp only []
      split
      · exact h
      · refine h.of_subset (fun u hu => ?_) (fun s hs => Or.inl hs)
        rcases Table.mem_put hu with rfl | hu
        · exact Or.inr (UserOK.of_status
            (by simp [mmStatusMatchmakingFailed, mmStatusJoinedMatch]))
        · exact Or.inl hu
    · have hsel := selectServer_spec region f w
      split
      · rename_i r w1 heq
        rw [heq] at hsel
        exact h.of_sameStore hsel.1
      · rename_i serverKey server w1 heq
        rw [heq] at hsel
        have hinv1 : Inv w1 := h.of_sameStore hsel.1
        have hget := hsel.2 serverKey server rfl
        exact joinServer_inv mmtok region now joinTok f w1 userKey user serverKey server hTok
          (h.2 server (Table.mem_of_get hget)) hinv1

theorem joinMatchHandler_inv (mmtok region : String) (attempts : Option Int) (now : Time)
    (joinTok : String) (f : JoinFaults) (w : World) (hTok : joinTok ≠ "") (h : Inv w) :
    Inv (joinMatchHandler mmtok region attempts now joinTok f w).2 := by
  unfold joinMatchHandler
  split
  · exact h
  · split
    · exact h
    · split
      · split
        · exact h
        · exact h
      · exact joinMatchFound_inv mmtok region _ now joinTok f w _ _ hTok h

theorem heartbeatHandler_inv (method serverID : String)
    (serverState playerCount maxPlayerCount : Option Int) (now : Time) (f : HeartbeatFaults)
    (w : World) (h : Inv w) :
    Inv (heartbeatHandler method serverID serverState playerCount maxPlayerCount now f w).2 := by
  unfold heartbeatHandler
  split
  · exact h
  · split
    · split
      · exact h
      · split
        · exact h
        · rename_i serverKey server hfind
          have hmem : some server ∈ w.servers :=
            Table.mem_of_mem_entries (List.mem_of_find?_eq_some hfind)
          have hok : ServerOK server := h.2 server hmem
          simp only []
          split
          · exact h
          · split
            all_goals
              refine h.of_subset (fun u hu => Or.inl hu) (fun s hs => ?_)
              rcases Table.mem_put hs with rfl | hs
              · exact Or.inr hok
              · exact Or.inl hs
    · exact h

theorem manageAllocate_store (region : String) (f : ManageFaults) (w : World)
    (full active : Nat) :
    (manageAllocate region f w full active).1.users = w.users
      ∧ (manageAllocate region f w full active).1.servers = w.servers := by
  unfold manageAllocate
  simp only []
  repeat' split
  all_goals exact ⟨rfl, rfl⟩

theorem manageRegionServers_inv (region : String) (now : Time) (f : ManageFaults) (w : World)
    (h : Inv w) : Inv (manageRegionServers region now f w).1 := by
  unfold manageRegionServers
  simp only []
  split
  · exact h
  · split
    · exact h
    · split
      · exact h
      · split
        · exact h
        · split
          · exact h
          · refine h.of_subset (fun u hu => ?_) (fun s hs => ?_)
            · rw [(manageAllocate_store _ _ _ _ _).1] at hu
              exact Or.inl hu
            · rw [(manageAllocate_store _ _ _ _ _).2] at hs
              exact Or.inl (Table.mem_deleteMulti _ hs)

theorem manageServersHandler_inv (now : Time) (fNa fEu : ManageFaults) (w : World)
    (h : Inv w) : Inv (manageServersHandler now fNa fEu w).1 := by
  unfold manageServersHandler
  exact manageRegionServers_inv _ now fEu _ (manageRegionServers_inv _ now fNa w h)

theorem allocateServerHandler_inv (region : String) (attempts : Option Int) (uuid : String)
    (dev : Bool) (provider : AllocateResult) (f : AllocFaults) (w : World) (h : Inv w) :
    Inv (allocateServerHandler region attempts uuid dev provider f w).2 := by
  unfold allocateServerHandler
  simp only []
  repeat' split
  all_goals exact h

theorem allocationsCheck_inv (serverID region : String) (attempts : Option Int)
    (now : Time) (f : AllocFaults) (w : World) (resp : AllocationsResult)
    (r : Response × World)
    (hr : allocationsCheck serverID region attempts now f w resp = some r)
    (h : Inv w) : Inv r.2 := by
  unfold allocationsCheck at hr
  simp only [] at hr
  split at hr
  · cases hr; exact h
  · split at hr
    · cases hr; exact h
    · split at hr
      · cases hr
      · rename_i info rest hal
        split at hr
        · revert hr
          repeat' split
          all_goals intro hr
          all_goals cases hr
          all_goals exact h
        · rename_i hready
          simp only [Bool.or_eq_true, beq_iff_eq, not_or] at hready
          revert hr
          repeat' split
          all_goals intro hr
          all_goals cases hr
          all_goals first
            | exact h
            | (refine h.of_subset (fun u hu => Or.inl hu) (fun s hs => ?_)
               rcases Table.mem_insert hs with rfl | hs
               · exact Or.inr ⟨hready.1, hready.2⟩
               · exact Or.inl hs)

theorem allocationsServerHandler_inv (serverID region : String) (attempts : Option Int)
    (now : Time) (dev : Bool) (provider : AllocationsResult) (f : AllocFaults) (w : World)
    (r : Response × World)
    (hr : allocationsServerHandler serverID region attempts now dev provider f w = some r)
    (h : Inv w) : Inv r.2 := by
  unfold allocationsServerHandler at hr
  split at hr
  · exact allocationsCheck_inv _ _ _ _ _ _ _ r hr h
  · exact allocationsCheck_inv _ _ _ _ _ _ _ r hr h

theorem deallocateServerHandler_inv (serverID : String) (dev : Bool) (w : World) (h : Inv w) :
    Inv (deallocateServerHandler serverID dev w).2 := by
  unfold deallocateServerHandler
  simp only []
  split
  · exact h
  · exact h

theorem clearStuckAllocations_inv (region : String) (f : FreeFaults) (w : World) (h : Inv w) :
    Inv (clearStuckAllocations region f w) := by
  unfold clearStuckAllocations
  simp only []
  repeat' split
  all_goals exact h

theorem removeLoop_mem {α : Type} (keys : List Key) (failAt : Option Nat) (v : α) :
    ∀ (n remainingKeys keysToRemoveIndex : Nat) (r : RemoveResult α), remainingKeys ≤ n →
      some v ∈ (removeLoop keys failAt remainingKeys keysToRemoveIndex r).table →
      some v ∈ r.table := by
  intro n
  induction n with
  | zero =>
    intro rem idx r hle h
    have : rem = 0 := by omega
    subst this
    rw [removeLoop] at h
    simpa using h
  | succ n ih =>
    intro rem idx r hle h
    rw [removeLoop] at h
    split at h
    · rename_i hpos
      simp only [] at h
      split at h
      · exact h
      · split at h
        · exact h
        · have hdec : (if rem > maxDatastoreRecordsToDelete
              then rem - maxDatastoreRecordsToDelete else 0) ≤ n := by
            simp only [maxDatastoreRecordsToDelete]
            split <;> omega
          exact Table.mem_deleteMulti _ (ih _ _ _ hdec h)
    · exact h

theorem removeFromDatastore_mem {α : Type} (t : Table α) (keys : List Key)
    (failAt : Option Nat) (v : α) (h : some v ∈ (removeFromDatastore t keys failAt).table) :
    some v ∈ t :=
  removeLoop_mem keys failAt v keys.length keys.length 0 _ (le_refl _) h

theorem statsHandler_inv (now : Time) (f : StatsFaults) (w : World) (r : Response × World)
    (hr : statsHandler now f w = some r) (h : Inv w) : Inv r.2 := by
  unfold statsHandler at hr
  simp only [] at hr
  split at hr
  · exact absurd hr (by simp)
  · split at hr
    · exact absurd hr (by simp)
    · split at hr
      · exact absurd hr (by simp)
      · simp only [Option.some.injEq] at hr
        subst hr
        refine h.of_subset (fun u hu => ?_) (fun s hs => Or.inl hs)
        exact Or.inl (removeFromDatastore_mem _ _ _ _ hu)

theorem step_preserves_inv {w w2 : World} (hs : Step w w2) (h : Inv w) : Inv w2 := by
  cases hs with
  | enqueue => exact enqueueHandler_inv _ _ _ _ _ _ _ _ _ h
  | dequeue => exact dequeueHandler_inv _ _ _ _ _ h
  | poll => exact pollHandler_inv _ _ _ _ _ h
  | joinMatch _ _ _ _ _ _ _ hTok => exact joinMatchHandler_inv _ _ _ _ _ _ _ hTok h
  | heartbeat => exact heartbeatHandler_inv _ _ _ _ _ _ _ _ h
  | manageRegion => exact manageRegionServers_inv _ _ _ _ h
  | manage => exact manageServersHandler_inv _ _ _ _ h
  | alloc => exact allocateServerHandler_inv _ _ _ _ _ _ _ h
  | allocation _ _ _ _ _ _ _ _ r hr => exact allocationsServerHandler_inv _ _ _ _ _ _ _ _ r hr h
  | dealloc => exact deallocateServerHandler_inv _ _ _ h
  | freeallocs =>
    unfold freeAllocationsHandler
    exact clearStuckAllocations_inv _ _ _ (clearStuckAllocations_inv _ _ _ h)
  | stats _ _ _ r hr => exact statsHandler_inv _ _ _ r hr h

theorem emptyWorld_inv : Inv emptyWorld := by
  constructor <;> intro _ hmem <;> simp [emptyWorld] at hmem

theorem reachable_inv {w : World} (h : Reachable w) : Inv w := by
  unfold Reachable at h
  induction h with
  | refl => exact emptyWorld_inv
  | tail _ hstep ih => exact step_preserves_inv hstep ih

theorem wJoined_reachable : Reachable wJoined := by
  have h1 : Reachable wAllocated :=
    Relation.ReflTransGen.tail Relation.ReflTransGen.refl
      (Step.allocation "S1" "na" (some 0) 0 false readyS1 noAllocFaults emptyWorld
        (Response.ok, wAllocated) (by decide!))
  have h2 : Reachable wActive :=
    Relation.ReflTransGen.tail h1 (Step.heartbeat "GET" "S1" (some 1) (some 0) (some 4)
      (1 * Second) noHeartbeatFaults wAllocated)
  have h3 : Reachable wQueued :=
    Relation.ReflTransGen.tail h2 (Step.enqueue "GET" "U1" "ticket" "na" steamU1 (2 * Second)
      "T1" noEnqueueFaults wActive)
  exact Relation.ReflTransGen.tail h3 (Step.joinMatch "T1" "na" (some 0) (3 * Second) "J1"
    noJoinFaults wQueued (by decide))

/-- C3: in every world reachable from the empty store through the handlers (each run
atomically, with arbitrary requests, clock values and I/O faults, fresh UUIDs being
non-empty strings), every Player with `Status = JoinedMatch` has a non-empty `JoinTok`, a
non-empty `ServerAddr` and a non-zero `ServerPort`. -/
theorem joined_player_has_server (w : World) (h : Reachable w) (k : Key) (u : mmUser)
    (hu : w.users.get k = some u) (hj : u.MMStatus = mmStatusJoinedMatch) :
    u.JoinTok ≠ "" ∧ u.ServerAddr ≠ "" ∧ u.ServerPort ≠ 0 :=
  (reachable_inv h).1 u (Table.mem_of_get hu) hj

theorem joined_player_has_server_witness :
    wJoined.users.get 0
        = some { UserID := "U1", MMTok := "T1", MMStatus := mmStatusJoinedMatch,
                 CreationTime := 2 * Second, CheckTime := 2 * Second, JoinTok := "J1",
                 ServerAddr := "10.0.0.1", ServerPort := 7777 }
      ∧ ("J1" ≠ "" ∧ "10.0.0.1" ≠ "" ∧ (7777 : Int) ≠ 0) :=
  ⟨by decide!,
    joined_player_has_server wJoined wJoined_reachable 0
      { UserID := "U1", MMTok := "T1", MMStatus := mmStatusJoinedMatch,
        CreationTime := 2 * Second, CheckTime := 2 * Second, JoinTok := "J1",
        ServerAddr := "10.0.0.1", ServerPort := 7777 } (by decide!) rfl⟩

/-! ### The join on the selected server -/

theorem joinServer_ok (mmtok region : String) (now : Time) (joinTok : String) (w : World)
    (userKey : Key) (user : mmUser) (serverKey : Key) (server : gameServer) :
    (joinServer mmtok region now joinTok noJoinFaults w userKey user serverKey server).1.code
        = 200
      ∧ (joinServer mmtok region now joinTok noJoinFaults w userKey user serverKey server).2.servers
        = w.servers.put serverKey { server with PlayerCount := server.PlayerCount + 1 }
      ∧ (joinServer mmtok region now joinTok noJoinFaults w userKey user serverKey server).2.joins
        = w.joins ++ [some { UserID := user.UserID, ServerID := server.UUID, Region := region,
                             JoinToken := joinTok, CreationTime := now, Checked := false }]
      ∧ (joinServer mmtok region now joinTok noJoinFaults w userKey user serverKey server).2.users
        = w.users.put userKey
            { user with
              MMStatus := mmStatusJoinedMatch
              JoinTok := joinTok
              ServerAddr := server.Address
              ServerPort := server.Port } := by
  unfold joinServer deleteLastServer
  simp only [noJoinFaults, Bool.false_eq_true, if_false, Table.insert, httpWrite]
  split <;> simp

theorem joinMatchHandler_pick (mmtok region : String) (attempts : Int) (now : Time)
    (joinTok : String) (w : World) (userKey : Key) (user : mmUser) (serverKey : Key)
    (server : gameServer) (w1 : World)
    (hUser : queryUserByMMTok w mmtok = some (userKey, user))
    (hQueue : user.MMStatus = mmStatusInQueue)
    (hAttempts : attempts ≤ noServersRetryAttempts)
    (hSel : selectServer region noJoinFaults w = (.pick serverKey server, w1)) :
    joinMatchHandler mmtok region (some attempts) now joinTok noJoinFaults w
      = joinServer mmtok region now joinTok noJoinFaults w1 userKey user serverKey server := by
  unfold joinMatchHandler
  simp only [noJoinFaults, Bool.false_eq_true, if_false, hUser]
  unfold joinMatchFound
  have hA : ¬ attempts > noServersRetryAttempts := not_lt.mpr hAttempts
  have hSel2 := hSel
  simp only [noJoinFaults] at hSel2
  simp only [hQueue, bne_self_eq_false, Bool.false_eq_true, if_false, hA, hSel2]

/-- C2: in a run of `joinMatchHandler` without I/O fault, for a Player found `InQueue`,
with `attempts ≤ 5` and a server selected, the handler answers 200, the selected server is
stored with `PlayerCount` increased by exactly 1 (no other server changes), exactly one
JoinRecord is appended, with `UserID = Player.UserID`, `ServerID = Server.UUID`, the task's
region, the fresh join token and `Checked = false`, and the Player is stored with
`Status = JoinedMatch`, `JoinTok` the token of that JoinRecord, `ServerAddr = Server.Address`
and `ServerPort = Server.Port` (no other Player changes). -/
theorem joinMatchHandler_success (mmtok region : String) (attempts : Int) (now : Time)
    (joinTok : String) (w : World) (userKey : Key) (user : mmUser) (serverKey : Key)
    (server : gameServer) (w1 : World)
    (hUser : queryUserByMMTok w mmtok = some (userKey, user))
    (hQueue : user.MMStatus = mmStatusInQueue)
    (hAttempts : attempts ≤ noServersRetryAttempts)
    (hSel : selectServer region noJoinFaults w = (.pick serverKey server, w1)) :
    (joinMatchHandler mmtok region (some attempts) now joinTok noJoinFaults w).1.code = 200
      ∧ w.servers.get serverKey = some server
      ∧ (joinMatchHandler mmtok region (some attempts) now joinTok noJoinFaults w).2.servers.get
          serverKey = some { server with PlayerCount := server.PlayerCount + 1 }
      ∧ (∀ k, k ≠ serverKey →
          (joinMatchHandler mmtok region (some attempts) now joinTok noJoinFaults w).2.servers.get k
            = w.servers.get k)
      ∧ (joinMatchHandler mmtok region (some attempts) now joinTok noJoinFaults w).2.joins
          = w.joins ++ [some { UserID := user.UserID, ServerID := server.UUID, Region := region,
                               JoinToken := joinTok, CreationTime := now, Checked := false }]
      ∧ (joinMatchHandler mmtok region (some attempts) now joinTok noJoinFaults w).2.users.get
          userKey = some { user with
                           MMStatus := mmStatusJoinedMatch
                           JoinTok := joinTok
                           ServerAddr := server.Address
                           ServerPort := server.Port }
      ∧ (∀ k, k ≠ userKey →
          (joinMatchHandler mmtok region (some attempts) now joinTok noJoinFaults w).2.users.get k
            = w.users.get k) := by
  have hspec := selectServer_spec region noJoinFaults w
  rw [hSel] at hspec
  obtain ⟨⟨hu, hs, hj, _⟩, hget⟩ := hspec
  simp only [] at hu hs hj
  rw [joinMatchHandler_pick mmtok region attempts now joinTok w userKey user serverKey server w1
    hUser hQueue hAttempts hSel]
  obtain ⟨h1, h2, h3, h4⟩ :=
    joinServer_ok mmtok region now joinTok w1 userKey user serverKey server
  rw [h2, h3, h4, hu, hs, hj]
  exact ⟨h1, hget serverKey server rfl, Table.get_put_self _ _ _,
    fun k hk => Table.get_put_of_ne _ _ _ _ hk, rfl, Table.get_put_self _ _ _,
    fun k hk => Table.get_put_of_ne _ _ _ _ hk⟩

theorem joinMatchHandler_success_witness :
    (joinMatchHandler "T1" "na" (some 0) (3 * Second) "J1" noJoinFaults wQueued).1.code = 200
      ∧ wQueued.servers.get 0 = some activeS1
      ∧ (joinMatchHandler "T1" "na" (some 0) (3 * Second) "J1" noJoinFaults wQueued).2.servers.get
          0 = some { activeS1 with PlayerCount := activeS1.PlayerCount + 1 }
      ∧ (∀ k, k ≠ 0 →
          (joinMatchHandler "T1" "na" (some 0) (3 * Second) "J1" noJoinFaults wQueued).2.servers.get
            k = wQueued.servers.get k)
      ∧ (joinMatchHandler "T1" "na" (some 0) (3 * Second) "J1" noJoinFaults wQueued).2.joins
          = wQueued.joins ++ [some { UserID := queuedU1.UserID, ServerID := activeS1.UUID,
                                     Region := "na", JoinToken := "J1",
                                     CreationTime := 3 * Second, Checked := false }]
      ∧ (joinMatchHandler "T1" "na" (some 0) (3 * Second) "J1" noJoinFaults wQueued).2.users.get
          0 = some { queuedU1 with
                     MMStatus := mmStatusJoinedMatch
                     JoinTok := "J1"
                     ServerAddr := activeS1.Address
                     ServerPort := activeS1.Port }
      ∧ (∀ k, k ≠ 0 →
          (joinMatchHandler "T1" "na" (some 0) (3 * Second) "J1" noJoinFaults wQueued).2.users.get
            k = wQueued.users.get k) :=
  joinMatchHandler_success "T1" "na" 0 (3 * Second) "J1" wQueued 0 queuedU1 0 activeS1
    (selectServer "na" noJoinFaults wQueued).2 (by decide!) rfl (by decide) (by decide!)

/-! ### The queried candidate -/

theorem serverFilter_nonEmpty_iff (region : String) (s : gameServer) :
    serverFilter region true s = true
      ↔ s.Region = region ∧ s.State = serverStateActive ∧ 0 < s.Fill := by
  simp [serverFilter, and_assoc]

theorem serverFilter_empty_iff (region : String) (s : gameServer) :
    serverFilter region false s = true
      ↔ s.Region = region ∧ s.State = serverStateActive ∧ s.PlayerCount = 0 := by
  simp [serverFilter, and_assoc]

theorem joinMatchHandler_queried (mmtok region : String) (attempts : Int) (now : Time)
    (joinTok : String) (w : World) (userKey : Key) (user : mmUser)
    (hUser : queryUserByMMTok w mmtok = some (userKey, user))
    (hQueue : user.MMStatus = mmStatusInQueue)
    (hAttempts : attempts ≤ noServersRetryAttempts)
    (hCache : w.lastServer.lookup region = none) :
    joinMatchHandler mmtok region (some attempts) now joinTok noJoinFaults w
      = match selectQueried region noJoinFaults w with
        | (.fail r, w1) => (r, w1)
        | (.pick serverKey server, w1) =>
          joinServer mmtok region now joinTok noJoinFaults w1 userKey user serverKey server := by
  unfold joinMatchHandler
  simp only [noJoinFaults, Bool.false_eq_true, if_false, hUser]
  unfold joinMatchFound
  have hA : ¬ attempts > noServersRetryAttempts := not_lt.mpr hAttempts
  simp only [hQueue, bne_self_eq_false, Bool.false_eq_true, if_false, hA]
  unfold selectServer
  simp only [Bool.false_eq_true, if_false, hCache]

theorem selectQueried_of_nonEmpty {region : String} {w : World} {k : Key} {s : gameServer}
    (hq : queryServer w region true = some (k, s)) :
    selectQueried region noJoinFaults w
      = if s.PlayerCount ≥ s.MaxPlayerCount then
          (.fail (httpError "Retrieved Server Full." 500), w)
        else storeLastServer region noJoinFaults w k s := by
  unfold selectQueried
  simp only [noJoinFaults, Bool.false_eq_true, if_false, hq]

theorem selectQueried_of_empty {region : String} {w : World} {k : Key} {s : gameServer}
    (hq1 : queryServer w region true = none) (hq : queryServer w region false = some (k, s)) :
    selectQueried region noJoinFaults w
      = if s.PlayerCount ≥ s.MaxPlayerCount then
          (.fail (httpError "Retrieved Server Full." 500), w)
        else storeLastServer region noJoinFaults w k s := by
  unfold selectQueried
  simp only [noJoinFaults, Bool.false_eq_true, if_false, hq1, hq]

theorem actsOnCandidate_of_query (mmtok region : String) (now : Time) (joinTok : String)
    (w : World) (userKey : Key) (user : mmUser) (k : Key) (s : gameServer) :
    ActsOnCandidate
      (match (if s.PlayerCount ≥ s.MaxPlayerCount then
          ((.fail (httpError "Retrieved Server Full." 500), w) : Selection × World)
        else storeLastServer region noJoinFaults w k s) with
        | (.fail r, w1) => (r, w1)
        | (.pick serverKey server, w1) =>
          joinServer mmtok region now joinTok noJoinFaults w1 userKey user serverKey server)
      w k s := by
  unfold ActsOnCandidate
  by_cases hfull : s.PlayerCount ≥ s.MaxPlayerCount
  · rw [if_pos hfull]
    exact ⟨fun _ => ⟨rfl, rfl⟩, fun hfree => absurd hfull (not_le.mpr hfree)⟩
  · rw [if_neg hfull]
    rw [storeLastServer_noFaults]
    simp only []
    refine ⟨fun h => absurd (ge_iff_le.mpr h) hfull, fun _ => ?_⟩
    obtain ⟨h1, h2, _⟩ := joinServer_ok mmtok region now joinTok
      { w with lastServer := cacheSet w.lastServer region k } userKey user k s
    refine ⟨h1, ?_⟩
    rw [h2]
    exact Table.get_put_self _ _ _

/-- C4: when `joinMatchHandler` runs without I/O fault for a Player found `InQueue` with
`attempts ≤ 5` and no cached last server for the region: if some server of the region is
Active with `Fill > 0`, the handler goes on with such a server of minimum `Fill`; otherwise,
if some server of the region is Active with `PlayerCount = 0`, it goes on with such a
server; otherwise it answers 503 and changes neither the store nor the cache. -/
theorem joinMatchHandler_candidate (mmtok region : String) (attempts : Int) (now : Time)
    (joinTok : String) (w : World) (userKey : Key) (user : mmUser)
    (hUser : queryUserByMMTok w mmtok = some (userKey, user))
    (hQueue : user.MMStatus = mmStatusInQueue)
    (hAttempts : attempts ≤ noServersRetryAttempts)
    (hCache : w.lastServer.lookup region = none) :
    ((∃ k0 s0, w.servers.get k0 = some s0 ∧ s0.Region = region
          ∧ s0.State = serverStateActive ∧ 0 < s0.Fill) →
        ∃ k s, w.servers.get k = some s ∧ s.Region = region ∧ s.State = serverStateActive
          ∧ 0 < s.Fill
          ∧ (∀ k2 s2, w.servers.get k2 = some s2 → s2.Region = region →
              s2.State = serverStateActive → 0 < s2.Fill → s.Fill ≤ s2.Fill)
          ∧ ActsOnCandidate
              (joinMatchHandler mmtok region (some attempts) now joinTok noJoinFaults w) w k s)
    ∧ (¬ (∃ k0 s0, w.servers.get k0 = some s0 ∧ s0.Region = region
          ∧ s0.State = serverStateActive ∧ 0 < s0.Fill) →
        (∃ k0 s0, w.servers.get k0 = some s0 ∧ s0.Region = region
          ∧ s0.State = serverStateActive ∧ s0.PlayerCount = 0) →
        ∃ k s, w.servers.get k = some s ∧ s.Region = region ∧ s.State = serverStateActive
          ∧ s.PlayerCount = 0
          ∧ ActsOnCandidate
              (joinMatchHandler mmtok region (some attempts) now joinTok noJoinFaults w) w k s)
    ∧ (¬ (∃ k0 s0, w.servers.get k0 = some s0 ∧ s0.Region = region
          ∧ s0.State = serverStateActive ∧ 0 < s0.Fill) →
        ¬ (∃ k0 s0, w.servers.get k0 = some s0 ∧ s0.Region = region
          ∧ s0.State = serverStateActive ∧ s0.PlayerCount = 0) →
        (joinMatchHandler mmtok region (some attempts) now joinTok noJoinFaults w).1.code = 503
          ∧ (joinMatchHandler mmtok region (some attempts) now joinTok noJoinFaults w).2 = w) := by
  rw [joinMatchHandler_queried mmtok region attempts now joinTok w userKey user hUser hQueue
    hAttempts hCache]
  have hnone1 : (¬ ∃ k0 s0, w.servers.get k0 = some s0 ∧ s0.Region = region
      ∧ s0.State = serverStateActive ∧ 0 < s0.Fill) → queryServer w region true = none := by
    intro hno
    rw [queryServer_eq_none]
    intro k s hg
    by_contra hf
    have hf2 : serverFilter region true s = true := by simpa using hf
    exact hno ⟨k, s, hg, (serverFilter_nonEmpty_iff region s).mp hf2⟩
  have hnone2 : (¬ ∃ k0 s0, w.servers.get k0 = some s0 ∧ s0.Region = region
      ∧ s0.State = serverStateActive ∧ s0.PlayerCount = 0) →
      queryServer w region false = none := by
    intro hno
    rw [queryServer_eq_none]
    intro k s hg
    by_contra hf
    have hf2 : serverFilter region false s = true := by simpa using hf
    exact hno ⟨k, s, hg, (serverFilter_empty_iff region s).mp hf2⟩
  refine ⟨?_, ?_, ?_⟩
  · rintro ⟨k0, s0, hg0, hr0, ha0, hf0⟩
    cases hq : queryServer w region true with
    | none =>
      have := queryServer_eq_none.mp hq k0 s0 hg0
      rw [(serverFilter_nonEmpty_iff region s0).mpr ⟨hr0, ha0, hf0⟩] at this
      exact absurd this (by simp)
    | some e =>
      obtain ⟨k, s⟩ := e
      obtain ⟨hg, hf, hmin⟩ := queryServer_spec hq
      obtain ⟨hr, ha, hfill⟩ := (serverFilter_nonEmpty_iff region s).mp hf
      refine ⟨k, s, hg, hr, ha, hfill, ?_, ?_⟩
      · intro k2 s2 hg2 hr2 ha2 hf2
        exact hmin k2 s2 hg2 ((serverFilter_nonEmpty_iff region s2).mpr ⟨hr2, ha2, hf2⟩)
      · rw [selectQueried_of_nonEmpty hq]
        exact actsOnCandidate_of_query mmtok region now joinTok w userKey user k s
  · intro hno1 ⟨k0, s0, hg0, hr0, ha0, hf0⟩
    have hq1 := hnone1 hno1
    cases hq : queryServer w region false with
    | none =>
      have := queryServer_eq_none.mp hq k0 s0 hg0
      rw [(serverFilter_empty_iff region s0).mpr ⟨hr0, ha0, hf0⟩] at this
      exact absurd this (by simp)
    | some e =>
      obtain ⟨k, s⟩ := e
      obtain ⟨hg, hf, _⟩ := queryServer_spec hq
      obtain ⟨hr, ha, hcount⟩ := (serverFilter_empty_iff region s).mp hf
      refine ⟨k, s, hg, hr, ha, hcount, ?_⟩
      rw [selectQueried_of_empty hq1 hq]
      exact actsOnCandidate_of_query mmtok region now joinTok w userKey user k s
  · intro hno1 hno2
    unfold selectQueried
    simp only [noJoinFaults, Bool.false_eq_true, if_false, hnone1 hno1, hnone2 hno2]
    simp [httpError]

theorem joinMatchHandler_candidate_witness :
    ∃ k s, wQueued.servers.get k = some s ∧ s.Region = "na" ∧ s.State = serverStateActive
      ∧ s.PlayerCount = 0
      ∧ ActsOnCandidate
          (joinMatchHandler "T1" "na" (some 0) (3 * Second) "J1" noJoinFaults wQueued)
          wQueued k s :=
  (joinMatchHandler_candidate "T1" "na" 0 (3 * Second) "J1" wQueued 0 queuedU1
      (by decide!) rfl (by decide) (by decide!)).2.1
    (by
      rintro ⟨k0, s0, hg, _, _, hf⟩
      have hmem := Table.mem_of_get hg
      have hs : wQueued.servers = [some activeS1] := by decide!
      rw [hs] at hmem
      simp only [List.mem_singleton, Option.some.injEq] at hmem
      subst hmem
      exact absurd hf (by simp [activeS1]))
    ⟨0, activeS1, by decide!, rfl, rfl, rfl⟩

/-! ### A negative cache hit -/

theorem lookup_cacheDelete {β : Type} (c : List (String × β)) (k : String) :
    (cacheDelete c k).lookup k = none := by
  unfold cacheDelete
  induction c with
  | nil => rfl
  | cons e r ih =>
    by_cases h : e.1 = k
    · simp [List.filter_cons, h, ih]
    · have h2 : (k == e.1) = false := by
        simp only [beq_eq_false_iff_ne, ne_eq]
        exact fun hk => h hk.symm
      simp only [List.filter_cons, bne_iff_ne, ne_eq, h, not_false_eq_true, decide_True,
        if_true]
      rw [show e = (e.1, e.2) from rfl, List.lookup_cons, h2]
      exact ih

/-- C5 (as the code has it): when `joinMatchHandler` runs without I/O fault for a Player
found `InQueue` with `attempts ≤ 5` and the cache holds a last-server key for the region
whose server is missing, is not Active, or has `PlayerCount ≥ MaxPlayerCount`, the handler
deletes the cache entry, answers 500 and changes nothing else: no server is selected in
this invocation. The next delivery of the task, run on the world so left: when
`attempts + 1 ≤ 5` it finds no cached entry and is the run of the store query
(`selectQueried`) followed by the join on the server it yields; when `attempts = 5` it is
delivery 6, which stores the Player as Failed, answers 200 and selects no server. -/
theorem joinMatchHandler_cached_negative (mmtok region : String) (attempts : Int)
    (now : Time) (joinTok : String) (w : World) (userKey : Key) (user : mmUser)
    (serverKey : Key)
    (hUser : queryUserByMMTok w mmtok = some (userKey, user))
    (hQueue : user.MMStatus = mmStatusInQueue)
    (hAttempts : attempts ≤ noServersRetryAttempts)
    (hCache : w.lastServer.lookup region = some serverKey)
    (hNeg : w.servers.get serverKey = none
      ∨ ∃ s, w.servers.get serverKey = some s
          ∧ (s.State ≠ serverStateActive ∨ s.MaxPlayerCount ≤ s.PlayerCount)) :
    (joinMatchHandler mmtok region (some attempts) now joinTok noJoinFaults w).1.code = 500
      ∧ (joinMatchHandler mmtok region (some attempts) now joinTok noJoinFaults w).2
          = { w with lastServer := cacheDelete w.lastServer region }
      ∧ (joinMatchHandler mmtok region (some attempts) now joinTok noJoinFaults
          w).2.lastServer.lookup region = none
      ∧ (attempts + 1 ≤ noServersRetryAttempts → ∀ (now2 : Time) (joinTok2 : String),
          joinMatchHandler mmtok region (some (attempts + 1)) now2 joinTok2 noJoinFaults
              (joinMatchHandler mmtok region (some attempts) now joinTok noJoinFaults w).2
            = match selectQueried region noJoinFaults
                { w with lastServer := cacheDelete w.lastServer region } with
              | (.fail r, w1) => (r, w1)
              | (.pick serverKey server, w1) =>
                joinServer mmtok region now2 joinTok2 noJoinFaults w1 userKey user serverKey
                  server)
      ∧ (attempts = noServersRetryAttempts → ∀ (now2 : Time) (joinTok2 : String),
          joinMatchHandler mmtok region (some (attempts + 1)) now2 joinTok2 noJoinFaults
              (joinMatchHandler mmtok region (some attempts) now joinTok noJoinFaults w).2
            = (Response.ok,
                { w with
                  lastServer := cacheDelete w.lastServer region
                  users := w.users.put userKey
                    { user with MMStatus := mmStatusMatchmakingFailed } })) := by
  have hA : ¬ attempts > noServersRetryAttempts := not_lt.mpr hAttempts
  have hrun : (joinMatchHandler mmtok region (some attempts) now joinTok noJoinFaults w).1.code
        = 500
      ∧ (joinMatchHandler mmtok region (some attempts) now joinTok noJoinFaults w).2
          = { w with lastServer := cacheDelete w.lastServer region } := by
    unfold joinMatchHandler
    simp only [noJoinFaults, Bool.false_eq_true, if_false, hUser]
    unfold joinMatchFound
    simp only [hQueue, bne_self_eq_false, Bool.false_eq_true, if_false, hA]
    unfold selectServer
    simp only [Bool.false_eq_true, if_false, hCache]
    unfold selectCached deleteLastServer
    simp only [Bool.false_eq_true, if_false]
    rcases hNeg with hnone | ⟨s, hs, hstate | hfull⟩
    · simp [hnone, httpError]
    · simp [hs, hstate, httpError]
    · by_cases hstate : s.State = serverStateActive
      · simp [hs, hstate, hfull, httpError]
      · simp [hs, hstate, httpError]
  have hUser2 : queryUserByMMTok { w with lastServer := cacheDelete w.lastServer region } mmtok
      = some (userKey, user) := hUser
  refine ⟨hrun.1, hrun.2, ?_, ?_, ?_⟩
  · rw [hrun.2]
    exact lookup_cacheDelete _ _
  · intro hnext now2 joinTok2
    rw [hrun.2]
    exact joinMatchHandler_queried mmtok region (attempts + 1) now2 joinTok2
      { w with lastServer := cacheDelete w.lastServer region } userKey user hUser2 hQueue hnext
      (lookup_cacheDelete _ _)
  · intro hlast now2 joinTok2
    rw [hrun.2]
    have hA2 : attempts + 1 > noServersRetryAttempts := by
      rw [hlast]
      decide
    unfold joinMatchHandler
    simp only [noJoinFaults, Bool.false_eq_true, if_false, hUser2]
    unfold joinMatchFound
    simp only [hQueue, bne_self_eq_false, Bool.false_eq_true, if_false, hA2, if_true]

theorem joinMatchHandler_cached_negative_witness :
    (joinMatchHandler "T1" "na" (some 0) (3 * Second) "J1" noJoinFaults wCachedEnding).1.code
        = 500
      ∧ (joinMatchHandler "T1" "na" (some 0) (3 * Second) "J1" noJoinFaults wCachedEnding).2
          = { wCachedEnding with lastServer := cacheDelete wCachedEnding.lastServer "na" }
      ∧ (joinMatchHandler "T1" "na" (some 0) (3 * Second) "J1" noJoinFaults
          wCachedEnding).2.lastServer.lookup "na" = none
      ∧ joinMatchHandler "T1" "na" (some (0 + 1)) (4 * Second) "J2" noJoinFaults
            (joinMatchHandler "T1" "na" (some 0) (3 * Second) "J1" noJoinFaults
              wCachedEnding).2
          = (match selectQueried "na" noJoinFaults
              { wCachedEnding with lastServer := cacheDelete wCachedEnding.lastServer "na" }
            with
            | (.fail r, w1) => (r, w1)
            | (.pick serverKey server, w1) =>
              joinServer "T1" "na" (4 * Second) "J2" noJoinFaults w1 0 queuedU1 serverKey
                server)
      ∧ joinMatchHandler "T1" "na" (some (5 + 1)) (4 * Second) "J2" noJoinFaults
            (joinMatchHandler "T1" "na" (some 5) (3 * Second) "J1" noJoinFaults
              wCachedEnding).2
          = (Response.ok,
              { wCachedEnding with
                lastServer := cacheDelete wCachedEnding.lastServer "na"
                users := wCachedEnding.users.put 0
                  { queuedU1 with MMStatus := mmStatusMatchmakingFailed } }) := by
  have h0 := joinMatchHandler_cached_negative "T1" "na" 0 (3 * Second) "J1" wCachedEnding 0
    queuedU1 0 (by decide!) rfl (by decide) (by decide!)
    (Or.inr ⟨endingS1, by decide!, Or.inl (by decide)⟩)
  have h5 := joinMatchHandler_cached_negative "T1" "na" 5 (3 * Second) "J1" wCachedEnding 0
    queuedU1 0 (by decide!) rfl (by decide) (by decide!)
    (Or.inr ⟨endingS1, by decide!, Or.inl (by decide)⟩)
  exact ⟨h0.1, h0.2.1, h0.2.2.1, h0.2.2.2.1 (by decide) (4 * Second) "J2",
    h5.2.2.2.2 rfl (4 * Second) "J2"⟩

/-- C5 fails as stated: with the cached last server `S1` of `na` in state Ending and the
Active server `S2` of `na` having room (the store query would return it), the handler
answers 500 and only deletes the cache entry; it does not go on to select `S2` in this
invocation, while the same run without the cache entry joins `S2`. -/
theorem joinMatchHandler_cached_negative_no_query :
    wCachedEnding.lastServer.lookup "na" = some 0
      ∧ wCachedEnding.servers.get 0 = some endingS1
      ∧ endingS1.State ≠ serverStateActive
      ∧ queryServer wCachedEnding "na" true = some (1, activeS2)
      ∧ (joinMatchHandler "T1" "na" (some 0) (3 * Second) "J1" noJoinFaults wCachedEnding).1
          = httpError "Server in Invalid State." 500
      ∧ (joinMatchHandler "T1" "na" (some 0) (3 * Second) "J1" noJoinFaults wCachedEnding).2
          = { wCachedEnding with lastServer := [] }
      ∧ (joinMatchHandler "T1" "na" (some 0) (3 * Second) "J1" noJoinFaults
          { wCachedEnding with lastServer := [] }).1.code = 200
      ∧ (joinMatchHandler "T1" "na" (some 0) (3 * Second) "J1" noJoinFaults
          { wCachedEnding with lastServer := [] }).2.servers.get 1
          = some { activeS2 with PlayerCount := 3 } := by
  decide!

/-! ### The retry bound -/

theorem get_of_queryUserByMMTok {w : World} {mmtok : String} {key : Key} {user : mmUser}
    (h : queryUserByMMTok w mmtok = some (key, user)) : w.users.get key = some user :=
  (Table.mem_entries _ _ _).mp (List.mem_of_find?_eq_some h)

theorem joinServer_users (mmtok region : String) (now : Time) (joinTok : String)
    (f : JoinFaults) (w : World) (userKey : Key) (user : mmUser) (serverKey : Key)
    (server : gameServer) :
    (joinServer mmtok region now joinTok f w userKey user serverKey server).2.users = w.users
      ∨ (joinServer mmtok region now joinTok f w userKey user serverKey server).2.users
          = w.users.put userKey
              { user with
                MMStatus := mmStatusJoinedMatch
                JoinTok := joinTok
                ServerAddr := server.Address
                ServerPort := server.Port } := by
  have hdel : (if server.PlayerCount + 1 ≥ server.MaxPlayerCount
      then deleteLastServer region f w else w).users = w.users := by
    split
    · exact (deleteLastServer_sameStore region f w).1
    · rfl
  unfold joinServer
  simp only []
  split
  · exact Or.inl hdel
  · split
    · exact Or.inl hdel
    · split
      · exact Or.inl hdel
      · right
        simp only []
        rw [hdel]

theorem joinMatchHandler_select (mmtok region : String) (attempts : Int) (now : Time)
    (joinTok : String) (f : JoinFaults) (w : World) (userKey : Key) (user : mmUser)
    (hQuery : f.queryUser = false)
    (hUser : queryUserByMMTok w mmtok = some (userKey, user))
    (hQueue : user.MMStatus = mmStatusInQueue)
    (hAttempts : attempts ≤ noServersRetryAttempts) :
    joinMatchHandler mmtok region (some attempts) now joinTok f w
      = match selectServer region f w with
        | (.fail r, w1) => (r, w1)
        | (.pick serverKey server, w1) =>
          joinServer mmtok region now joinTok f w1 userKey user serverKey server := by
  unfold joinMatchHandler
  simp only [hQuery, Bool.false_eq_true, if_false, hUser]
  unfold joinMatchFound
  have hA : ¬ attempts > noServersRetryAttempts := not_lt.mpr hAttempts
  simp only [hQueue, bne_self_eq_false, Bool.false_eq_true, if_false, hA]

theorem joinMatchHandler_never_failed (mmtok region : String) (attempts : Int) (now : Time)
    (joinTok : String) (f : JoinFaults) (w : World) (userKey : Key) (user : mmUser)
    (hUser : queryUserByMMTok w mmtok = some (userKey, user))
    (hQueue : user.MMStatus = mmStatusInQueue)
    (hAttempts : attempts ≤ noServersRetryAttempts) (u : mmUser)
    (hu : (joinMatchHandler mmtok region (some attempts) now joinTok f w).2.users.get userKey
      = some u) :
    u.MMStatus ≠ mmStatusMatchmakingFailed := by
  have hget := get_of_queryUserByMMTok hUser
  have hin : user.MMStatus ≠ mmStatusMatchmakingFailed := by
    rw [hQueue]; decide
  by_cases hQuery : f.queryUser = true
  · have : joinMatchHandler mmtok region (some attempts) now joinTok f w
        = (httpError "Unexpected error." 500, w) := by
      unfold joinMatchHandler
      simp [hQuery]
    rw [this, hget] at hu
    cases hu
    exact hin
  · have hQuery2 : f.queryUser = false := by simpa using hQuery
    rw [joinMatchHandler_select mmtok region attempts now joinTok f w userKey user hQuery2 hUser
      hQueue hAttempts] at hu
    have hsel := selectServer_spec region f w
    revert hu
    split
    · rename_i r w1 heq
      rw [heq] at hsel
      intro hu
      simp only [] at hu
      rw [hsel.1.1, hget] at hu
      cases hu
      exact hin
    · rename_i serverKey server w1 heq
      rw [heq] at hsel
      intro hu
      rcases joinServer_users mmtok region now joinTok f w1 userKey user serverKey server
        with h | h
      · rw [h, hsel.1.1, hget] at hu
        cases hu
        exact hin
      · rw [h, Table.get_put_self] at hu
        cases hu
        simp [mmStatusJoinedMatch, mmStatusMatchmakingFailed]

/-- C6 (as the code has it): for a Player found `InQueue`, `joinMatchHandler` with
`attempts ≤ 5` (also `attempts = 5`) goes through the server selection and, whatever the I/O
faults, never stores the Player as `Failed`; with `attempts ≥ 6` and no I/O fault it answers
200 and stores the Player with `Status = Failed`, the rest of the world (servers,
JoinRecords, cache, tasks) being untouched. With no server in the region and no cached
last-server entry for the region, every attempt `≤ 5` answers 503 and leaves the world
unchanged. -/
theorem joinMatchHandler_retry_bound (mmtok region : String) (attempts : Int) (now : Time)
    (joinTok : String) (w : World) (userKey : Key) (user : mmUser)
    (hUser : queryUserByMMTok w mmtok = some (userKey, user))
    (hQueue : user.MMStatus = mmStatusInQueue) :
    (attempts ≤ 5 → ∀ f : JoinFaults,
        (f.queryUser = false →
          joinMatchHandler mmtok region (some attempts) now joinTok f w
            = match selectServer region f w with
              | (.fail r, w1) => (r, w1)
              | (.pick serverKey server, w1) =>
                joinServer mmtok region now joinTok f w1 userKey user serverKey server)
        ∧ ∀ u, (joinMatchHandler mmtok region (some attempts) now joinTok f w).2.users.get
            userKey = some u → u.MMStatus ≠ mmStatusMatchmakingFailed)
    ∧ (6 ≤ attempts →
        joinMatchHandler mmtok region (some attempts) now joinTok noJoinFaults w
          = (Response.ok,
              { w with
                users :=
                  w.users.put userKey { user with MMStatus := mmStatusMatchmakingFailed } })
        ∧ Response.ok.code = 200
        ∧ (joinMatchHandler mmtok region (some attempts) now joinTok noJoinFaults w).2.users.get
            userKey = some { user with MMStatus := mmStatusMatchmakingFailed })
    ∧ (attempts ≤ 5 → (∀ k s, w.servers.get k = some s → s.Region ≠ region) →
        w.lastServer.lookup region = none →
        (joinMatchHandler mmtok region (some attempts) now joinTok noJoinFaults w).1.code = 503
          ∧ (joinMatchHandler mmtok region (some attempts) now joinTok noJoinFaults w).2 = w) := by
  refine ⟨?_, ?_, ?_⟩
  · intro hA f
    exact ⟨fun hQuery => joinMatchHandler_select mmtok region attempts now joinTok f w userKey
        user hQuery hUser hQueue hA,
      fun u hu => joinMatchHandler_never_failed mmtok region attempts now joinTok f w userKey
        user hUser hQueue hA u hu⟩
  · intro hA
    have hgt : attempts > noServersRetryAttempts := by
      simp only [noServersRetryAttempts]; omega
    have hrun : joinMatchHandler mmtok region (some attempts) now joinTok noJoinFaults w
        = (Response.ok,
            { w with
              users :=
                w.users.put userKey { user with MMStatus := mmStatusMatchmakingFailed } }) := by
      unfold joinMatchHandler
      simp only [noJoinFaults, Bool.false_eq_true, if_false, hUser]
      unfold joinMatchFound
      simp only [hQueue, bne_self_eq_false, Bool.false_eq_true, if_false, hgt, if_true]
    refine ⟨hrun, rfl, ?_⟩
    rw [hrun]
    exact Table.get_put_self _ _ _
  · intro hA hNone hCache
    rw [joinMatchHandler_queried mmtok region attempts now joinTok w userKey user hUser hQueue
      hA hCache]
    have hq : ∀ b, queryServer w region b = none := by
      intro b
      rw [queryServer_eq_none]
      intro k s hg
      have hr := hNone k s hg
      simp [serverFilter, hr]
    unfold selectQueried
    simp only [noJoinFaults, Bool.false_eq_true, if_false, hq]
    simp [httpError]

theorem joinMatchHandler_retry_bound_witness :
    (joinMatchHandler "T1" "na" (some 5) (3 * Second) "J1" noJoinFaults
        { wQueued with servers := [] }).1.code = 503
      ∧ (joinMatchHandler "T1" "na" (some 6) (3 * Second) "J1" noJoinFaults
        { wQueued with servers := [] }).2.users.get 0
          = some { queuedU1 with MMStatus := mmStatusMatchmakingFailed } :=
  ⟨((joinMatchHandler_retry_bound "T1" "na" 5 (3 * Second) "J1" { wQueued with servers := [] }
        0 queuedU1 (by decide!) rfl).2.2 (by decide)
        (fun k s hg => by simp [Table.get] at hg) (by decide!)).1,
    ((joinMatchHandler_retry_bound "T1" "na" 6 (3 * Second) "J1" { wQueued with servers := [] }
        0 queuedU1 (by decide!) rfl).2.1 (by decide)).2.2⟩

theorem wQueued2_reachable : Reachable wQueued2 :=
  Relation.ReflTransGen.tail
    (Relation.ReflTransGen.tail wJoined_reachable
      (Step.manageRegion "na" (200 * Second) noManageFaults wJoined))
    (Step.enqueue "GET" "U2" "ticket" "na" steamU2 (201 * Second) "T2" noEnqueueFaults wExpired)

/-- C6 fails as stated: in a reachable world with no server at all (the only server has
expired and was removed by `/manage`) but with the last-server entry of `na` still cached,
the join task of the `InQueue` player `U2` at attempt 0 answers 500, not 503 (the Player
is unchanged). -/
theorem joinMatchHandler_no_server_500 :
    Reachable wQueued2
      ∧ wQueued2.servers = [none]
      ∧ wQueued2.lastServer.lookup "na" = some 0
      ∧ queryUserByMMTok wQueued2 "T2" = some (1, queuedU2)
      ∧ queuedU2.MMStatus = mmStatusInQueue
      ∧ (joinMatchHandler "T2" "na" (some 0) (202 * Second) "J2" noJoinFaults wQueued2).1
          = httpError "Unexpected error." 500
      ∧ (joinMatchHandler "T2" "na" (some 0) (202 * Second) "J2" noJoinFaults wQueued2).2.users
          = wQueued2.users :=
  ⟨wQueued2_reachable, by decide!, by decide!, by decide!, rfl, by decide!, by decide!⟩

/-! ### A player that has left the queue -/

/-- C7: for every Player found by `MMTok` whose `Status` is not `InQueue`, for every value
of the retry header (also `attempts > 5`, also a header that does not parse) and whatever
faults the later I/O calls would have, `joinMatchHandler` answers 200 with an empty body and
leaves the whole world unchanged: no Player (in particular not this one, which is not moved
to `Failed`), no Server, no JoinRecord and no cache entry is written. -/
theorem joinMatchHandler_not_in_queue (mmtok region : String) (attempts : Option Int)
    (now : Time) (joinTok : String) (f : JoinFaults) (w : World) (userKey : Key)
    (user : mmUser) (hQuery : f.queryUser = false)
    (hUser : queryUserByMMTok w mmtok = some (userKey, user))
    (hStatus : user.MMStatus ≠ mmStatusInQueue) :
    (joinMatchHandler mmtok region attempts now joinTok f w).1.code = 200
      ∧ (joinMatchHandler mmtok region attempts now joinTok f w).1.body = []
      ∧ (joinMatchHandler mmtok region attempts now joinTok f w).2 = w := by
  have hrun : joinMatchHandler mmtok region attempts now joinTok f w = (Response.ok, w) := by
    unfold joinMatchHandler
    cases attempts with
    | none => rfl
    | some a =>
      simp only [hQuery, Bool.false_eq_true, if_false, hUser]
      unfold joinMatchFound
      simp [hStatus]
  rw [hrun]
  exact ⟨rfl, rfl, rfl⟩

theorem joinMatchHandler_not_in_queue_witness :
    (joinMatchHandler "T1" "na" (some 6) (30 * Second) "J1" noJoinFaults wFailedU1).1.code = 200
      ∧ (joinMatchHandler "T1" "na" (some 6) (30 * Second) "J1" noJoinFaults wFailedU1).1.body
          = []
      ∧ (joinMatchHandler "T1" "na" (some 6) (30 * Second) "J1" noJoinFaults wFailedU1).2
          = wFailedU1 :=
  joinMatchHandler_not_in_queue "T1" "na" (some 6) (30 * Second) "J1" noJoinFaults wFailedU1 0
    failedU1 rfl (by decide!) (by decide)

/-! ### Heartbeat delivery -/

theorem joinLoop_noFaults (l : List (Key × joinRecord)) (st : JoinLoop) (i : Nat)
    (hst : st.aborted = false) :
    joinLoop noHeartbeatFaults st i l
      = { joins := st.joins ++ l.map (fun e => { UserID := e.2.UserID, JoinToken := e.2.JoinToken }),
          table := l.foldl (fun t e => t.put e.1 { e.2 with Checked := true }) st.table,
          putErrors := st.putErrors, aborted := false } := by
  induction l generalizing st i with
  | nil =>
    cases st
    simp only [] at hst
    subst hst
    simp [joinLoop, noHeartbeatFaults]
  | cons e r ih =>
    have hstep : joinLoopStep noHeartbeatFaults st i e
        = { st with
            joins := st.joins ++ [{ UserID := e.2.UserID, JoinToken := e.2.JoinToken }]
            table := st.table.put e.1 { e.2 with Checked := true } } := by
      unfold joinLoopStep
      simp [hst, noHeartbeatFaults]
    rw [joinLoop, hstep, ih]
    · simp
    · exact hst

theorem foldl_put_get {α : Type} (g : α → α) (l : List (Key × α)) (t : Table α)
    (hfun : ∀ k a b, (k, a) ∈ l → (k, b) ∈ l → a = b) :
    (∀ k a, (k, a) ∈ l → (l.foldl (fun t e => t.put e.1 (g e.2)) t).get k = some (g a))
      ∧ (∀ k, (∀ a, (k, a) ∉ l) → (l.foldl (fun t e => t.put e.1 (g e.2)) t).get k = t.get k) := by
  induction l generalizing t with
  | nil =>
    exact ⟨fun k a h => absurd h (List.not_mem_nil _), fun k _ => rfl⟩
  | cons e r ih =>
    have hfun2 : ∀ k a b, (k, a) ∈ r → (k, b) ∈ r → a = b :=
      fun k a b ha hb => hfun k a b (List.mem_cons_of_mem _ ha) (List.mem_cons_of_mem _ hb)
    obtain ⟨ih1, ih2⟩ := ih (t.put e.1 (g e.2)) hfun2
    constructor
    · intro k a hmem
      rw [List.foldl_cons]
      by_cases hin : ∃ b, (k, b) ∈ r
      · obtain ⟨b, hb⟩ := hin
        have hab : a = b := hfun k a b hmem (List.mem_cons_of_mem _ hb)
        rw [hab]
        exact ih1 k b hb
      · have hnot : ∀ b, (k, b) ∉ r := fun b hb => hin ⟨b, hb⟩
        rw [ih2 k hnot]
        rcases List.mem_cons.mp hmem with heq | hr
        · rw [← heq]
          exact Table.get_put_self _ _ _
        · exact absurd hr (hnot a)
    · intro k hnot
      rw [List.foldl_cons]
      have hnot2 : ∀ a, (k, a) ∉ r := fun a ha => hnot a (List.mem_cons_of_mem _ ha)
      rw [ih2 k hnot2]
      have hne : k ≠ e.1 := by
        intro hk
        exact hnot e.2 (by rw [hk]; exact List.mem_cons_self _ _)
      exact Table.get_put_of_ne _ _ _ _ hne

theorem mem_pendingJoins (w : World) (serverID : String) (k : Key) (j : joinRecord) :
    (k, j) ∈ pendingJoins w serverID
      ↔ w.joins.get k = some j ∧ j.ServerID = serverID ∧ j.Checked = false := by
  unfold pendingJoins
  rw [List.mem_filter, Table.mem_entries]
  simp

theorem heartbeatHandler_run (serverID : String) (state players maxPlayers : Int) (now : Time)
    (w : World) (hReg : ∃ k s, w.servers.get k = some s ∧ s.UUID = serverID) :
    ∃ serverKey server, w.servers.get serverKey = some server ∧ server.UUID = serverID
      ∧ heartbeatHandler "GET" serverID (some state) (some players) (some maxPlayers) now
          noHeartbeatFaults w
        = (httpWrite (.joinReport ((pendingJoins w serverID).map
              (fun e => { UserID := e.2.UserID, JoinToken := e.2.JoinToken }))),
            { w with
              servers := w.servers.put serverKey
                { server with
                  State := state
                  CheckTime := now
                  PlayerCount := players
                  MaxPlayerCount := maxPlayers
                  Fill := (players : ℚ) / (maxPlayers : ℚ) }
              joins := (pendingJoins w serverID).foldl
                (fun t e => t.put e.1 { e.2 with Checked := true }) w.joins }) := by
  obtain ⟨k0, s0, hg0, hu0⟩ := hReg
  cases hfind : w.servers.entries.find? (fun e => e.2.UUID == serverID) with
  | none =>
    rw [List.find?_eq_none] at hfind
    have := hfind (k0, s0) ((Table.mem_entries _ _ _).mpr hg0)
    simp [hu0] at this
  | some e =>
    obtain ⟨serverKey, server⟩ := e
    have hmem := List.mem_of_find?_eq_some hfind
    have hget := (Table.mem_entries _ _ _).mp hmem
    have huuid : server.UUID = serverID := by
      have := List.find?_some hfind
      simpa using this
    refine ⟨serverKey, server, hget, huuid, ?_⟩
    unfold heartbeatHandler
    simp only [bne_self_eq_false, Bool.false_eq_true, if_false, noHeartbeatFaults, hfind]
    rw [← noHeartbeatFaults, joinLoop_noFaults _ _ _ rfl]
    simp [afterErrors, httpWrite, pendingJoins]

/-- C8: for every world and every registered `ServerID`, `heartbeatHandler` (parameters
that parse, no I/O fault) answers with the JoinInfo list of exactly the `(UserID,
JoinToken)` pairs of the JoinRecords with that `ServerID` and `Checked = false`, stores
exactly those records with `Checked = true`, leaves every other JoinRecord (in particular
those of other servers) as it was, and the same heartbeat issued again on the resulting
world answers with an empty JoinInfo list. -/
theorem heartbeatHandler_delivers (serverID : String) (state players maxPlayers : Int)
    (now now2 : Time) (w : World)
    (hReg : ∃ k s, w.servers.get k = some s ∧ s.UUID = serverID) :
    (heartbeatHandler "GET" serverID (some state) (some players) (some maxPlayers) now
        noHeartbeatFaults w).1
        = httpWrite (.joinReport ((pendingJoins w serverID).map
            (fun e => { UserID := e.2.UserID, JoinToken := e.2.JoinToken })))
      ∧ (∀ k j, (k, j) ∈ pendingJoins w serverID
          ↔ w.joins.get k = some j ∧ j.ServerID = serverID ∧ j.Checked = false)
      ∧ (∀ k j, w.joins.get k = some j → j.ServerID = serverID → j.Checked = false →
          (heartbeatHandler "GET" serverID (some state) (some players) (some maxPlayers) now
            noHeartbeatFaults w).2.joins.get k = some { j with Checked := true })
      ∧ (∀ k, (¬ ∃ j, w.joins.get k = some j ∧ j.ServerID = serverID ∧ j.Checked = false) →
          (heartbeatHandler "GET" serverID (some state) (some players) (some maxPlayers) now
            noHeartbeatFaults w).2.joins.get k = w.joins.get k)
      ∧ (heartbeatHandler "GET" serverID (some state) (some players) (some maxPlayers) now2
          noHeartbeatFaults
          (heartbeatHandler "GET" serverID (some state) (some players) (some maxPlayers) now
            noHeartbeatFaults w).2).1 = httpWrite (.joinReport []) := by
  obtain ⟨serverKey, server, hget, huuid, hrun⟩ :=
    heartbeatHandler_run serverID state players maxPlayers now w hReg
  have hfun : ∀ k a b, (k, a) ∈ pendingJoins w serverID → (k, b) ∈ pendingJoins w serverID →
      a = b := by
    intro k a b ha hb
    have h1 := ((mem_pendingJoins w serverID k a).mp ha).1
    have h2 := ((mem_pendingJoins w serverID k b).mp hb).1
    rw [h1] at h2
    exact Option.some.inj h2
  obtain ⟨hput, hkeep⟩ := foldl_put_get (fun j : joinRecord => { j with Checked := true })
    (pendingJoins w serverID) w.joins hfun
  have hmarked : ∀ k j, w.joins.get k = some j → j.ServerID = serverID → j.Checked = false →
      (heartbeatHandler "GET" serverID (some state) (some players) (some maxPlayers) now
        noHeartbeatFaults w).2.joins.get k = some { j with Checked := true } := by
    intro k j hg hs hc
    rw [hrun]
    exact hput k j ((mem_pendingJoins w serverID k j).mpr ⟨hg, hs, hc⟩)
  have hother : ∀ k,
      (¬ ∃ j, w.joins.get k = some j ∧ j.ServerID = serverID ∧ j.Checked = false) →
      (heartbeatHandler "GET" serverID (some state) (some players) (some maxPlayers) now
        noHeartbeatFaults w).2.joins.get k = w.joins.get k := by
    intro k hno
    rw [hrun]
    exact hkeep k (fun a ha => hno ⟨a, (mem_pendingJoins w serverID k a).mp ha⟩)
  refine ⟨by rw [hrun], mem_pendingJoins w serverID, hmarked, hother, ?_⟩
  have hReg2 : ∃ k s, (heartbeatHandler "GET" serverID (some state) (some players)
      (some maxPlayers) now noHeartbeatFaults w).2.servers.get k = some s
      ∧ s.UUID = serverID := by
    rw [hrun]
    exact ⟨serverKey, _, Table.get_put_self _ _ _, huuid⟩
  obtain ⟨_, _, _, _, hrun2⟩ :=
    heartbeatHandler_run serverID state players maxPlayers now2 _ hReg2
  rw [hrun2]
  have hempty : pendingJoins (heartbeatHandler "GET" serverID (some state) (some players)
      (some maxPlayers) now noHeartbeatFaults w).2 serverID = [] := by
    rw [List.eq_nil_iff_forall_not_mem]
    rintro ⟨k, j⟩ hmem
    obtain ⟨hg, hs, hc⟩ := (mem_pendingJoins _ serverID k j).mp hmem
    by_cases hex : ∃ j0, w.joins.get k = some j0 ∧ j0.ServerID = serverID ∧ j0.Checked = false
    · obtain ⟨j0, hg0, hs0, hc0⟩ := hex
      rw [hmarked k j0 hg0 hs0 hc0] at hg
      cases hg
      simp at hc
    · rw [hother k hex] at hg
      exact hex ⟨j, hg, hs, hc⟩
  rw [hempty]
  rfl

theorem heartbeatHandler_delivers_witness :
    (heartbeatHandler "GET" "S1" (some 1) (some 1) (some 4) (4 * Second) noHeartbeatFaults
        wJoined).1 = httpWrite (.joinReport [{ UserID := "U1", JoinToken := "J1" }])
      ∧ (heartbeatHandler "GET" "S1" (some 1) (some 1) (some 4) (5 * Second) noHeartbeatFaults
          (heartbeatHandler "GET" "S1" (some 1) (some 1) (some 4) (4 * Second)
            noHeartbeatFaults wJoined).2).1 = httpWrite (.joinReport []) :=
  ⟨(heartbeatHandler_delivers "S1" 1 1 4 (4 * Second) (5 * Second) wJoined
      ⟨0, { activeS1 with PlayerCount := 1 }, by decide!, rfl⟩).1.trans (by decide!),
    (heartbeatHandler_delivers "S1" 1 1 4 (4 * Second) (5 * Second) wJoined
      ⟨0, { activeS1 with PlayerCount := 1 }, by decide!, rfl⟩).2.2.2.2⟩

/-! ### Fill after a join -/

/-- C9 (the code at the failing input): the join on the server with `PlayerCount = 2`,
`MaxPlayerCount = 4`, `Fill = 1/2` stores `PlayerCount = 3` with `Fill` still `1/2`, which
is not `3/4 = PlayerCount / MaxPlayerCount`. -/
theorem joinMatchHandler_fill_stale :
    (joinMatchHandler "T1" "na" (some 0) (3 * Second) "J1" noJoinFaults wHalf).1.code = 200
      ∧ (joinMatchHandler "T1" "na" (some 0) (3 * Second) "J1" noJoinFaults wHalf).2.servers.get 0
          = some { halfS1 with PlayerCount := 3, Fill := 1 / 2 }
      ∧ ((1 : ℚ) / 2 ≠ ((3 : Int) : ℚ) / ((4 : Int) : ℚ)) := by
  decide!

/-! ### Expiry of a server -/

/-- C10: `manageRegionServers` reports a server as Expired if and only if its state is
Terminating, or `now - CheckTime` exceeds 60 seconds, or `now - CheckTime` is at least 60
minutes. A server that is not Terminating and whose `CheckTime` is exactly 60 seconds old is
not expired; one whose `CheckTime` is more than 60 seconds old is. -/
theorem serverReport_expired_iff (now : Time) (s : gameServer) :
    ((serverReport now s).Expired = true
        ↔ (s.State = serverStateTerminating ∨ 60 * Second < now - s.CheckTime
            ∨ 60 * Minute ≤ now - s.CheckTime))
      ∧ (s.State ≠ serverStateTerminating → now - s.CheckTime = 60 * Second →
          (serverReport now s).Expired = false)
      ∧ (60 * Second < now - s.CheckTime → (serverReport now s).Expired = true) := by
  have hiff : (serverReport now s).Expired = true
      ↔ (s.State = serverStateTerminating ∨ 60 * Second < now - s.CheckTime
          ∨ 60 * Minute ≤ now - s.CheckTime) := by
    unfold serverReport
    simp only [Bool.or_eq_true, beq_iff_eq, decide_eq_true_eq, or_assoc]
    rw [seconds_gt_iff, minutes_age_iff]
  refine ⟨hiff, ?_, ?_⟩
  · intro hstate hage
    rw [Bool.eq_false_iff]
    intro hexp
    rcases hiff.mp hexp with h | h | h
    · exact hstate h
    · rw [hage] at h
      exact lt_irrefl _ h
    · rw [hage] at h
      norm_num [Minute, Second] at h
  · intro h
    exact hiff.mpr (Or.inr (Or.inl h))

theorem serverReport_expired_iff_witness :
    (serverReport (60 * Second) silentS1).Expired = false
      ∧ (serverReport (60 * Second + Nanosecond) silentS1).Expired = true :=
  ⟨(serverReport_expired_iff (60 * Second) silentS1).2.1 (by decide) (by decide),
    (serverReport_expired_iff (60 * Second + Nanosecond) silentS1).2.2 (by decide)⟩

/-! ### Tables: overwriting -/

theorem List.set_of_getElem?_eq {α : Type} (l : List α) (k : Nat) (x : α)
    (h : l[k]? = some x) : l.set k x = l := by
  induction l generalizing k with
  | nil => rfl
  | cons a r ih =>
    cases k with
    | zero =>
      simp only [List.getElem?_cons_zero, Option.some.injEq] at h
      rw [List.set_cons_zero, h]
    | succ n =>
      simp only [List.getElem?_cons_succ] at h
      rw [List.set_cons_succ, ih n h]

theorem Table.lt_length_of_get {α : Type} {t : Table α} {k : Nat} {v : α}
    (h : t.get k = some v) : k < t.length := by
  rw [Table.get_eq_some] at h
  by_contra hk
  rw [List.getElem?_eq_none (by omega)] at h
  cases h

theorem Table.put_of_get {α : Type} {t : Table α} {k : Nat} {v : α}
    (h : t.get k = some v) : t.put k v = t := by
  have hk := Table.lt_length_of_get h
  simp only [Table.put, hk, if_true]
  exact List.set_of_getElem?_eq t k (some v) (Table.get_eq_some.mp h)

theorem Table.put_put {α : Type} (t : Table α) (k : Nat) (a b : α) (hk : k < t.length) :
    (t.put k a).put k b = t.put k b := by
  have h1 : t.put k a = t.set k (some a) := by simp only [Table.put, hk, if_true]
  have h2 : k < (t.set k (some a)).length := by simpa using hk
  rw [h1]
  simp only [Table.put, h2, hk, if_true]
  exact List.set_set _ _ _ _

theorem get_of_queryUserByUserID {w : World} {userID : String} {key : Key} {user : mmUser}
    (h : queryUserByUserID w userID = some (key, user)) : w.users.get key = some user :=
  (Table.mem_entries _ _ _).mp (List.mem_of_find?_eq_some h)

/-! ### Polling -/

/-- C20: for every Player found by `MMTok` (GET request, no I/O fault), `pollHandler` stores
the Player with `CheckTime = now` and every other field as it was when `Status = InQueue`,
and writes nothing at all when `Status ≠ InQueue` (so `Status` is never changed and no
other Player is touched); the response carries the Player's `Status`, together with
`JoinTok`, `ServerAddr` and `ServerPort` exactly when `Status = JoinedMatch`. -/
theorem pollHandler_frame (mmtok : String) (now : Time) (w : World) (key : Key)
    (user : mmUser) (hUser : queryUserByMMTok w mmtok = some (key, user)) :
    (user.MMStatus = mmStatusInQueue →
        (pollHandler "GET" mmtok now noClientFaults w).2
            = { w with users := w.users.put key { user with CheckTime := now } }
          ∧ (pollHandler "GET" mmtok now noClientFaults w).2.users.get key
            = some { user with CheckTime := now }
          ∧ ∀ k, k ≠ key →
              (pollHandler "GET" mmtok now noClientFaults w).2.users.get k = w.users.get k)
      ∧ (user.MMStatus ≠ mmStatusInQueue → (pollHandler "GET" mmtok now noClientFaults w).2 = w)
      ∧ (user.MMStatus = mmStatusJoinedMatch →
          (pollHandler "GET" mmtok now noClientFaults w).1
            = httpWrite (.mmPollFull user.MMStatus user.JoinTok user.ServerAddr user.ServerPort))
      ∧ (user.MMStatus ≠ mmStatusJoinedMatch →
          (pollHandler "GET" mmtok now noClientFaults w).1 = httpWrite (.mmPoll user.MMStatus)) := by
  have hrun : pollHandler "GET" mmtok now noClientFaults w
      = if user.MMStatus == mmStatusInQueue then
          (httpWrite (.mmPoll user.MMStatus),
            { w with users := w.users.put key { user with CheckTime := now } })
        else if user.MMStatus == mmStatusJoinedMatch then
          (httpWrite (.mmPollFull user.MMStatus user.JoinTok user.ServerAddr user.ServerPort), w)
        else (httpWrite (.mmPoll user.MMStatus), w) := by
    unfold pollHandler
    simp only [noClientFaults, bne_self_eq_false, Bool.false_eq_true, if_false, hUser]
  rw [hrun]
  refine ⟨?_, ?_, ?_, ?_⟩
  · intro hq
    have hq2 : (user.MMStatus == mmStatusInQueue) = true := by simp [hq]
    rw [if_pos hq2]
    exact ⟨rfl, Table.get_put_self _ _ _, fun k hk => Table.get_put_of_ne _ _ _ _ hk⟩
  · intro hq
    have hq2 : (user.MMStatus == mmStatusInQueue) = false := by simpa using hq
    simp only [hq2, Bool.false_eq_true, if_false]
    split <;> rfl
  · intro hj
    have hq2 : (user.MMStatus == mmStatusInQueue) = false := by
      rw [hj]; decide
    simp only [hq2, Bool.false_eq_true, if_false]
    simp [hj]
  · intro hj
    have hj2 : (user.MMStatus == mmStatusJoinedMatch) = false := by simpa using hj
    simp only [hj2, Bool.false_eq_true, if_false]
    split <;> rfl

theorem pollHandler_frame_witness :
    (pollHandler "GET" "T1" (9 * Second) noClientFaults wQueued).2.users.get 0
        = some { queuedU1 with CheckTime := 9 * Second }
      ∧ (pollHandler "GET" "T1" (9 * Second) noClientFaults wQueued).1
        = httpWrite (.mmPoll queuedU1.MMStatus)
      ∧ (pollHandler "GET" "T1" (30 * Second) noClientFaults wFailedU1).2 = wFailedU1 :=
  ⟨((pollHandler_frame "T1" (9 * Second) wQueued 0 queuedU1 (by decide!)).1 rfl).2.1,
    (pollHandler_frame "T1" (9 * Second) wQueued 0 queuedU1 (by decide!)).2.2.2 (by decide),
    (pollHandler_frame "T1" (30 * Second) wFailedU1 0 failedU1 (by decide!)).2.1 (by decide)⟩

/-! ### Enqueue within the grace period -/

theorem enqueueHandler_found (userID authToken region : String) (steam : SteamAuth)
    (now : Time) (uuid : String) (w : World) (key : Key) (user : mmUser)
    (hErr : steam.err = false) (hAuth : steam.authenticated = true)
    (hID : steam.steamID = userID)
    (hFound : queryUserByUserID w userID = some (key, user)) :
    enqueueHandler "GET" userID authToken region steam now uuid noEnqueueFaults w
      = enqueueFound region now noEnqueueFaults w key user := by
  simp [enqueueHandler, enqueueAuth, authenticateWithSteam, hErr, hAuth, hID, hFound,
    noEnqueueFaults]

theorem enqueueFound_in_grace (region : String) (now : Time) (w : World) (key : Key)
    (user : mmUser) (hget : w.users.get key = some user)
    (hQueue : user.MMStatus = mmStatusInQueue) (hGrace : now - user.CheckTime < Minute) :
    enqueueFound region now noEnqueueFaults w key user = (httpWrite (.text user.MMTok), w) := by
  have hM : Minute = 60000000000 := by norm_num [Minute, Second]
  have hT : decide ((Time.Sub now user.CheckTime).Minutes ≥ mmUserResetMatchmakeTime)
      = false := by
    rw [Bool.eq_false_iff]
    intro h
    have := (enough_iff now user.CheckTime).mp h
    rw [hM] at hGrace
    exact absurd this (not_le.mpr hGrace)
  unfold enqueueFound
  simp only [noEnqueueFaults, hT, hQueue, beq_self_eq_true, Bool.true_or, Bool.and_false,
    Bool.or_false, Bool.not_true, Bool.false_eq_true, if_false, if_true]
  rw [Table.put_of_get hget]

/-- C19 (as the code has it): for every existing Player with `Status = InQueue` and
`now - CheckTime` below one minute, an `enqueueHandler` call (authenticated GET, no I/O
fault) is accepted: it answers with the Player's `MMTok`, stores the Player with every
field unchanged, `CheckTime` included, and schedules no task; the whole world is as
before. -/
theorem enqueueHandler_in_grace (userID authToken region : String) (steam : SteamAuth)
    (now : Time) (uuid : String) (w : World) (key : Key) (user : mmUser)
    (hErr : steam.err = false) (hAuth : steam.authenticated = true)
    (hID : steam.steamID = userID)
    (hFound : queryUserByUserID w userID = some (key, user))
    (hQueue : user.MMStatus = mmStatusInQueue) (hGrace : now - user.CheckTime < Minute) :
    (enqueueHandler "GET" userID authToken region steam now uuid noEnqueueFaults w).1
        = httpWrite (.text user.MMTok)
      ∧ (enqueueHandler "GET" userID authToken region steam now uuid noEnqueueFaults w).2 = w
      ∧ (enqueueHandler "GET" userID authToken region steam now uuid noEnqueueFaults
          w).2.users.get key = some user
      ∧ (enqueueHandler "GET" userID authToken region steam now uuid noEnqueueFaults w).2.tasks
          = w.tasks := by
  rw [enqueueHandler_found userID authToken region steam now uuid w key user hErr hAuth hID
    hFound, enqueueFound_in_grace region now w key user (get_of_queryUserByUserID hFound)
    hQueue hGrace]
  exact ⟨rfl, rfl, get_of_queryUserByUserID hFound, rfl⟩

theorem enqueueHandler_in_grace_witness :
    (enqueueHandler "GET" "U1" "ticket" "na" steamU1 (10 * Second) "T9" noEnqueueFaults
        wQueued).1 = httpWrite (.text queuedU1.MMTok)
      ∧ (enqueueHandler "GET" "U1" "ticket" "na" steamU1 (10 * Second) "T9" noEnqueueFaults
        wQueued).2 = wQueued
      ∧ (enqueueHandler "GET" "U1" "ticket" "na" steamU1 (10 * Second) "T9" noEnqueueFaults
        wQueued).2.users.get 0 = some queuedU1
      ∧ (enqueueHandler "GET" "U1" "ticket" "na" steamU1 (10 * Second) "T9" noEnqueueFaults
        wQueued).2.tasks = wQueued.tasks :=
  enqueueHandler_in_grace "U1" "ticket" "na" steamU1 (10 * Second) "T9" wQueued 0 queuedU1
    rfl rfl rfl (by decide!) rfl (by decide)

/-- C19 fails as stated: the `InQueue` player `U1` has `CheckTime = 2 s`; the accepted
enqueue at 10 s stores the record with `CheckTime` still `2 s`, not `10 s`. -/
theorem enqueueHandler_in_grace_keeps_checkTime :
    queryUserByUserID wQueued "U1" = some (0, queuedU1)
      ∧ queuedU1.MMStatus = mmStatusInQueue
      ∧ 10 * Second - queuedU1.CheckTime < Minute
      ∧ (enqueueHandler "GET" "U1" "ticket" "na" steamU1 (10 * Second) "T9" noEnqueueFaults
          wQueued).1 = httpWrite (.text "T1")
      ∧ (enqueueHandler "GET" "U1" "ticket" "na" steamU1 (10 * Second) "T9" noEnqueueFaults
          wQueued).2.users.get 0 = some queuedU1
      ∧ queuedU1.CheckTime = 2 * Second
      ∧ queuedU1.CheckTime ≠ 10 * Second := by
  decide!

/-! ### Tables: the entries after a write -/

theorem Table.entriesFrom_append {α : Type} (t t2 : Table α) (i : Nat) :
    Table.entriesFrom i (t ++ t2)
      = Table.entriesFrom i t ++ Table.entriesFrom (i + t.length) t2 := by
  induction t generalizing i with
  | nil => simp [Table.entriesFrom]
  | cons o r ih =>
    have hidx : i + 1 + r.length = i + (o :: r).length := by
      simp only [List.length_cons]; omega
    rw [List.cons_append]
    cases o with
    | none =>
      simp only [Table.entriesFrom]
      rw [ih (i + 1), hidx]
    | some x =>
      simp only [Table.entriesFrom]
      rw [ih (i + 1), hidx, List.cons_append]

theorem Table.entries_insert {α : Type} (t : Table α) (v : α) :
    (t.insert v).2.entries = t.entries ++ [(t.length, v)] := by
  unfold Table.insert Table.entries
  simp [Table.entriesFrom_append, Table.entriesFrom]

theorem Table.entriesFrom_set {α : Type} (t : Table α) (i k : Nat) (u v : α)
    (h : t[k]? = some (some u)) :
    Table.entriesFrom i (t.set k (some v))
      = (Table.entriesFrom i t).map (fun e => if e.1 = i + k then (i + k, v) else e) := by
  induction t generalizing i k with
  | nil => simp at h
  | cons o r ih =>
    have htail : ∀ j, (Table.entriesFrom (i + 1) r).map
        (fun e => if e.1 = i then (j, v) else e) = Table.entriesFrom (i + 1) r := by
      intro j
      conv_rhs => rw [← List.map_id (Table.entriesFrom (i + 1) r)]
      apply List.map_congr_left
      intro e he
      have hle := ((Table.mem_entriesFrom r (i + 1) e.1 e.2).mp he).1
      have hne : e.1 ≠ i := Nat.ne_of_gt hle
      simp [hne]
    cases k with
    | zero =>
      simp only [List.getElem?_cons_zero, Option.some.injEq] at h
      subst h
      simp only [List.set_cons_zero, Table.entriesFrom, Nat.add_zero, List.map_cons, if_true]
      rw [htail]
    | succ n =>
      simp only [List.getElem?_cons_succ] at h
      have hidx : i + (n + 1) = i + 1 + n := by omega
      cases o with
      | none =>
        simp only [List.set_cons_succ, Table.entriesFrom]
        rw [ih (i + 1) n h, hidx]
      | some x =>
        simp only [List.set_cons_succ, Table.entriesFrom, List.map_cons]
        rw [ih (i + 1) n h, hidx]
        have hne : i ≠ i + 1 + n := by omega
        simp [hne]

theorem Table.entries_put {α : Type} (t : Table α) (k : Nat) (u v : α)
    (h : t.get k = some u) :
    (t.put k v).entries = t.entries.map (fun e => if e.1 = k then (k, v) else e) := by
  have hk := Table.lt_length_of_get h
  have := Table.entriesFrom_set t 0 k u v (Table.get_eq_some.mp h)
  simp only [Nat.zero_add] at this
  simp only [Table.put, hk, if_true, Table.entries]
  exact this

theorem List.find?_map_of_agree {α : Type} (l : List α) (g : α → α) (p : α → Bool)
    (h : ∀ e ∈ l, p (g e) = p e) : (l.map g).find? p = (l.find? p).map g := by
  induction l with
  | nil => rfl
  | cons a r ih =>
    have ha : p (g a) = p a := h a (List.mem_cons_self _ _)
    have hr := ih (fun e he => h e (List.mem_cons_of_mem _ he))
    simp only [List.map_cons, List.find?_cons, ha]
    cases p a with
    | true => rfl
    | false => exact hr

theorem queryUserByMMTok_put (w : World) (mmtok : String) (key : Key) (user user2 : mmUser)
    (hUser : queryUserByMMTok w mmtok = some (key, user)) (hTok : user2.MMTok = user.MMTok) :
    queryUserByMMTok { w with users := w.users.put key user2 } mmtok = some (key, user2) := by
  have hget := get_of_queryUserByMMTok hUser
  unfold queryUserByMMTok at hUser ⊢
  simp only []
  rw [Table.entries_put w.users key user user2 hget, List.find?_map_of_agree, hUser]
  · simp
  · intro e he
    by_cases hk : e.1 = key
    · have he2 := (Table.mem_entries _ _ _).mp he
      rw [hk, hget] at he2
      simp only [hk, if_true, hTok]
      rw [Option.some.inj he2]
    · simp [hk]

theorem queryUserByUserID_put (w : World) (userID : String) (key : Key) (user user2 : mmUser)
    (hUser : queryUserByUserID w userID = some (key, user)) (hID : user2.UserID = user.UserID) :
    queryUserByUserID { w with users := w.users.put key user2 } userID = some (key, user2) := by
  have hget := get_of_queryUserByUserID hUser
  unfold queryUserByUserID at hUser ⊢
  simp only []
  rw [Table.entries_put w.users key user user2 hget, List.find?_map_of_agree, hUser]
  · simp
  · intro e he
    by_cases hk : e.1 = key
    · have he2 := (Table.mem_entries _ _ _).mp he
      rw [hk, hget] at he2
      simp only [hk, if_true, hID]
      rw [Option.some.inj he2]
    · simp [hk]

theorem queryUserByUserID_insert (w : World) (userID : String) (user : mmUser)
    (hNone : queryUserByUserID w userID = none) (hID : user.UserID = userID) :
    queryUserByUserID { w with users := (w.users.insert user).2 } userID
      = some (w.users.length, user) := by
  unfold queryUserByUserID at hNone ⊢
  simp only []
  rw [Table.entries_insert, List.find?_append, hNone]
  simp [hID]

/-! ### Enqueue twice -/

theorem enqueueHandler_new (userID authToken region : String) (steam : SteamAuth)
    (now : Time) (uuid : String) (w : World)
    (hErr : steam.err = false) (hAuth : steam.authenticated = true)
    (hID : steam.steamID = userID) (hNone : queryUserByUserID w userID = none) :
    enqueueHandler "GET" userID authToken region steam now uuid noEnqueueFaults w
      = (httpWrite (.text uuid),
          { w with
            users := (w.users.insert
              { UserID := userID, MMTok := uuid, MMStatus := mmStatusInQueue,
                CreationTime := now, CheckTime := now, JoinTok := "", ServerAddr := "",
                ServerPort := 0 }).2
            tasks := w.tasks ++ [joinMatchTask uuid region] }) := by
  simp [enqueueHandler, enqueueAuth, authenticateWithSteam, hErr, hAuth, hID, hNone,
    noEnqueueFaults, enqueueNew]

theorem queryUserByUserID_congr (w w2 : World) (userID : String) (h : w2.users = w.users) :
    queryUserByUserID w2 userID = queryUserByUserID w userID := by
  unfold queryUserByUserID
  rw [h]

/-- C18: for every `UserID` with no Player in the store, two consecutive `enqueueHandler`
calls for it (authenticated GET requests, no I/O fault) at times `t1` and `t2` with
`t2 - t1` below one minute both answer with the same `MMTok`, the one minted by the first
call; the first call schedules one `joinMatch` task and the second schedules none and
leaves the world as the first call left it. -/
theorem enqueueHandler_twice (userID authToken authToken2 region region2 : String)
    (steam steam2 : SteamAuth) (t1 t2 : Time) (uuid uuid2 : String) (w : World)
    (hErr : steam.err = false) (hAuth : steam.authenticated = true)
    (hID : steam.steamID = userID)
    (hErr2 : steam2.err = false) (hAuth2 : steam2.authenticated = true)
    (hID2 : steam2.steamID = userID)
    (hNone : queryUserByUserID w userID = none) (hGrace : t2 - t1 < Minute) :
    (enqueueHandler "GET" userID authToken region steam t1 uuid noEnqueueFaults w).1
        = httpWrite (.text uuid)
      ∧ (enqueueHandler "GET" userID authToken2 region2 steam2 t2 uuid2 noEnqueueFaults
          (enqueueHandler "GET" userID authToken region steam t1 uuid noEnqueueFaults w).2).1
        = httpWrite (.text uuid)
      ∧ (enqueueHandler "GET" userID authToken region steam t1 uuid noEnqueueFaults w).2.tasks
        = w.tasks ++ [joinMatchTask uuid region]
      ∧ (enqueueHandler "GET" userID authToken2 region2 steam2 t2 uuid2 noEnqueueFaults
          (enqueueHandler "GET" userID authToken region steam t1 uuid noEnqueueFaults w).2).2
        = (enqueueHandler "GET" userID authToken region steam t1 uuid noEnqueueFaults w).2 := by
  have h1 := enqueueHandler_new userID authToken region steam t1 uuid w hErr hAuth hID hNone
  have hq := queryUserByUserID_insert w userID
    { UserID := userID, MMTok := uuid, MMStatus := mmStatusInQueue, CreationTime := t1,
      CheckTime := t1, JoinTok := "", ServerAddr := "", ServerPort := 0 } hNone rfl
  have hq2 : queryUserByUserID
      (enqueueHandler "GET" userID authToken region steam t1 uuid noEnqueueFaults w).2 userID
      = some (w.users.length,
          { UserID := userID, MMTok := uuid, MMStatus := mmStatusInQueue, CreationTime := t1,
            CheckTime := t1, JoinTok := "", ServerAddr := "", ServerPort := 0 }) := by
    rw [h1]
    exact (queryUserByUserID_congr _ _ userID rfl).trans hq
  have h2 : enqueueHandler "GET" userID authToken2 region2 steam2 t2 uuid2 noEnqueueFaults
      (enqueueHandler "GET" userID authToken region steam t1 uuid noEnqueueFaults w).2
      = (httpWrite (.text uuid),
          (enqueueHandler "GET" userID authToken region steam t1 uuid noEnqueueFaults w).2) := by
    rw [enqueueHandler_found userID authToken2 region2 steam2 t2 uuid2 _ _ _ hErr2 hAuth2 hID2
      hq2, enqueueFound_in_grace region2 t2 _ _ _ (get_of_queryUserByUserID hq2) rfl hGrace]
  exact ⟨by rw [h1], by rw [h2], by rw [h1], by rw [h2]⟩

theorem enqueueHandler_twice_witness :
    (enqueueHandler "GET" "U1" "ticket" "na" steamU1 (2 * Second) "T1" noEnqueueFaults
        wActive).1 = httpWrite (.text "T1")
      ∧ (enqueueHandler "GET" "U1" "ticket" "na" steamU1 (50 * Second) "T9" noEnqueueFaults
          (enqueueHandler "GET" "U1" "ticket" "na" steamU1 (2 * Second) "T1" noEnqueueFaults
            wActive).2).1 = httpWrite (.text "T1")
      ∧ (enqueueHandler "GET" "U1" "ticket" "na" steamU1 (2 * Second) "T1" noEnqueueFaults
          wActive).2.tasks = wActive.tasks ++ [joinMatchTask "T1" "na"]
      ∧ (enqueueHandler "GET" "U1" "ticket" "na" steamU1 (50 * Second) "T9" noEnqueueFaults
          (enqueueHandler "GET" "U1" "ticket" "na" steamU1 (2 * Second) "T1" noEnqueueFaults
            wActive).2).2
        = (enqueueHandler "GET" "U1" "ticket" "na" steamU1 (2 * Second) "T1" noEnqueueFaults
            wActive).2 :=
  enqueueHandler_twice "U1" "ticket" "ticket" "na" "na" steamU1 steamU1 (2 * Second)
    (50 * Second) "T1" "T9" wActive rfl rfl rfl rfl rfl rfl (by decide!) (by decide)

/-! ### Dequeue twice -/

theorem dequeueHandler_run (mmtok : String) (now : Time) (w : World) (key : Key)
    (user : mmUser) (hUser : queryUserByMMTok w mmtok = some (key, user)) :
    dequeueHandler "GET" mmtok now noClientFaults w
      = (httpWrite (.text mmtok),
          { w with
            users := w.users.put key
              { user with
                MMStatus := mmStatusMatchmakingCancelled
                CheckTime := now - 2 * Minute } }) := by
  have hT : now + (-(userRecordExpiryTime + 1)) * Minute = now - 2 * Minute := by
    simp only [userRecordExpiryTime]
    ring
  unfold dequeueHandler
  simp only [noClientFaults, bne_self_eq_false, Bool.false_eq_true, if_false, hUser, hT]

/-- C17 (as the code has it): for every Player found by `MMTok` and all times `t1`, `t2`,
`dequeueHandler` at `t1` and again at `t2` (GET requests, no I/O fault) both answer with the
`MMTok`; after each call the Player has `Status = Cancelled` and `CheckTime` two minutes
before that call; the second call overwrites the first, so the world after both calls is
the world a single call at `t2` gives, and it equals the world after the first call exactly
when `t2 = t1`. -/
theorem dequeueHandler_twice (mmtok : String) (t1 t2 : Time) (w : World) (key : Key)
    (user : mmUser) (hUser : queryUserByMMTok w mmtok = some (key, user)) :
    (dequeueHandler "GET" mmtok t1 noClientFaults w).1 = httpWrite (.text mmtok)
      ∧ (dequeueHandler "GET" mmtok t2 noClientFaults
          (dequeueHandler "GET" mmtok t1 noClientFaults w).2).1 = httpWrite (.text mmtok)
      ∧ (dequeueHandler "GET" mmtok t1 noClientFaults w).2.users.get key
          = some { user with
                   MMStatus := mmStatusMatchmakingCancelled
                   CheckTime := t1 - 2 * Minute }
      ∧ (dequeueHandler "GET" mmtok t2 noClientFaults
          (dequeueHandler "GET" mmtok t1 noClientFaults w).2).2.users.get key
          = some { user with
                   MMStatus := mmStatusMatchmakingCancelled
                   CheckTime := t2 - 2 * Minute }
      ∧ (dequeueHandler "GET" mmtok t2 noClientFaults
          (dequeueHandler "GET" mmtok t1 noClientFaults w).2).2
          = (dequeueHandler "GET" mmtok t2 noClientFaults w).2
      ∧ ((dequeueHandler "GET" mmtok t2 noClientFaults
          (dequeueHandler "GET" mmtok t1 noClientFaults w).2).2
          = (dequeueHandler "GET" mmtok t1 noClientFaults w).2 ↔ t2 = t1) := by
  have hget := get_of_queryUserByMMTok hUser
  have hk := Table.lt_length_of_get hget
  have h1 := dequeueHandler_run mmtok t1 w key user hUser
  have h2 := dequeueHandler_run mmtok t2 w key user hUser
  have hUser1 := queryUserByMMTok_put w mmtok key user
    { user with
      MMStatus := mmStatusMatchmakingCancelled
      CheckTime := t1 - 2 * Minute } hUser rfl
  have h12 := dequeueHandler_run mmtok t2 _ key _ hUser1
  have hsecond : (dequeueHandler "GET" mmtok t2 noClientFaults
      (dequeueHandler "GET" mmtok t1 noClientFaults w).2).2
      = (dequeueHandler "GET" mmtok t2 noClientFaults w).2 := by
    rw [h1, h12, h2]
    simp only []
    rw [Table.put_put _ _ _ _ hk]
  refine ⟨by rw [h1], by rw [h1, h12], ?_, ?_, hsecond, ?_⟩
  · rw [h1]
    exact Table.get_put_self _ _ _
  · rw [hsecond, h2]
    exact Table.get_put_self _ _ _
  · rw [hsecond]
    constructor
    · intro heq
      have hg : (dequeueHandler "GET" mmtok t2 noClientFaults w).2.users.get key
          = (dequeueHandler "GET" mmtok t1 noClientFaults w).2.users.get key := by rw [heq]
      rw [h1, h2] at hg
      simp only [Table.get_put_self, Option.some.injEq, mmUser.mk.injEq, true_and, and_true]
        at hg
      linarith
    · intro heq
      rw [heq]

theorem dequeueHandler_twice_witness :
    (dequeueHandler "GET" "T1" (20 * Second) noClientFaults
        (dequeueHandler "GET" "T1" (10 * Second) noClientFaults wQueued).2).2.users.get 0
      = some { queuedU1 with
               MMStatus := mmStatusMatchmakingCancelled
               CheckTime := 20 * Second - 2 * Minute } :=
  (dequeueHandler_twice "T1" (10 * Second) (20 * Second) wQueued 0 queuedU1 (by decide!)).2.2.2.1

/-- C17 fails as stated: player `U1` is dequeued at 10 s and again at 20 s; `CheckTime` is
`-110 s` after the first call and `-100 s` after the second, so the second call changed
the store. -/
theorem dequeueHandler_twice_moves_checkTime :
    queryUserByMMTok wQueued "T1" = some (0, queuedU1)
      ∧ (dequeueHandler "GET" "T1" (10 * Second) noClientFaults wQueued).2.users.get 0
          = some { queuedU1 with
                   MMStatus := mmStatusMatchmakingCancelled
                   CheckTime := -110 * Second }
      ∧ (dequeueHandler "GET" "T1" (20 * Second) noClientFaults
          (dequeueHandler "GET" "T1" (10 * Second) noClientFaults wQueued).2).2.users.get 0
          = some { queuedU1 with
                   MMStatus := mmStatusMatchmakingCancelled
                   CheckTime := -100 * Second }
      ∧ (dequeueHandler "GET" "T1" (20 * Second) noClientFaults
          (dequeueHandler "GET" "T1" (10 * Second) noClientFaults wQueued).2).2
          ≠ (dequeueHandler "GET" "T1" (10 * Second) noClientFaults wQueued).2 := by
  decide!

/-! ### Dequeue and the expiry pass -/

/-- C16 (the code at the failing input): player `U1` is dequeued at 10 s. Its record gets
`Status = Cancelled` and `CheckTime = 10 s - 2 min`, which is not older than one hour: the
expiry pass run one second later (and the one run 58 minutes later) keeps the record; only
a pass later than 58 minutes after the dequeue removes it. The whole `/stats` handler run
at 11 s keeps the record as well. -/
theorem dequeueHandler_not_expired :
    queryUserByMMTok wQueued "T1" = some (0, queuedU1)
      ∧ (dequeueHandler "GET" "T1" (10 * Second) noClientFaults wQueued).1
          = httpWrite (.text "T1")
      ∧ (dequeueHandler "GET" "T1" (10 * Second) noClientFaults wQueued).2.users.get 0
          = some { queuedU1 with
                   MMStatus := mmStatusMatchmakingCancelled
                   CheckTime := 10 * Second - 2 * Minute }
      ∧ (expireUsers (11 * Second) noStatsFaults
          (dequeueHandler "GET" "T1" (10 * Second) noClientFaults wQueued).2).1.users.get 0
          = some { queuedU1 with
                   MMStatus := mmStatusMatchmakingCancelled
                   CheckTime := 10 * Second - 2 * Minute }
      ∧ (expireUsers (10 * Second + 58 * Minute) noStatsFaults
          (dequeueHandler "GET" "T1" (10 * Second) noClientFaults wQueued).2).1.users.get 0
          = some { queuedU1 with
                   MMStatus := mmStatusMatchmakingCancelled
                   CheckTime := 10 * Second - 2 * Minute }
      ∧ (expireUsers (10 * Second + 58 * Minute + Nanosecond) noStatsFaults
          (dequeueHandler "GET" "T1" (10 * Second) noClientFaults wQueued).2).1.users.get 0
          = none
      ∧ (statsHandler (11 * Second) noStatsFaults
          (dequeueHandler "GET" "T1" (10 * Second) noClientFaults wQueued).2).map
            (fun r => r.2.users.get 0)
          = some (some { queuedU1 with
                         MMStatus := mmStatusMatchmakingCancelled
                         CheckTime := 10 * Second - 2 * Minute }) := by
  decide!

/-! ### Allocation attempts -/

/-- C14 (the code at the failing input): an `/alloc` task of region `na` delivered with
`attempts = 5 > 4`, two allocations being in flight, decrements the counter to 1 and
answers 200, but it also calls the allocate API of the provider for the fresh server id
and, the provider accepting, schedules the `/allocation` check of that server. -/
theorem allocateServerHandler_exceeded_proceeds :
    (allocateServerHandler "na" (some 5) "S9" false providerAccepts noAllocFaults
        wTwoInFlight).1.code = 200
      ∧ (allocateServerHandler "na" (some 5) "S9" false providerAccepts noAllocFaults
        wTwoInFlight).2.activeAllocations.lookup "na" = some 1
      ∧ (allocateServerHandler "na" (some 5) "S9" false providerAccepts noAllocFaults
        wTwoInFlight).2.provider = [ProviderCall.allocate "S9" "na"]
      ∧ (allocateServerHandler "na" (some 5) "S9" false providerAccepts noAllocFaults
        wTwoInFlight).2.tasks = [allocationTask "S9" "na"] := by
  decide!

/-- C15 (the code at the failing input): an `/allocation` check of `S2` delivered with
`attempts = 4` whose provider response has an empty IP schedules `/dealloc S2`, decrements
the counter of `na` from 2 to 1 and writes no Server record, but answers 500; the task is
therefore delivered again, and the delivery with `attempts = 5` schedules a second
`/dealloc S2` and decrements the counter again, to 0. -/
theorem allocationsServerHandler_giveup_500 :
    (allocationsServerHandler "S2" "na" (some 4) (60 * Second) false notReady noAllocFaults
        wTwoInFlight)
      = some (httpError "Internal error." 500,
          { wTwoInFlight with
            activeAllocations := [("na", 1)]
            tasks := [deallocTask "S2"]
            provider := [ProviderCall.allocations "S2"] })
      ∧ (allocationsServerHandler "S2" "na" (some 5) (80 * Second) false notReady noAllocFaults
          { wTwoInFlight with
            activeAllocations := [("na", 1)]
            tasks := [deallocTask "S2"]
            provider := [ProviderCall.allocations "S2"] })
        = some (httpError "Internal error." 500,
            { wTwoInFlight with
              activeAllocations := [("na", 0)]
              tasks := [deallocTask "S2", deallocTask "S2"]
              provider := [ProviderCall.allocations "S2", ProviderCall.allocations "S2"] }) := by
  decide!

/-! ### The cap on the servers of a region -/

theorem reachable_step {w w2 : World} (h : Reachable w) (hs : Step w w2) : Reachable w2 :=
  Relation.ReflTransGen.tail h hs

theorem runManage_reachable (now : Time) {w : World} (h : Reachable w) :
    Reachable (runManage now w) :=
  reachable_step h (Step.manage now noManageFaults noManageFaults w)

theorem runAlloc_reachable (serverID : String) {w : World} (h : Reachable w) :
    Reachable (runAlloc serverID w) :=
  reachable_step h (Step.alloc "na" (some 0) serverID false providerAccepts noAllocFaults w)

theorem runAllocation_reachable (serverID : String) (now : Time) {w : World}
    (h : Reachable w) : Reachable (runAllocation serverID now w) := by
  unfold runAllocation
  split
  · rename_i r heq
    exact reachable_step h
      (Step.allocation serverID "na" (some 0) now false readyMachine noAllocFaults w r heq)
  · exact h

theorem heartbeatAll_reachable (now : Time) (ids : List String) {w : World}
    (h : Reachable w) : Reachable (heartbeatAll now ids w) := by
  unfold heartbeatAll
  induction ids generalizing w with
  | nil => exact h
  | cons id r ih =>
    rw [List.foldl_cons]
    exact ih (reachable_step h
      (Step.heartbeat "GET" id (some 1) (some 64) (some 64) now noHeartbeatFaults w))

theorem growMinute_reachable (i : Nat) {w : World} (h : Reachable w) :
    Reachable (growMinute w i) := by
  unfold growMinute
  exact heartbeatAll_reachable _ _
    (runAllocation_reachable _ _ (runAlloc_reachable _ (runManage_reachable _ h)))

theorem wNineFull_reachable : Reachable wNineFull := by
  have key : ∀ (l : List Nat) (w : World), Reachable w → Reachable (l.foldl growMinute w) := by
    intro l
    induction l with
    | nil => exact fun w h => h
    | cons i r ih => exact fun w h => ih _ (growMinute_reachable i h)
  exact key _ _ Relation.ReflTransGen.refl

theorem wThreeInFlight_reachable : Reachable wThreeInFlight :=
  heartbeatAll_reachable _ _ (runAlloc_reachable _ (runManage_reachable _
    (heartbeatAll_reachable _ _ (runAlloc_reachable _ (runManage_reachable _
      (heartbeatAll_reachable _ _ (runAlloc_reachable _ (runManage_reachable _
        wNineFull_reachable))))))))

theorem wOverCap_reachable : Reachable wOverCap :=
  runAllocation_reachable _ _ (runAllocation_reachable _ _ (runAllocation_reachable _ _
    wThreeInFlight_reachable))

/-- C12 (the code on a failing run): starting from the empty store, the fleet of `na`
grows, by the service's own `/manage` decisions, to nine Active servers that are all full
and kept alive by heartbeats. Three further `/manage` passes, run while the allocations
they start are still in flight, each schedule one more `/alloc` task (the full ratios are
9/9, 9/10 and 9/11, and the cap test only counts the 9 registered servers). When these
three allocations register, region `na` has 12 servers in state Initializing or Active,
more than `maxServersPerRegion = 10`. Every `/alloc` task of `na` that ran had been
scheduled by `/manage`: twelve of them, for twelve registered servers. -/
theorem managed_fleet_exceeds_cap :
    Reachable wOverCap
      ∧ (liveServers wNineFull "na").length = 9
      ∧ wNineFull.activeAllocations.lookup "na" = some 0
      ∧ (liveServers wThreeInFlight "na").length = 9
      ∧ wThreeInFlight.activeAllocations.lookup "na" = some 3
      ∧ wOverCap.tasks.count (allocTask "na") = 12
      ∧ (liveServers wOverCap "na").length = 12
      ∧ maxServersPerRegion < (liveServers wOverCap "na").length :=
  ⟨wOverCap_reachable, by decide!, by decide!, by decide!, by decide!, by decide!, by decide!,
    by decide!⟩

/-! ### The allocation decision of a `/manage` pass -/

theorem serverReport_expired_eq (now : Time) (s : gameServer) :
    (serverReport now s).Expired = expiredAt now s := by
  unfold serverReport expiredAt
  simp only []
  congr 1
  · congr 1
    rw [decide_eq_decide]
    exact seconds_gt_iff now s.CheckTime
  · rw [decide_eq_decide]
    exact minutes_age_iff now s.CheckTime

theorem reportLoop_noFaults (entries : List (Key × gameServer))
    (reports : List gameServerReport) (st : ReportLoop) (i : Nat)
    (hst : st.returned = false) :
    reportLoop noManageFaults entries st i reports
      = { fullServerCount := st.fullServerCount + (reports.filter (fun r => !r.Expired
            && (r.State == serverStateInitializing || r.State == serverStateActive)
            && r.Full)).length,
          activeServerCount := st.activeServerCount + (reports.filter (fun r => !r.Expired
            && (r.State == serverStateInitializing || r.State == serverStateActive))).length,
          expiredServerKeys := st.expiredServerKeys ++ expiredKeys entries reports,
          tasks := st.tasks ++ (reports.filter (fun r => r.Expired)).map
            (fun r => deallocTask r.UUID),
          returned := false } := by
  induction reports generalizing st i with
  | nil =>
    cases st
    simp only [] at hst
    subst hst
    simp [reportLoop, expiredKeys]
  | cons r rs ih =>
    rw [reportLoop]
    by_cases hE : r.Expired = true
    · have hstep : reportLoopStep noManageFaults entries st i r
          = { st with
              expiredServerKeys := st.expiredServerKeys ++ (keysLookup entries r.UUID).toList
              tasks := st.tasks ++ [deallocTask r.UUID] } := by
        unfold reportLoopStep
        simp [hst, hE, noManageFaults]
      rw [hstep, ih]
      · simp [hE, expiredKeys, List.filter_cons]
      · exact hst
    · have hE2 : r.Expired = false := by simpa using hE
      by_cases hA : (r.State == serverStateInitializing || r.State == serverStateActive) = true
      · by_cases hF : r.Full = true
        · have hstep : reportLoopStep noManageFaults entries st i r
              = { st with
                  fullServerCount := st.fullServerCount + 1
                  activeServerCount := st.activeServerCount + 1 } := by
            unfold reportLoopStep
            simp only [hst, hE2, hA, hF, Bool.false_eq_true, if_false, if_true]
          rw [hstep, ih]
          · simp only [List.filter_cons, hE2, hA, hF, Bool.not_false, Bool.and_self,
              if_true, List.length_cons, expiredKeys, Bool.false_eq_true, if_false]
            congr 1 <;> omega
          · exact hst
        · have hF2 : r.Full = false := by simpa using hF
          have hstep : reportLoopStep noManageFaults entries st i r
              = { st with activeServerCount := st.activeServerCount + 1 } := by
            unfold reportLoopStep
            simp only [hst, hE2, hA, hF2, Bool.false_eq_true, if_false, if_true]
          rw [hstep, ih]
          · simp only [List.filter_cons, hE2, hA, hF2, Bool.not_false, Bool.and_self,
              Bool.and_false, if_true, List.length_cons, expiredKeys, Bool.false_eq_true,
              if_false]
            congr 1
            omega
          · exact hst
      · have hA2 : (r.State == serverStateInitializing || r.State == serverStateActive)
            = false := by simpa using hA
        have hstep : reportLoopStep noManageFaults entries st i r = st := by
          unfold reportLoopStep
          simp only [hst, hE2, hA2, Bool.false_eq_true, if_false]
        rw [hstep, ih]
        · simp only [List.filter_cons, hE2, hA2, Bool.not_false, Bool.and_false,
            Bool.false_and, expiredKeys, Bool.false_eq_true, if_false]
        · exact hst

theorem reports_active_length (now : Time) (l : List (Key × gameServer)) :
    ((l.map (fun e => serverReport now e.2)).filter (fun r => !r.Expired
        && (r.State == serverStateInitializing || r.State == serverStateActive))).length
      = (l.filter (fun e => countsActive now e.2)).length := by
  induction l with
  | nil => rfl
  | cons e r ih =>
    have hp : (!(serverReport now e.2).Expired && ((serverReport now e.2).State
        == serverStateInitializing || (serverReport now e.2).State == serverStateActive))
        = countsActive now e.2 := by
      rw [serverReport_expired_eq]
      rfl
    simp only [List.map_cons, List.filter_cons, hp]
    split <;> simp [ih]

theorem reports_full_length (now : Time) (l : List (Key × gameServer)) :
    ((l.map (fun e => serverReport now e.2)).filter (fun r => !r.Expired
        && (r.State == serverStateInitializing || r.State == serverStateActive)
        && r.Full)).length
      = (l.filter (fun e => countsActive now e.2 && decide (e.2.Fill ≥ 8 / 10))).length := by
  induction l with
  | nil => rfl
  | cons e r ih =>
    have hp : (!(serverReport now e.2).Expired && ((serverReport now e.2).State
        == serverStateInitializing || (serverReport now e.2).State == serverStateActive)
        && (serverReport now e.2).Full)
        = (countsActive now e.2 && decide (e.2.Fill ≥ 8 / 10)) := by
      rw [serverReport_expired_eq]
      rfl
    simp only [List.map_cons, List.filter_cons, hp]
    split <;> simp [ih]

theorem manageRegionServers_noFaults (region : String) (now : Time) (w : World) :
    manageRegionServers region now noManageFaults w
      = manageAllocate region noManageFaults (afterExpiry region now w)
          (fullServers now region w) (activeServers now region w) := by
  unfold manageRegionServers
  simp only [noManageFaults, Bool.false_eq_true, if_false]
  rw [← noManageFaults, reportLoop_noFaults _ _ _ _ rfl]
  simp only [Bool.false_eq_true, if_false, Nat.zero_add, List.nil_append]
  rw [reports_active_length, reports_full_length]
  rfl

theorem lookup_cacheSet {β : Type} (c : List (String × β)) (k : String) (v : β) :
    (cacheSet c k v).lookup k = some v := by
  unfold cacheSet
  rw [List.lookup_cons]
  simp

theorem cacheIncrement_one (c : List (String × Nat)) (k : String) (a : Nat)
    (ha : (c.lookup k).getD 0 = a) (hr : a ≤ 9223372036854775807) :
    cacheIncrement c k 1 0 = cacheSet c k (a + 1) := by
  unfold cacheIncrement
  simp only [ha]
  have h1 : Int.toNat ((a : Int) + 1) = a + 1 := by omega
  rw [h1, Nat.mod_eq_of_lt (by omega)]

theorem fullServersRatio_eq (full active a : Nat) :
    fullServersRatio full active a = fullRatio full active a := by
  unfold fullServersRatio fullRatio
  split
  · rfl
  · push_cast
    rfl

theorem manageAllocate_noFaults (region : String) (w : World) (full active a : Nat)
    (ha : (w.activeAllocations.lookup region).getD 0 = a) (hr : a ≤ 9223372036854775807) :
    manageAllocate region noManageFaults w full active
      = if active = 0 ∨ fullRatio full active a > 75 / 100 then
          if active ≥ 10 then (w, [])
          else
            ({ w with
               tasks := w.tasks ++ [allocTask region]
               activeAllocations := cacheSet w.activeAllocations region (a + 1) }, [1])
        else (w, [1]) := by
  have hparse : ∀ n, (w.activeAllocations.lookup region) = some n →
      atoiCounter n = (a, false) := by
    intro n hn
    rw [hn] at ha
    simp only [Option.getD_some] at ha
    subst ha
    unfold atoiCounter
    rw [if_neg (by omega)]
  unfold manageAllocate
  simp only [noManageFaults, Bool.false_eq_true, if_false, fullServersRatio_eq,
    allocateNewServerThreshold, maxServersPerRegion]
  cases hl : w.activeAllocations.lookup region with
  | none =>
    rw [hl] at ha
    simp only [Option.getD_none] at ha
    subst ha
    have hinc := cacheIncrement_one w.activeAllocations region 0 (by rw [hl]; rfl) (by omega)
    simp only [Option.map_none', Bool.false_eq_true, if_false, hinc]
  | some n =>
    have hinc := cacheIncrement_one w.activeAllocations region a ha hr
    simp only [Option.map_some', hparse n hl, Bool.false_eq_true, if_false, hinc]

theorem manageRegionServers_world (region : String) (now : Time) (w : World) (a : Nat)
    (ha : (w.activeAllocations.lookup region).getD 0 = a) (hr : a ≤ 9223372036854775807) :
    (manageRegionServers region now noManageFaults w).1
      = if ShouldAllocate now region w a then
          { afterExpiry region now w with
            tasks := (afterExpiry region now w).tasks ++ [allocTask region]
            activeAllocations := cacheSet w.activeAllocations region (a + 1) }
        else afterExpiry region now w := by
  rw [manageRegionServers_noFaults, manageAllocate_noFaults region (afterExpiry region now w)
    _ _ a ha hr]
  unfold ShouldAllocate
  by_cases h1 : activeServers now region w = 0
      ∨ fullRatio (fullServers now region w) (activeServers now region w) a > 75 / 100
  · by_cases h2 : activeServers now region w < 10
    · rw [if_pos h1, if_neg (by omega), if_pos ⟨h1, h2⟩]
      rfl
    · rw [if_pos h1, if_pos (by omega), if_neg (fun h => h2 h.2)]
  · rw [if_neg h1, if_neg (fun h => h1 h.1)]

theorem count_allocTask_dealloc (region : String) (l : List gameServerReport) :
    (l.map (fun r => deallocTask r.UUID)).count (allocTask region) = 0 := by
  rw [List.count_eq_zero]
  intro hmem
  obtain ⟨r, _, hr⟩ := List.mem_map.mp hmem
  have hq := congrArg Task.queue hr
  simp [deallocTask, allocTask] at hq

theorem count_allocTask_afterExpiry (region : String) (now : Time) (w : World) :
    (afterExpiry region now w).tasks.count (allocTask region)
      = w.tasks.count (allocTask region) := by
  unfold afterExpiry
  simp only [List.count_append, count_allocTask_dealloc, Nat.add_zero]

/-- C11: for every store and every cached counter value `a` of the region (0 when the
entry is absent; within the range of a Go `int`), with `activeServers` the number of
non-expired servers of the region in state Initializing or Active and `fullServers` those
among them with `Fill ≥ 0.8`, a `manageRegionServers` pass without I/O fault adds exactly
one `/alloc` task of the region and sets the counter to `a + 1` if and only if
(`activeServers = 0` or `fullServers / (activeServers + a) > 0.75`, 0/0 being 0) and
`activeServers < 10`; otherwise it adds no `/alloc` task and leaves the cached counters
unchanged. -/
theorem manageRegionServers_allocates_iff (region : String) (now : Time) (w : World)
    (a : Nat) (ha : (w.activeAllocations.lookup region).getD 0 = a)
    (hr : a ≤ 9223372036854775807) :
    (((manageRegionServers region now noManageFaults w).1.tasks.count (allocTask region)
          = w.tasks.count (allocTask region) + 1
        ∧ (manageRegionServers region now noManageFaults w).1.activeAllocations.lookup region
          = some (a + 1))
      ↔ ((activeServers now region w = 0
            ∨ fullRatio (fullServers now region w) (activeServers now region w) a > 75 / 100)
          ∧ activeServers now region w < 10))
    ∧ (¬ ((activeServers now region w = 0
            ∨ fullRatio (fullServers now region w) (activeServers now region w) a > 75 / 100)
          ∧ activeServers now region w < 10) →
        (manageRegionServers region now noManageFaults w).1.tasks.count (allocTask region)
            = w.tasks.count (allocTask region)
          ∧ (manageRegionServers region now noManageFaults w).1.activeAllocations
            = w.activeAllocations) := by
  have hw := manageRegionServers_world region now w a ha hr
  have hc := count_allocTask_afterExpiry region now w
  by_cases h : ShouldAllocate now region w a
  · rw [if_pos h] at hw
    rw [hw]
    have h2 := h
    unfold ShouldAllocate at h2
    refine ⟨⟨fun _ => h2, fun _ => ⟨?_, lookup_cacheSet _ _ _⟩⟩, fun hn => absurd h2 hn⟩
    simp only [List.count_append, hc, List.count_singleton_self]
  · rw [if_neg h] at hw
    rw [hw]
    have h2 := h
    unfold ShouldAllocate at h2
    refine ⟨⟨fun hcount => ?_, fun hs => absurd hs h2⟩, fun _ => ⟨hc, rfl⟩⟩
    rw [hc] at hcount
    omega

theorem manageRegionServers_allocates_iff_witness :
    (manageRegionServers "na" (10 * Second) noManageFaults wFourFull).1.tasks.count
          (allocTask "na") = wFourFull.tasks.count (allocTask "na") + 1
      ∧ (manageRegionServers "na" (10 * Second) noManageFaults
          wFourFull).1.activeAllocations.lookup "na" = some (0 + 1) :=
  (manageRegionServers_allocates_iff "na" (10 * Second) wFourFull 0 (by decide!)
    (by decide)).1.mpr (by decide!)

/-! ### Fleet expansion with allocations in flight -/

theorem counts_of_fourFull {now : Time} {w : World} (h : FourFullServers now w) :
    activeServers now "na" w = 4 ∧ fullServers now "na" w = 4 := by
  obtain ⟨hlen, hall⟩ := h
  have hact : ∀ e ∈ regionServers w "na", countsActive now e.2 = true := by
    intro e he
    obtain ⟨hs, _, hx⟩ := hall e he
    simp [countsActive, hx, hs]
  have hfull : ∀ e ∈ regionServers w "na",
      (countsActive now e.2 && decide (e.2.Fill ≥ 8 / 10)) = true := by
    intro e he
    obtain ⟨_, hf, _⟩ := hall e he
    rw [hact e he, hf]
    norm_num
  unfold activeServers fullServers
  rw [List.filter_eq_self.mpr hact, List.filter_eq_self.mpr hfull]
  exact ⟨hlen, hlen⟩

theorem expiredKeys_of_none (now : Time) (entries l : List (Key × gameServer))
    (h : ∀ e ∈ l, expiredAt now e.2 = false) :
    expiredKeys entries (l.map (fun e => serverReport now e.2)) = [] := by
  induction l with
  | nil => rfl
  | cons e r ih =>
    have he : (serverReport now e.2).Expired = false := by
      rw [serverReport_expired_eq]
      exact h e (List.mem_cons_self _ _)
    simp only [List.map_cons, expiredKeys, he, Bool.false_eq_true, if_false]
    exact ih (fun x hx => h x (List.mem_cons_of_mem _ hx))

theorem manageRegionServers_servers (region : String) (now : Time) (w : World) (a : Nat)
    (ha : (w.activeAllocations.lookup region).getD 0 = a) (hr : a ≤ 9223372036854775807)
    (h : ∀ e ∈ regionServers w region, expiredAt now e.2 = false) :
    (manageRegionServers region now noManageFaults w).1.servers = w.servers := by
  have hs : (afterExpiry region now w).servers = w.servers := by
    unfold afterExpiry
    simp only []
    rw [expiredKeys_of_none now _ _ h]
    rfl
  rw [manageRegionServers_world region now w a ha hr]
  split
  · exact hs
  · exact hs

theorem fourFull_congr {now : Time} {w w2 : World} (hs : w2.servers = w.servers)
    (h : FourFullServers now w) : FourFullServers now w2 := by
  unfold FourFullServers regionServers at h ⊢
  rw [hs]
  exact h

theorem manageRegionServers_fourFull (now : Time) (w : World) (a : Nat)
    (ha : (w.activeAllocations.lookup "na").getD 0 = a) (hr : a ≤ 9223372036854775807)
    (h : FourFullServers now w) :
    (manageRegionServers "na" now noManageFaults w).1.servers = w.servers
      ∧ (manageRegionServers "na" now noManageFaults w).1.tasks.count (allocTask "na")
          = w.tasks.count (allocTask "na") + (if fullRatio 4 4 a > 75 / 100 then 1 else 0)
      ∧ (manageRegionServers "na" now noManageFaults w).1.activeAllocations.lookup "na"
          = if fullRatio 4 4 a > 75 / 100 then some (a + 1)
            else w.activeAllocations.lookup "na" := by
  obtain ⟨hact, hfull⟩ := counts_of_fourFull h
  have hsrv := manageRegionServers_servers "na" now w a ha hr (fun e he => (h.2 e he).2.2)
  have hw := manageRegionServers_world "na" now w a ha hr
  have hc := count_allocTask_afterExpiry "na" now w
  have hcond : ShouldAllocate now "na" w a ↔ fullRatio 4 4 a > 75 / 100 := by
    unfold ShouldAllocate
    rw [hact, hfull]
    constructor
    · rintro ⟨h1 | h1, _⟩
      · exact absurd h1 (by decide)
      · exact h1
    · intro h1
      exact ⟨Or.inr h1, by decide⟩
  refine ⟨hsrv, ?_, ?_⟩
  · rw [hw]
    by_cases hs : ShouldAllocate now "na" w a
    · rw [if_pos hs, if_pos (hcond.mp hs)]
      simp only [List.count_append, hc, List.count_singleton_self]
    · rw [if_neg hs, if_neg (fun h1 => hs (hcond.mpr h1)), hc]
      rfl
  · rw [hw]
    by_cases hs : ShouldAllocate now "na" w a
    · rw [if_pos hs, if_pos (hcond.mp hs)]
      exact lookup_cacheSet _ _ _
    · rw [if_neg hs, if_neg (fun h1 => hs (hcond.mpr h1))]
      rfl

/-- C13 (as the code has it): region `na` has four non-expired Active servers with
`Fill = 0.9`, and they stay so at the three pass times; the counter of `na` is 0. The first
pass computes the full ratio 4/(4+0) = 1, schedules one `/alloc` and sets the counter to 1.
The second pass, run before any allocation registers, computes 4/(4+1) = 0.8, schedules a
second `/alloc` and sets the counter to 2. The third computes 4/(4+2) = 2/3, which is not
above 0.75: it schedules nothing and leaves the counter at 2. The allocations in flight,
not the 10-server cap (4 < 10), stop the expansion. -/
theorem manageRegionServers_expansion (t1 t2 t3 : Time) (w w1 w2 w3 : World)
    (hCounter : w.activeAllocations.lookup "na" = some 0)
    (h1 : FourFullServers t1 w) (h2 : FourFullServers t2 w) (h3 : FourFullServers t3 w)
    (hw1 : w1 = (manageRegionServers "na" t1 noManageFaults w).1)
    (hw2 : w2 = (manageRegionServers "na" t2 noManageFaults w1).1)
    (hw3 : w3 = (manageRegionServers "na" t3 noManageFaults w2).1) :
    fullRatio (fullServers t1 "na" w) (activeServers t1 "na" w) 0 = 1
      ∧ w1.tasks.count (allocTask "na") = w.tasks.count (allocTask "na") + 1
      ∧ w1.activeAllocations.lookup "na" = some 1
      ∧ fullRatio (fullServers t2 "na" w1) (activeServers t2 "na" w1) 1 = 4 / 5
      ∧ w2.tasks.count (allocTask "na") = w.tasks.count (allocTask "na") + 2
      ∧ w2.activeAllocations.lookup "na" = some 2
      ∧ fullRatio (fullServers t3 "na" w2) (activeServers t3 "na" w2) 2 = 2 / 3
      ∧ activeServers t3 "na" w2 < 10
      ∧ w3.tasks.count (allocTask "na") = w.tasks.count (allocTask "na") + 2
      ∧ w3.activeAllocations.lookup "na" = some 2 := by
  have r0 : fullRatio 4 4 0 = 1 := by norm_num [fullRatio]
  have r1 : fullRatio 4 4 1 = 4 / 5 := by norm_num [fullRatio]
  have r2 : fullRatio 4 4 2 = 2 / 3 := by norm_num [fullRatio]
  have c0 : fullRatio 4 4 0 > 75 / 100 := by rw [r0]; norm_num
  have c1 : fullRatio 4 4 1 > 75 / 100 := by rw [r1]; norm_num
  have c2 : ¬ fullRatio 4 4 2 > 75 / 100 := by rw [r2]; norm_num
  obtain ⟨s1, k1, a1⟩ := manageRegionServers_fourFull t1 w 0 (by rw [hCounter]; rfl)
    (by omega) h1
  rw [← hw1, if_pos c0] at k1 a1
  rw [← hw1] at s1
  have h2' : FourFullServers t2 w1 := fourFull_congr s1 h2
  obtain ⟨s2, k2, a2⟩ := manageRegionServers_fourFull t2 w1 1 (by rw [a1]; rfl)
    (by omega) h2'
  rw [← hw2, if_pos c1] at k2 a2
  rw [← hw2] at s2
  have h3' : FourFullServers t3 w2 := fourFull_congr (s2.trans s1) h3
  obtain ⟨_, k3, a3⟩ := manageRegionServers_fourFull t3 w2 2 (by rw [a2]; rfl)
    (by omega) h3'
  rw [← hw3, if_neg c2] at k3 a3
  obtain ⟨hact1, hfull1⟩ := counts_of_fourFull h1
  obtain ⟨hact2, hfull2⟩ := counts_of_fourFull h2'
  obtain ⟨hact3, hfull3⟩ := counts_of_fourFull h3'
  rw [hact1, hfull1, hact2, hfull2, hact3, hfull3]
  refine ⟨r0, k1, a1, r1, ?_, a2, r2, by decide, ?_, ?_⟩
  · rw [k2, k1]
  · rw [k3, k2, k1]
  · rw [a3, a2]

theorem manageRegionServers_expansion_witness :
    fullRatio (fullServers (10 * Second) "na" wFourFull)
        (activeServers (10 * Second) "na" wFourFull) 0 = 1
      ∧ wPass1.tasks.count (allocTask "na") = wFourFull.tasks.count (allocTask "na") + 1
      ∧ wPass1.activeAllocations.lookup "na" = some 1
      ∧ fullRatio (fullServers (20 * Second) "na" wPass1)
          (activeServers (20 * Second) "na" wPass1) 1 = 4 / 5
      ∧ wPass2.tasks.count (allocTask "na") = wFourFull.tasks.count (allocTask "na") + 2
      ∧ wPass2.activeAllocations.lookup "na" = some 2
      ∧ fullRatio (fullServers (30 * Second) "na" wPass2)
          (activeServers (30 * Second) "na" wPass2) 2 = 2 / 3
      ∧ activeServers (30 * Second) "na" wPass2 < 10
      ∧ wPass3.tasks.count (allocTask "na") = wFourFull.tasks.count (allocTask "na") + 2
      ∧ wPass3.activeAllocations.lookup "na" = some 2 :=
  manageRegionServers_expansion (10 * Second) (20 * Second) (30 * Second) wFourFull wPass1
    wPass2 wPass3 (by decide!) (by decide!) (by decide!) (by decide!) rfl rfl rfl

/-- C13 fails as stated: from four non-expired Active servers of `na` with `Fill = 0.9`
and the counter at 0, the second pass computes the full ratio 4/5, not 1, and the third
pass, run before any allocation registers, computes 2/3 and schedules no `/alloc` (two
tasks were scheduled, the counter stays at 2), although only 4 servers are active, far
from the cap of 10. -/
theorem manageRegionServers_third_pass_idle :
    FourFullServers (10 * Second) wFourFull
      ∧ FourFullServers (20 * Second) wPass1
      ∧ FourFullServers (30 * Second) wPass2
      ∧ wFourFull.activeAllocations.lookup "na" = some 0
      ∧ wFourFull.tasks.count (allocTask "na") = 0
      ∧ fullServersRatio (fullServers (20 * Second) "na" wPass1)
          (activeServers (20 * Second) "na" wPass1) 1 = 4 / 5
      ∧ fullServersRatio (fullServers (20 * Second) "na" wPass1)
          (activeServers (20 * Second) "na" wPass1) 1 ≠ 1
      ∧ wPass2.tasks.count (allocTask "na") = 2
      ∧ wPass3.tasks.count (allocTask "na") = 2
      ∧ wPass3.activeAllocations.lookup "na" = some 2
      ∧ activeServers (30 * Second) "na" wPass2 = 4
      ∧ 4 < maxServersPerRegion := by
  decide!

/-! ### The batches of `removeFromDatastore` -/

theorem Table.deleteMulti_append {α : Type} (t : Table α) (a b : List Key) :
    (t.deleteMulti a).deleteMulti b = t.deleteMulti (a ++ b) := by
  unfold Table.deleteMulti
  rw [List.foldl_append]

/-- One iteration of the loop of `removeFromDatastore` with keys left: the batch is the next
`min remainingKeys 500` keys, and the loop goes on after it unless the call fails. -/
theorem removeLoop_step {α : Type} (keys : List Key) (failAt : Option Nat)
    (rem idx : Nat) (r : RemoveResult α) (hpos : 0 < rem) (hlen : idx + rem = keys.length) :
    removeLoop keys failAt rem idx r
      = if failAt = some r.batches.length then
          { r with batches := r.batches ++ [(keys.drop idx).take (min rem 500)], err := true }
        else
          removeLoop keys failAt (rem - min rem 500) (idx + min rem 500)
            { r with table := r.table.deleteMulti ((keys.drop idx).take (min rem 500)),
                     batches := r.batches ++ [(keys.drop idx).take (min rem 500)] } := by
  rw [removeLoop]
  simp only [gt_iff_lt, hpos, dite_true, maxDatastoreRecordsToDelete]
  by_cases hbig : 500 < rem
  · have hmin : min rem 500 = 500 := by omega
    have hs : slice keys idx (idx + 500) = some ((keys.drop idx).take 500) := by
      unfold slice
      rw [if_pos ⟨by omega, by omega⟩]
      simp
    simp only [hbig, if_true, hmin, hs]
  · have hmin : min rem 500 = rem := by omega
    have hs : slice keys idx (idx + rem) = some ((keys.drop idx).take rem) := by
      unfold slice
      rw [if_pos ⟨by omega, by omega⟩]
      simp
    simp only [hbig, if_false, hmin, hs, Nat.sub_self]

/-- The loop of `removeFromDatastore` from index `idx` on: the batches it would issue
without a failure, and its result with and without a failing call. -/
theorem removeLoop_spec {α : Type} (keys : List Key) :
    ∀ (n rem idx : Nat) (r : RemoveResult α), rem ≤ n → idx + rem = keys.length →
      ∃ bs : List (List Key), bs.flatten = keys.drop idx
        ∧ (∀ b ∈ bs, 1 ≤ b.length ∧ b.length ≤ 500)
        ∧ removeLoop keys none rem idx r
            = { table := r.table.deleteMulti bs.flatten, batches := r.batches ++ bs,
                err := r.err, panicked := r.panicked }
        ∧ ∀ k : Nat, removeLoop keys (some (r.batches.length + k)) rem idx r
            = if k < bs.length then
                { table := r.table.deleteMulti (bs.take k).flatten,
                  batches := r.batches ++ bs.take (k + 1), err := true,
                  panicked := r.panicked }
              else
                { table := r.table.deleteMulti bs.flatten, batches := r.batches ++ bs,
                  err := r.err, panicked := r.panicked } := by
  intro n
  induction n with
  | zero =>
    intro rem idx r hle hlen
    have h0 : rem = 0 := by omega
    subst h0
    have hidx : idx = keys.length := by omega
    refine ⟨[], ?_, ?_, ?_, ?_⟩
    · simp [hidx]
    · simp
    · rw [removeLoop]
      simp [Table.deleteMulti]
    · intro k
      rw [removeLoop]
      simp [Table.deleteMulti]
  | succ n ih =>
    intro rem idx r hle hlen
    by_cases hpos : 0 < rem
    · have hb : ((keys.drop idx).take (min rem 500)).length = min rem 500 := by
        rw [List.length_take, List.length_drop]
        omega
      obtain ⟨bs, hjoin, hbs, hnone, hsome⟩ := ih (rem - min rem 500) (idx + min rem 500)
        { r with table := r.table.deleteMulti ((keys.drop idx).take (min rem 500)),
                 batches := r.batches ++ [(keys.drop idx).take (min rem 500)] }
        (by omega) (by omega)
      refine ⟨(keys.drop idx).take (min rem 500) :: bs, ?_, ?_, ?_, ?_⟩
      · rw [List.flatten_cons, hjoin, ← List.drop_drop, List.take_append_drop]
      · intro b hmem
        rcases List.mem_cons.mp hmem with rfl | hmem
        · rw [hb]
          omega
        · exact hbs b hmem
      · rw [removeLoop_step keys none rem idx r hpos hlen, if_neg (by simp), hnone]
        simp [Table.deleteMulti_append]
      · intro k
        rw [removeLoop_step keys _ rem idx r hpos hlen]
        cases k with
        | zero =>
          simp [Table.deleteMulti]
        | succ k =>
          rw [if_neg (by simp)]
          have hk := hsome k
          simp only [List.length_append, List.length_singleton] at hk
          rw [show r.batches.length + (k + 1) = r.batches.length + 1 + k by omega, hk]
          simp [Table.deleteMulti_append]
    · have h0 : rem = 0 := by omega
      subst h0
      have hidx : idx = keys.length := by omega
      refine ⟨[], ?_, ?_, ?_, ?_⟩
      · simp [hidx]
      · simp
      · rw [removeLoop]
        simp [Table.deleteMulti]
      · intro k
        rw [removeLoop]
        simp [Table.deleteMulti]

theorem removeFromDatastore_1001 :
    (removeFromDatastore [some 7] (List.range 1001) none).batches.map List.length
      = [500, 500, 1] := by
  decide!

/-- C21: for every list of keys, `removeFromDatastore` (a total function: the count of
remaining keys decreases at each iteration) slices without going out of range; when no
`DeleteMulti` call fails it returns no error, its batches have between 1 and 500 keys each,
their concatenation in order is the input list, and the table is the one with these keys
deleted. When call number `k` (from 0) fails, the error is returned, the batches issued are
the first `k + 1` of the run without failure and only the first `k` are deleted; a `k`
beyond the last batch changes nothing. -/
theorem removeFromDatastore_batches {α : Type} (t : Table α) (keys : List Key) :
    (removeFromDatastore t keys none).panicked = false
      ∧ (removeFromDatastore t keys none).err = false
      ∧ (removeFromDatastore t keys none).batches.flatten = keys
      ∧ (∀ b ∈ (removeFromDatastore t keys none).batches, 1 ≤ b.length ∧ b.length ≤ 500)
      ∧ (removeFromDatastore t keys none).table = t.deleteMulti keys
      ∧ ∀ k : Nat,
          (removeFromDatastore t keys (some k)).panicked = false
          ∧ (k < (removeFromDatastore t keys none).batches.length →
              (removeFromDatastore t keys (some k)).err = true
              ∧ (removeFromDatastore t keys (some k)).batches
                  = (removeFromDatastore t keys none).batches.take (k + 1)
              ∧ (removeFromDatastore t keys (some k)).table
                  = t.deleteMulti ((removeFromDatastore t keys none).batches.take k).flatten)
          ∧ ((removeFromDatastore t keys none).batches.length ≤ k →
              (removeFromDatastore t keys (some k)).err = false
              ∧ (removeFromDatastore t keys (some k)).batches
                  = (removeFromDatastore t keys none).batches
              ∧ (removeFromDatastore t keys (some k)).table = t.deleteMulti keys) := by
  obtain ⟨bs, hjoin, hbs, hnone, hsome⟩ := removeLoop_spec keys keys.length keys.length 0
    ({ table := t, batches := [], err := false, panicked := false } : RemoveResult α)
    (le_refl _) (by omega)
  simp only [List.drop_zero, List.nil_append, List.length_nil, Nat.zero_add] at hjoin hnone hsome
  unfold removeFromDatastore
  rw [hnone]
  refine ⟨rfl, rfl, hjoin, hbs, by rw [hjoin], ?_⟩
  intro k
  rw [hsome k]
  by_cases hk : k < bs.length
  · rw [if_pos hk]
    exact ⟨rfl, fun _ => ⟨rfl, rfl, rfl⟩, fun h => absurd hk (by simpa using h)⟩
  · rw [if_neg hk]
    exact ⟨rfl, fun h => absurd h hk, fun _ => ⟨rfl, rfl, by rw [hjoin]⟩⟩

theorem removeFromDatastore_batches_witness :
    (removeFromDatastore [some 7] (List.range 1001) none).batches.flatten = List.range 1001
      ∧ (∀ b ∈ (removeFromDatastore [some 7] (List.range 1001) none).batches,
          1 ≤ b.length ∧ b.length ≤ 500)
      ∧ (removeFromDatastore [some 7] (List.range 1001) (some 1)).err = true
      ∧ (removeFromDatastore [some 7] (List.range 1001) (some 1)).batches
        = (removeFromDatastore [some 7] (List.range 1001) none).batches.take (1 + 1)
      ∧ (removeFromDatastore [some 7] (List.range 1001) (some 3)).err = false := by
  have h := removeFromDatastore_batches [some 7] (List.range 1001)
  have hl : (removeFromDatastore [some 7] (List.range 1001) none).batches.length = 3 := by
    have := congrArg List.length removeFromDatastore_1001
    simpa using this
  have hk1 := (h.2.2.2.2.2 1).2.1 (by rw [hl]; decide)
  have hk3 := (h.2.2.2.2.2 3).2.2 (by rw [hl])
  exact ⟨h.2.2.1, h.2.2.2.1, hk1.1, hk1.2.1, hk3.1⟩

/-! ### Clearing stuck allocation counters -/

theorem lookup_cacheDelete_of_ne {β : Type} (c : List (String × β)) (k k2 : String)
    (h : k2 ≠ k) : (cacheDelete c k).lookup k2 = c.lookup k2 := by
  unfold cacheDelete
  induction c with
  | nil => rfl
  | cons e r ih =>
    rw [show e = (e.1, e.2) from rfl]
    by_cases he : e.1 = k
    · have h2 : (k2 == k) = false := by
        simp only [beq_eq_false_iff_ne, ne_eq]
        exact h
      simp only [List.filter_cons, he, bne_self_eq_false, Bool.false_eq_true, if_false]
      rw [List.lookup_cons, h2]
      exact ih
    · simp only [List.filter_cons, bne_iff_ne, ne_eq, he, not_false_eq_true, decide_True,
        if_true]
      rw [List.lookup_cons, List.lookup_cons, ih]

theorem atoiCounter_eq_zero (n : Nat) : (atoiCounter n).1 = 0 ↔ n = 0 := by
  unfold atoiCounter
  split
  · constructor
    · intro h
      simp at h
    · intro h
      omega
  · exact Iff.rfl

/-- Without fault, `clearStuckAllocations` leaves the entry of its region absent or 0. -/
theorem clearStuckAllocations_self (region : String) (w : World) :
    (clearStuckAllocations region noFreeFaults w).activeAllocations.lookup region = none
      ∨ (clearStuckAllocations region noFreeFaults w).activeAllocations.lookup region
        = some 0 := by
  unfold clearStuckAllocations
  simp only [noFreeFaults, Bool.false_eq_true, if_false]
  cases hl : w.activeAllocations.lookup region with
  | none => simp [hl]
  | some n =>
    by_cases hn : n = 0
    · subst hn
      right
      simp [atoiCounter, hl]
    · left
      have h0 : ((atoiCounter n).1 != 0) = true := by
        simp only [bne_iff_ne, ne_eq]
        exact fun h => hn ((atoiCounter_eq_zero n).mp h)
      simp only [h0, if_true]
      exact lookup_cacheDelete _ _

/-- The pass `clearStuckAllocations` leaves the entries of the other regions alone. -/
theorem clearStuckAllocations_other (region region2 : String) (f : FreeFaults) (w : World)
    (h : region2 ≠ region) :
    (clearStuckAllocations region f w).activeAllocations.lookup region2
      = w.activeAllocations.lookup region2 := by
  unfold clearStuckAllocations
  simp only []
  repeat' split
  all_goals first
    | rfl
    | exact lookup_cacheDelete_of_ne _ _ _ h

/-- The pass `clearStuckAllocations` changes nothing when the entry is absent or 0. -/
theorem clearStuckAllocations_idle (region : String) (f : FreeFaults) (w : World)
    (h : w.activeAllocations.lookup region = none
      ∨ w.activeAllocations.lookup region = some 0) :
    clearStuckAllocations region f w = w := by
  unfold clearStuckAllocations
  rcases h with h | h
  · simp [h]
  · cases f.cacheGet <;> simp [h, atoiCounter]

/-- C22: for every world, after `freeAllocationsHandler` has run without cache fault the
entry `activeAllocations[region]` of each of the regions `na` and `eu` is absent or holds
0; and, whatever the faults, an entry of `na` or `eu` that was absent or 0 before is
looked up as before. The rest of the world is never changed. -/
theorem freeAllocationsHandler_clears (w : World) (region : String)
    (hRegion : region = naRegionName ∨ region = euRegionName) :
    ((freeAllocationsHandler noFreeFaults noFreeFaults w).2.activeAllocations.lookup region
          = none
        ∨ (freeAllocationsHandler noFreeFaults noFreeFaults w).2.activeAllocations.lookup
            region = some 0)
      ∧ (∀ fNa fEu : FreeFaults,
          (w.activeAllocations.lookup region = none
            ∨ w.activeAllocations.lookup region = some 0) →
          (freeAllocationsHandler fNa fEu w).2.activeAllocations.lookup region
            = w.activeAllocations.lookup region)
      ∧ (∀ fNa fEu : FreeFaults,
          { (freeAllocationsHandler fNa fEu w).2 with
              activeAllocations := w.activeAllocations } = w) := by
  have hne : naRegionName ≠ euRegionName := by decide
  refine ⟨?_, ?_, ?_⟩
  · unfold freeAllocationsHandler
    rcases hRegion with h | h
    · subst h
      rw [clearStuckAllocations_other _ _ _ _ hne]
      exact clearStuckAllocations_self _ _
    · subst h
      exact clearStuckAllocations_self _ _
  · intro fNa fEu h0
    unfold freeAllocationsHandler
    rcases hRegion with h | h
    · subst h
      rw [clearStuckAllocations_other _ _ _ _ hne, clearStuckAllocations_idle _ _ _ h0]
    · subst h
      rw [clearStuckAllocations_idle euRegionName fEu
        (clearStuckAllocations naRegionName fNa w)
        (by rw [clearStuckAllocations_other _ _ _ _ hne.symm]; exact h0)]
      exact clearStuckAllocations_other _ _ _ _ hne.symm
  · intro fNa fEu
    unfold freeAllocationsHandler clearStuckAllocations
    simp only []
    repeat' split
    all_goals rfl

theorem freeAllocationsHandler_clears_witness :
    ((freeAllocationsHandler noFreeFaults noFreeFaults wTwoInFlight).2.activeAllocations.lookup
          "na" = none
        ∨ (freeAllocationsHandler noFreeFaults noFreeFaults wTwoInFlight).2.activeAllocations.lookup
            "na" = some 0)
      ∧ (freeAllocationsHandler noFreeFaults noFreeFaults
            wFourFull).2.activeAllocations.lookup "na"
          = wFourFull.activeAllocations.lookup "na" :=
  ⟨(freeAllocationsHandler_clears wTwoInFlight "na" (Or.inl rfl)).1,
    (freeAllocationsHandler_clears wFourFull "na" (Or.inl rfl)).2.1 noFreeFaults noFreeFaults
      (Or.inr (by decide))⟩

/-! ### The completion signal of a `/manage` pass -/

theorem wTenFull_reachable : Reachable wTenFull :=
  heartbeatAll_reachable _ _ (runAllocation_reachable _ _ (runAlloc_reachable _
    (runManage_reachable _ wNineFull_reachable)))

theorem manageAllocate_sent_le (region : String) (f : ManageFaults) (w : World)
    (full active : Nat) : (manageAllocate region f w full active).2.length ≤ 1 := by
  unfold manageAllocate
  simp only []
  repeat' split
  all_goals simp

theorem manageRegionServers_sent_le (region : String) (now : Time) (f : ManageFaults)
    (w : World) : (manageRegionServers region now f w).2.length ≤ 1 := by
  unfold manageRegionServers
  simp only []
  repeat' split
  all_goals first
    | exact manageAllocate_sent_le _ _ _ _ _
    | simp

/-- C23 (the code on failing runs): a pass of `manageRegionServers` never sends more than
one value on the completion channel, but three of its paths return without sending any.
From the empty store the service reaches a world with ten Active, full servers in `na`; at
660 s the pass of `na`, without any I/O fault, takes the "max servers reached" return and
sends nothing, the pass of `eu` sends its one value, and `manageServersHandler`, which
waits for two values, does not return. A pass whose `ServerStats` write fails, and a pass
whose `/dealloc` task cannot be added, send nothing either. -/
theorem manageRegionServers_silent_return :
    (∀ (region : String) (now : Time) (f : ManageFaults) (w : World),
        (manageRegionServers region now f w).2.length ≤ 1)
      ∧ Reachable wTenFull
      ∧ activeServers (660 * Second) "na" wTenFull = 10
      ∧ fullServers (660 * Second) "na" wTenFull = 10
      ∧ (manageRegionServers "na" (660 * Second) noManageFaults wTenFull).2 = []
      ∧ (manageServersHandler (660 * Second) noManageFaults noManageFaults wTenFull).2 = [1]
      ∧ manageServersHandlerReturns (660 * Second) noManageFaults noManageFaults wTenFull
        = false
      ∧ (manageRegionServers "na" 0 { noManageFaults with statsPut := true } emptyWorld).2 = []
      ∧ manageServersHandlerReturns 0 { noManageFaults with statsPut := true } noManageFaults
          emptyWorld = false
      ∧ (manageRegionServers "na" (200 * Second) { noManageFaults with deallocAdd := some 0 }
          wJoined).2 = []
      ∧ manageServersHandlerReturns (200 * Second)
          { noManageFaults with deallocAdd := some 0 } noManageFaults wJoined = false :=
  ⟨manageRegionServers_sent_le, wTenFull_reachable, by decide!, by decide!, by decide!,
    by decide!, by decide!, by decide!, by decide!, by decide!, by decide!⟩

/-! ### The first entry of the allocations response -/

/-- C24 (the code on a failing input): when the provider answers the allocations query
without error, with `success = true` and an empty `allocations` list, the expression
`allocationResponse.Allocations[0]` of `allocationsServerHandler` is out of range: the
handler panics, for every request, world and fault setting, before it reaches the ready /
not-ready decision. With at least one entry in the list, or on the development server, the
handler does not panic. -/
theorem allocationsServerHandler_empty_panics :
    (∀ (serverID region : String) (attempts : Option Int) (now : Time) (f : AllocFaults)
        (w : World),
        allocationsServerHandler serverID region attempts now false
          { err := false, Success := true, Allocations := [] } f w = none)
      ∧ (∀ (serverID region : String) (attempts : Option Int) (now : Time) (f : AllocFaults)
        (w : World) (err success : Bool) (info : allocationsResponseInfo)
        (rest : List allocationsResponseInfo),
        (allocationsServerHandler serverID region attempts now false
          { err := err, Success := success, Allocations := info :: rest } f w).isSome = true)
      ∧ (∀ (serverID region : String) (attempts : Option Int) (now : Time) (f : AllocFaults)
        (w : World) (provider : AllocationsResult),
        (allocationsServerHandler serverID region attempts now true provider f w).isSome
          = true)
      ∧ allocationsServerHandler "S1" "na" (some 0) (10 * Second) false
          { err := false, Success := true, Allocations := [] } noAllocFaults wTwoInFlight
        = none := by
  refine ⟨?_, ?_, ?_, ?_⟩
  · intro serverID region attempts now f w
    simp [allocationsServerHandler, allocationsCheck]
  · intro serverID region attempts now f w err success info rest
    unfold allocationsServerHandler allocationsCheck
    simp only [Bool.false_eq_true, if_false]
    repeat' split
    all_goals rfl
  · intro serverID region attempts now f w provider
    unfold allocationsServerHandler allocationsCheck
    simp only [if_true, Bool.false_eq_true, if_false, Bool.not_true]
    repeat' split
    all_goals rfl
  · simp [allocationsServerHandler, allocationsCheck]

end Coordinator
